import Mathlib

/-!
# MySensors node library: message header codec and node protocol engine

A shallow embedding of `libraries/MySensors/MyMessage.h` and
`libraries/MySensors/MySensor.cpp`.

* Bytes (`uint8_t`) are natural numbers below 256; every store of a macro result
  into a byte is reduced modulo 256.  `unsigned long` is 32 bits wide.
* The radio manager, the clock, the EEPROM and the application callbacks are
  outside the library.  Their answers are read from an `Env` (one answer per call,
  indexed by the number of earlier calls) and every call made to them is appended
  to `State.trace`.
* A callback call is recorded with its argument; what the application does inside
  the callback is not part of the library.
* `for (;;)` and `while (1)` never give control back: the outcome is `Res.halt`.
* `sendRoute`, `requestNodeId`, `waitForReply` and `process` call each other.
  The embedding closes this cycle with a fuel counter; `Res.outOfFuel` says that
  the counter was too small to see how the call ends.
-/

namespace MySensors

/-! ## MyMessage.h -/

def PROTOCOL_VERSION : Nat := 2
def MAX_MESSAGE_LENGTH : Nat := 32
def HEADER_SIZE : Nat := 7
def MAX_PAYLOAD : Nat := MAX_MESSAGE_LENGTH - HEADER_SIZE

-- mysensor_command
def C_PRESENTATION : Nat := 0
def C_SET : Nat := 1
def C_REQ : Nat := 2
def C_INTERNAL : Nat := 3
def C_STREAM : Nat := 4

-- mysensor_internal
def I_BATTERY_LEVEL : Nat := 0
def I_TIME : Nat := 1
def I_VERSION : Nat := 2
def I_ID_REQUEST : Nat := 3
def I_ID_RESPONSE : Nat := 4
def I_INCLUSION_MODE : Nat := 5
def I_CONFIG : Nat := 6
def I_FIND_PARENT : Nat := 7
def I_FIND_PARENT_RESPONSE : Nat := 8
def I_LOG_MESSAGE : Nat := 9
def I_CHILDREN : Nat := 10
def I_SKETCH_NAME : Nat := 11
def I_SKETCH_VERSION : Nat := 12
def I_REBOOT : Nat := 13
def I_GATEWAY_READY : Nat := 14
def I_REQUEST_SIGNING : Nat := 15
def I_GET_NONCE : Nat := 16
def I_GET_NONCE_RESPONSE : Nat := 17

-- mysensor_payload
def P_STRING : Nat := 0
def P_BYTE : Nat := 1
def P_INT16 : Nat := 2
def P_UINT16 : Nat := 3
def P_LONG32 : Nat := 4
def P_ULONG32 : Nat := 5
def P_CUSTOM : Nat := 6
def P_FLOAT32 : Nat := 7

/-- The macro `BIT(n)`, `1<<(n)`. -/
def BIT (n : Nat) : Nat := 1 <<< n

/-- The macro `BIT_MASK(len)`, `BIT(len)-1`. -/
def BIT_MASK (len : Nat) : Nat := BIT len - 1

/-- The macro `BF_MASK(start, len)`, `BIT_MASK(len)<<(start)`. -/
def BF_MASK (start len : Nat) : Nat := BIT_MASK len <<< start

/-- The macro `BF_PREP(x, start, len)`, `((x)&BIT_MASK(len)) << (start)`. -/
def BF_PREP (x start len : Nat) : Nat := (x &&& BIT_MASK len) <<< start

/-- The macro `BF_GET(y, start, len)`, `((y)>>(start)) & BIT_MASK(len)`. -/
def BF_GET (y start len : Nat) : Nat := (y >>> start) &&& BIT_MASK len

/-- The operator `~` on a mask.  The operands of the macros are promoted to `int`,
16 bits on the AVR targets of the library; the complement is taken on that bit
pattern.  (The byte that is stored keeps the low 8 bits only.) -/
def intNot (m : Nat) : Nat := 65535 ^^^ m

/-- The macro `BF_SET(y, x, start, len)`: the new value of the byte `y`,
`((y) &~ BF_MASK(start, len)) | BF_PREP(x, start, len)`, stored into a `uint8_t`. -/
def BF_SET (y x start len : Nat) : Nat :=
  ((y &&& intNot (BF_MASK start len)) ||| BF_PREP x start len) % 256

/-- The class `MyMessage`: seven header bytes and the payload union, seen as its
widest member `char data[MAX_PAYLOAD + 1]`. -/
structure MyMessage where
  last : Nat
  sender : Nat
  destination : Nat
  version_length : Nat
  command_ack_payload : Nat
  type : Nat
  sensor : Nat
  data : List Nat
deriving DecidableEq, Repr

/-- The value of `sizeof(MyMessage)`: the packed class has `HEADER_SIZE` header
bytes and `MAX_PAYLOAD + 1` payload bytes. -/
def sizeofMyMessage : Nat := HEADER_SIZE + (MAX_PAYLOAD + 1)

def mSetVersion (m : MyMessage) (version : Nat) : MyMessage :=
  { m with version_length := BF_SET m.version_length version 0 2 }
def mGetVersion (m : MyMessage) : Nat := BF_GET m.version_length 0 2

def mSetSigned (m : MyMessage) (sgn : Nat) : MyMessage :=
  { m with version_length := BF_SET m.version_length sgn 2 1 }
def mGetSigned (m : MyMessage) : Nat := BF_GET m.version_length 2 1

def mSetLength (m : MyMessage) (length : Nat) : MyMessage :=
  { m with version_length := BF_SET m.version_length length 3 5 }
def mGetLength (m : MyMessage) : Nat := BF_GET m.version_length 3 5

def mSetCommand (m : MyMessage) (command : Nat) : MyMessage :=
  { m with command_ack_payload := BF_SET m.command_ack_payload command 0 3 }
def mGetCommand (m : MyMessage) : Nat := BF_GET m.command_ack_payload 0 3

def mSetRequestAck (m : MyMessage) (rack : Nat) : MyMessage :=
  { m with command_ack_payload := BF_SET m.command_ack_payload rack 3 1 }
def mGetRequestAck (m : MyMessage) : Nat := BF_GET m.command_ack_payload 3 1

def mSetAck (m : MyMessage) (ackMsg : Nat) : MyMessage :=
  { m with command_ack_payload := BF_SET m.command_ack_payload ackMsg 4 1 }
def mGetAck (m : MyMessage) : Nat := BF_GET m.command_ack_payload 4 1

def mSetPayloadType (m : MyMessage) (pt : Nat) : MyMessage :=
  { m with command_ack_payload := BF_SET m.command_ack_payload pt 5 3 }
def mGetPayloadType (m : MyMessage) : Nat := BF_GET m.command_ack_payload 5 3

/-- A C `bool` used as an integer operand. -/
def boolToNat (b : Bool) : Nat := if b then 1 else 0

/-- Modelled from the spec: `MyMessage::set(const char*)` applied to the empty
string `""` (MyMessage.cpp is not among the sources).  Setting a payload sets the
matching payload-type tag and the length field to the serialized size, here
`P_STRING` and 0; no payload byte is copied. -/
def MyMessage.setEmptyString (m : MyMessage) : MyMessage :=
  mSetPayloadType (mSetLength m 0) P_STRING

/-- Modelled from the spec: `MyMessage::getByte()` (MyMessage.cpp is not among
the sources).  The byte accessor returns the first payload byte of a frame tagged
`P_BYTE` and zero when the payload-type tag does not match. -/
def MyMessage.getByteSpec (m : MyMessage) : Nat :=
  if mGetPayloadType m = P_BYTE then m.data.headD 0 else 0

/-- The seven bit fields of the two packed header bytes. -/
inductive HeaderField where
  | version
  | signed
  | length
  | command
  | requestAck
  | ack
  | payloadType
deriving DecidableEq, Repr

/-- The setter macro of a header field. -/
def HeaderField.set : HeaderField → MyMessage → Nat → MyMessage
  | .version => mSetVersion
  | .signed => mSetSigned
  | .length => mSetLength
  | .command => mSetCommand
  | .requestAck => mSetRequestAck
  | .ack => mSetAck
  | .payloadType => mSetPayloadType

/-- The getter macro of a header field. -/
def HeaderField.get : HeaderField → MyMessage → Nat
  | .version => mGetVersion
  | .signed => mGetSigned
  | .length => mGetLength
  | .command => mGetCommand
  | .requestAck => mGetRequestAck
  | .ack => mGetAck
  | .payloadType => mGetPayloadType

/-- The number of values of a header field, 2 to the power of its width. -/
def HeaderField.range : HeaderField → Nat
  | .version => 4
  | .signed => 2
  | .length => 32
  | .command => 8
  | .requestAck => 2
  | .ack => 2
  | .payloadType => 8

/-- The setter macros applied one after the other, the head of the list first. -/
def applySetters (m : MyMessage) (ops : List (HeaderField × Nat)) : MyMessage :=
  ops.foldl (fun acc op => op.1.set acc op.2) m

/-! ## MySensor.cpp: constants and collaborators -/

/-- Modelled from the spec: the macro `AUTO` of MySensor.h (not among the
sources), the sentinel address 255 of a node without an address. -/
def AUTO : Nat := 255

/-- Modelled from the spec: the macro `GATEWAY_ADDRESS` of MySensor.h (not among
the sources), the address 0 reserved for the gateway. -/
def GATEWAY_ADDRESS : Nat := 0

/-- One call made by the library to a collaborator, in the order of the calls. -/
inductive Event where
  /-- The call `manager->sendtoWait(&message, sizeof(message), message.destination)`:
  the frame handed over, the length, the destination, and the value of `nc.nodeId`
  at the time of the call. -/
  | sendtoWait (frame : MyMessage) (len : Nat) (dest : Nat) (nodeId : Nat)
  /-- The call `msgCallback(msg)`, made by the invocation of `process()` whose
  `recvfromAck` call was call number `poll`. -/
  | msgCallback (poll : Nat) (m : MyMessage)
  /-- The call `timeCallback(msg.getULong())`. -/
  | timeCallback (value : Nat)
  /-- The call `eeprom_write_byte(addr, value)`. -/
  | eepromWrite (addr : Nat) (value : Nat)
  /-- The call `manager->setThisAddress(a)`. -/
  | setThisAddress (a : Nat)
  /-- The call `wdt_enable(WDTO_15MS)`. -/
  | wdtEnable
deriving DecidableEq, Repr

/-- The members of the `MySensor` object, and the message object of the application,
that lie outside the buffer `msg`. -/
structure Members where
  nodeId : Nat
  isMetric : Nat
  failedTransmissions : Nat
  ack : MyMessage
  usr : MyMessage
  hasMsgCallback : Bool
  hasTimeCallback : Bool

/-- What MySensor.cpp takes from outside: constants of headers that are not among
the sources, the layout of the class, and the answers of the radio manager, the clock
and the payload accessors of MyMessage.cpp. -/
structure Env where
  /-- The macro `NODE_SENSOR_ID` (MySensor.h). -/
  NODE_SENSOR_ID : Nat
  /-- The macro `EEPROM_NODE_ID_ADDRESS` (MySensor.h). -/
  EEPROM_NODE_ID_ADDRESS : Nat
  /-- The macro `EEPROM_CONTROLLER_CONFIG_ADDRESS` (MySensor.h). -/
  EEPROM_CONTROLLER_CONFIG_ADDRESS : Nat
  /-- The macro `EEPROM_LOCAL_CONFIG_ADDRESS` (MySensor.h). -/
  EEPROM_LOCAL_CONFIG_ADDRESS : Nat
  /-- The status `RH_ROUTER_ERROR_NONE` of the radio library. -/
  RH_ROUTER_ERROR_NONE : Nat
  /-- The width in bits of the member `failedTransmissions` (MySensor.h). -/
  counterBits : Nat
  /-- The call `manager->recvfromAck(&msg, &len, &from)` number `k`, on the current
  content of `msg`: `none` when it returns false, else the new content of `msg`. -/
  recvfromAck : Nat → MyMessage → Option MyMessage
  /-- The status returned by call number `k` of `manager->sendtoWait(frame, len, dest)`. -/
  sendtoWait : Nat → MyMessage → Nat → Nat → Nat
  /-- The value returned by call number `k` of `millis()`. -/
  millis : Nat → Nat
  /-- The accessor `MyMessage::getByte()`. -/
  getByte : MyMessage → Nat
  /-- The accessor `MyMessage::getULong()`. -/
  getULong : MyMessage → Nat
  /-- The statement `msg.data[i] = 0` for an index `i` past the last index
  `MAX_PAYLOAD` of `data`: the zero is stored outside `msg`, on the byte that the
  layout of class `MySensor` puts there (MySensor.h).  Given the members before the
  store, the members after it. -/
  strayStore : Nat → Members → Members

/-- The members of a `MySensor` object, a message object owned by the caller of
`send`/`sendRoute`, the EEPROM, and the record of the calls made so far. -/
structure State where
  /-- The member `nc.nodeId`. -/
  nodeId : Nat
  /-- The member `cc.isMetric`. -/
  isMetric : Nat
  failedTransmissions : Nat
  /-- The buffer `msg` of the last received or built message. -/
  msg : MyMessage
  /-- The buffer `ack`. -/
  ack : MyMessage
  /-- A message object of the application. -/
  usr : MyMessage
  /-- Whether `msgCallback != NULL`. -/
  hasMsgCallback : Bool
  /-- Whether `timeCallback != NULL`. -/
  hasTimeCallback : Bool
  /-- The EEPROM content, by address. -/
  eeprom : Nat → Nat
  /-- The number of `recvfromAck` calls made. -/
  polls : Nat
  /-- The number of `sendtoWait` calls made. -/
  sends : Nat
  /-- The number of `millis` calls made. -/
  clock : Nat
  trace : List Event

/-- The message object a `MyMessage &` parameter refers to. -/
inductive Ref where
  | msg
  | ack
  | usr
deriving DecidableEq, Repr

def State.get (s : State) : Ref → MyMessage
  | .msg => s.msg
  | .ack => s.ack
  | .usr => s.usr

def State.put (s : State) (r : Ref) (m : MyMessage) : State :=
  match r with
  | .msg => { s with msg := m }
  | .ack => { s with ack := m }
  | .usr => { s with usr := m }

def State.log (s : State) (e : Event) : State :=
  { s with trace := s.trace ++ [e] }

/-- The library function `eeprom_write_byte`. -/
def State.eepromWriteByte (s : State) (addr value : Nat) : State :=
  { s with eeprom := fun a => if a = addr then value else s.eeprom a,
           trace := s.trace ++ [.eepromWrite addr value] }

/-- The statement `msg.data[i] = 0` for an index `i` past the end of `data`: the
store reaches neither `msg` itself nor the EEPROM. -/
def State.strayStore (s : State) (env : Env) (i : Nat) : State :=
  let after := env.strayStore i ⟨s.nodeId, s.isMetric, s.failedTransmissions, s.ack, s.usr,
    s.hasMsgCallback, s.hasTimeCallback⟩
  { s with nodeId := after.nodeId, isMetric := after.isMetric,
           failedTransmissions := after.failedTransmissions, ack := after.ack,
           usr := after.usr, hasMsgCallback := after.hasMsgCallback,
           hasTimeCallback := after.hasTimeCallback }

/-- How a call ends. -/
inductive Res (α : Type) where
  /-- The call returns `a`. -/
  | ret (a : α) (s : State)
  /-- The call reaches `for (;;)` or `while (1)` in state `s` and never returns. -/
  | halt (s : State)
  /-- The fuel of the embedding ran out. -/
  | outOfFuel

def Res.bind {α β : Type} (x : Res α) (f : α → State → Res β) : Res β :=
  match x with
  | .ret a s => f a s
  | .halt s => .halt s
  | .outOfFuel => .outOfFuel

/-- The state in which the call returned or halted. -/
def Res.final {α : Type} : Res α → Option State
  | .ret _ s => some s
  | .halt s => some s
  | .outOfFuel => none

/-- The inline function `build`. -/
def build (m : MyMessage) (sender destination sensor command type : Nat)
    (enableAck : Bool) : MyMessage :=
  let m := { m with sender := sender }
  let m := { m with destination := destination }
  let m := { m with sensor := sensor }
  let m := { m with type := type }
  let m := mSetCommand m command
  let m := mSetRequestAck m (boolToNat enableAck)
  mSetAck m (boolToNat false)

/-- The method `MySensor::sendWrite` on the message `r` refers to. -/
def sendWrite (env : Env) (r : Ref) (s : State) : Bool × State :=
  let s := s.put r (mSetVersion (s.get r) PROTOCOL_VERSION)
  let message := s.get r
  let status := env.sendtoWait s.sends message sizeofMyMessage message.destination
  let s := { s with sends := s.sends + 1 }
  let s := s.log (.sendtoWait message sizeofMyMessage message.destination s.nodeId)
  if status ≠ env.RH_ROUTER_ERROR_NONE then (false, s) else (true, s)

/-- The method `MySensor::sendRoute`, given what its call of `requestNodeId()` does. -/
def sendRouteWith (env : Env) (requestNodeId : State → Res Unit) (r : Ref) (s : State) :
    Res Bool :=
  let isInternal := mGetCommand (s.get r) == C_INTERNAL
  if s.nodeId == AUTO && !(isInternal && (s.get r).type == I_ID_REQUEST) then
    (requestNodeId s).bind fun _ s => .ret false s
  else
    let (ok, s) := sendWrite env r s
    if !ok then
      .ret ok { s with failedTransmissions := (s.failedTransmissions + 1) % 2 ^ env.counterBits }
    else
      .ret ok { s with failedTransmissions := 0 }

/-- The acknowledgement block of `MySensor::process`. -/
def ackStep (env : Env) (requestNodeId : State → Res Unit) (s : State) : Res Unit :=
  if mGetRequestAck s.msg ≠ 0 then
    let s := { s with ack := s.msg }
    let s := { s with ack := mSetRequestAck s.ack (boolToNat false) }
    let s := { s with ack := mSetAck s.ack (boolToNat true) }
    let s := { s with ack := { s.ack with sender := s.nodeId } }
    let s := { s with ack := { s.ack with destination := s.msg.sender } }
    (sendRouteWith env requestNodeId .ack s).bind fun _ s => .ret () s
  else
    .ret () s

/-- The block of `MySensor::process` for an internal command of the gateway. -/
def internalDispatch (env : Env) (type : Nat) (s : State) : Res Bool :=
  if type = I_REBOOT then
    .halt (s.log .wdtEnable)
  else if type = I_ID_RESPONSE then
    if s.nodeId = AUTO then
      let s := { s with nodeId := env.getByte s.msg }
      if s.nodeId = AUTO then
        .halt s
      else
        let s := s.log (.setThisAddress s.nodeId)
        let s := s.eepromWriteByte env.EEPROM_NODE_ID_ADDRESS s.nodeId
        .ret false s
    else
      .ret false s
  else if type = I_CONFIG then
    let isMetric := env.getByte s.msg == 77
    if s.isMetric ≠ boolToNat isMetric then
      let s := { s with isMetric := boolToNat isMetric }
      let s := s.eepromWriteByte env.EEPROM_CONTROLLER_CONFIG_ADDRESS (boolToNat isMetric)
      .ret false s
    else
      .ret false s
  else if type = I_TIME then
    if s.hasTimeCallback then
      .ret false (s.log (.timeCallback (env.getULong s.msg)))
    else
      .ret false s
  else
    .ret false s

/-- The end of `MySensor::process`: the call of the message callback, if one is
registered, and `return true`. -/
def deliver (poll : Nat) (s : State) : Res Bool :=
  if s.hasMsgCallback then
    .ret true (s.log (.msgCallback poll s.msg))
  else
    .ret true s

/-- The method `MySensor::process`, given what `requestNodeId()` does.  The result
of `manager->available()` is not used and the call is left out; `poll` is the number
of this invocation's `recvfromAck` call.  The terminator `msg.data[mGetLength(msg)] = 0`
is written into `data` when the length field is an index of `data` (0 to
`MAX_PAYLOAD`) and is a store outside `msg` otherwise. -/
def processWith (env : Env) (requestNodeId : State → Res Unit) (s : State) : Res Bool :=
  let poll := s.polls
  match env.recvfromAck poll s.msg with
  | none => .ret false { s with polls := poll + 1 }
  | some m =>
    let s := { s with polls := poll + 1, msg := m }
    let s :=
      if mGetLength s.msg ≤ MAX_PAYLOAD then
        { s with msg := { s.msg with data := s.msg.data.set (mGetLength s.msg) 0 } }
      else
        s.strayStore env (mGetLength s.msg)
    if ¬ (mGetVersion s.msg = PROTOCOL_VERSION) then
      .ret false s
    else
      let command := mGetCommand s.msg
      let type := s.msg.type
      let sender := s.msg.sender
      let destination := s.msg.destination
      if destination = s.nodeId then
        (ackStep env requestNodeId s).bind fun _ s =>
          if command = C_INTERNAL then
            if sender = GATEWAY_ADDRESS then
              internalDispatch env type s
            else
              deliver poll s
          else
            deliver poll s
      else
        .ret false s

/-- The loop `while (millis() - enter < 2000) process();` of
`MySensor::waitForReply`, in `unsigned long` arithmetic. -/
def waitLoop (env : Env) (process : State → Res Bool) (enter : Nat) :
    Nat → State → Res Unit
  | 0, _ => .outOfFuel
  | n + 1, s =>
    let now := env.millis s.clock % 2 ^ 32
    let s := { s with clock := s.clock + 1 }
    if (now + 2 ^ 32 - enter) % 2 ^ 32 < 2000 then
      (process s).bind fun _ s => waitLoop env process enter n s
    else
      .ret () s

/-- The method `MySensor::waitForReply`, given what `process()` does. -/
def waitForReplyWith (env : Env) (process : State → Res Bool) (fuel : Nat) (s : State) :
    Res Unit :=
  let enter := env.millis s.clock % 2 ^ 32
  let s := { s with clock := s.clock + 1 }
  waitLoop env process enter fuel s

/-- The method `MySensor::requestNodeId`. -/
def requestNodeId (env : Env) : Nat → State → Res Unit
  | 0, _ => .outOfFuel
  | fuel + 1, s =>
    let s := { s with msg := (build s.msg s.nodeId GATEWAY_ADDRESS env.NODE_SENSOR_ID
                                C_INTERNAL I_ID_REQUEST false).setEmptyString }
    (sendRouteWith env (fun t => requestNodeId env fuel t) .msg s).bind fun _ s =>
      waitForReplyWith env (processWith env (fun t => requestNodeId env fuel t)) fuel s

/-- The method `MySensor::sendRoute`. -/
def sendRoute (env : Env) (fuel : Nat) (r : Ref) (s : State) : Res Bool :=
  sendRouteWith env (requestNodeId env fuel) r s

/-- The method `MySensor::process`. -/
def process (env : Env) (fuel : Nat) (s : State) : Res Bool :=
  processWith env (requestNodeId env fuel) s

/-- The method `MySensor::waitForReply`. -/
def waitForReply (env : Env) (fuel : Nat) (s : State) : Res Unit :=
  waitForReplyWith env (process env fuel) fuel s

/-- The method `MySensor::send` on the message `r` refers to. -/
def send (env : Env) (fuel : Nat) (r : Ref) (enableAck : Bool) (s : State) : Res Bool :=
  let s := s.put r { s.get r with sender := s.nodeId }
  let s := s.put r (mSetCommand (s.get r) C_SET)
  let s := s.put r (mSetRequestAck (s.get r) (boolToNat enableAck))
  sendRoute env fuel r s

/-- The method `MySensor::loadState`. -/
def loadState (env : Env) (s : State) (pos : Nat) : Nat :=
  s.eeprom (env.EEPROM_LOCAL_CONFIG_ADDRESS + pos)

/-- The method `MySensor::saveState`. -/
def saveState (env : Env) (s : State) (pos value : Nat) : State :=
  if loadState env s pos ≠ value then
    s.eepromWriteByte (env.EEPROM_LOCAL_CONFIG_ADDRESS + pos) value
  else
    s

/-- Modelled from the spec: the struct `NodeConfig` of MySensor.h (not among the
sources), the persisted node identity; the node address `nodeId` is the first byte
of its EEPROM block. -/
def nodeIdOffset : Nat := 0

/-- Modelled from the spec: the struct `ControllerConfig` of MySensor.h (not among
the sources), the persisted controller preferences; the unit preference `isMetric`
is the first byte of its EEPROM block. -/
def isMetricOffset : Nat := 0

/-- The lines of `MySensor::begin` that read the settings from the EEPROM:
`eeprom_read_block(&nc, EEPROM_NODE_ID_ADDRESS, sizeof(NodeConfig))`,
`eeprom_read_block(&cc, EEPROM_LOCAL_CONFIG_ADDRESS, sizeof(ControllerConfig))`
and `if (cc.isMetric == 0xff) cc.isMetric = 0x01`. -/
def beginLoad (env : Env) (s : State) : State :=
  let s := { s with nodeId := s.eeprom (env.EEPROM_NODE_ID_ADDRESS + nodeIdOffset) }
  let s := { s with isMetric := s.eeprom (env.EEPROM_LOCAL_CONFIG_ADDRESS + isMetricOffset) }
  if s.isMetric = 255 then { s with isMetric := 1 } else s

/-! ## MySensor.cpp: power-down -/

/-- The periods of `LowPower.powerDown` that MySensor.cpp uses. -/
inductive period_t where
  | SLEEP_15Ms
  | SLEEP_30MS
  | SLEEP_60MS
  | SLEEP_120MS
  | SLEEP_250MS
  | SLEEP_500MS
  | SLEEP_1S
  | SLEEP_2S
  | SLEEP_4S
  | SLEEP_8S
  | SLEEP_FOREVER
deriving DecidableEq, Repr

/-- The number of milliseconds `internalSleep` takes off `ms` for a cycle of the
period (nothing for `SLEEP_FOREVER`, which it never issues). -/
def period_t.millis : period_t → Nat
  | .SLEEP_15Ms => 15
  | .SLEEP_30MS => 30
  | .SLEEP_60MS => 60
  | .SLEEP_120MS => 120
  | .SLEEP_250MS => 250
  | .SLEEP_500MS => 500
  | .SLEEP_1S => 1000
  | .SLEEP_2S => 2000
  | .SLEEP_4S => 4000
  | .SLEEP_8S => 8000
  | .SLEEP_FOREVER => 0

/-- The global `continueTimer`, the local `ms` of `internalSleep`, the number of
tests of `continueTimer` made so far, and the `LowPower.powerDown` calls made. -/
structure Sleeper where
  continueTimer : Bool
  ms : Nat
  checks : Nat
  cycles : List period_t
deriving DecidableEq, Repr

/-- The interrupt handler `wakeUp`. -/
def wakeUp (st : Sleeper) : Sleeper :=
  { st with continueTimer := false }

/-- One test `continueTimer && ms >= threshold`.  `irq k` tells whether the
interrupt handler has run between test `k - 1` and test `k`. -/
def sleepTest (irq : Nat → Bool) (threshold : Nat) (st : Sleeper) : Bool × Sleeper :=
  let st := if irq st.checks then wakeUp st else st
  let st := { st with checks := st.checks + 1 }
  (st.continueTimer && decide (threshold ≤ st.ms), st)

/-- The body `LowPower.powerDown(period, ADC_OFF, BOD_OFF); ms -= amount;`, the
subtraction in `unsigned long`. -/
def powerDown (period : period_t) (amount : Nat) (st : Sleeper) : Sleeper :=
  { st with cycles := st.cycles ++ [period], ms := (st.ms + 2 ^ 32 - amount) % 2 ^ 32 }

/-- One line `if (continueTimer && ms >= threshold) { powerDown(period); ms -= amount; }`. -/
def sleepIf (irq : Nat → Bool) (threshold : Nat) (period : period_t) (amount : Nat)
    (st : Sleeper) : Sleeper :=
  let (go, st) := sleepTest irq threshold st
  if go then powerDown period amount st else st

/-- The line `while (continueTimer && ms >= 8000) { powerDown(SLEEP_8S); ms -= 8000; }`;
`none` when the fuel is used up before the loop ends. -/
def sleepWhile (irq : Nat → Bool) : Nat → Sleeper → Option Sleeper
  | 0, _ => none
  | fuel + 1, st =>
    let (go, st) := sleepTest irq 8000 st
    if go then sleepWhile irq fuel (powerDown .SLEEP_8S 8000 st) else some st

/-- The nine `if` lines of `MySensor::internalSleep`. -/
def sleepIfs (irq : Nat → Bool) (st : Sleeper) : Sleeper :=
  let st := sleepIf irq 4000 .SLEEP_4S 4000 st
  let st := sleepIf irq 2000 .SLEEP_2S 2000 st
  let st := sleepIf irq 1000 .SLEEP_1S 1000 st
  let st := sleepIf irq 500 .SLEEP_500MS 500 st
  let st := sleepIf irq 250 .SLEEP_250MS 250 st
  let st := sleepIf irq 125 .SLEEP_120MS 120 st
  let st := sleepIf irq 64 .SLEEP_60MS 60 st
  let st := sleepIf irq 32 .SLEEP_30MS 30 st
  sleepIf irq 16 .SLEEP_15Ms 15 st

/-- The method `MySensor::internalSleep`: the `while` line, then the nine `if`
lines. -/
def internalSleep (irq : Nat → Bool) (fuel : Nat) (st : Sleeper) : Option Sleeper :=
  (sleepWhile irq fuel st).map (sleepIfs irq)

/-- The method `MySensor::sleep(unsigned long ms)`, called with `checks` tests of
`continueTimer` and the cycles `cycles` behind it. -/
def sleep (irq : Nat → Bool) (fuel : Nat) (ms : Nat) (checks : Nat) (cycles : List period_t) :
    Option Sleeper :=
  internalSleep irq fuel { continueTimer := true, ms := ms, checks := checks, cycles := cycles }

/-- The read of `continueTimer` in `pinTriggeredWakeup = !continueTimer`.  It
counts as a test: `irq k` tells whether the interrupt handler has run since test
`k - 1`. -/
def readContinueTimer (irq : Nat → Bool) (st : Sleeper) : Bool × Sleeper :=
  let st := if irq st.checks then wakeUp st else st
  let st := { st with checks := st.checks + 1 }
  (st.continueTimer, st)

/-- The method `MySensor::sleep(int interrupt, int mode, unsigned long ms)`, called
in state `st`.  `early` tells whether the interrupt handler runs between
`attachInterrupt` and the assignment `continueTimer = true` of `sleep(ms)`.
`LowPower.powerDown(SLEEP_FOREVER, ...)` returns when an interrupt wakes the
processor, once its handler `wakeUp` has run. -/
def sleepInterrupt (irq : Nat → Bool) (early : Bool) (fuel : Nat) (ms : Nat) (st : Sleeper) :
    Option (Bool × Sleeper) :=
  let pinTriggeredWakeup := true
  if 0 < ms then
    let st := { st with continueTimer := true }
    let st := if early then wakeUp st else st
    (sleep irq fuel ms st.checks st.cycles).map fun st =>
      let (continueTimer, st) := readContinueTimer irq st
      (!continueTimer, st)
  else
    some (pinTriggeredWakeup, wakeUp { st with cycles := st.cycles ++ [.SLEEP_FOREVER] })

/-- The sum of the amounts of the cycles. -/
def totalMillis (cycles : List period_t) : Nat :=
  (cycles.map period_t.millis).sum

/-- One `if` line of `internalSleep` when `continueTimer` stays true: the remaining
time after it and the cycle it issues, if any. -/
def quietIf (threshold : Nat) (period : period_t) (amount : Nat) (ms : Nat) :
    Nat × List period_t :=
  if threshold ≤ ms then (ms - amount, [period]) else (ms, [])

/-- The nine `if` lines of `internalSleep` when `continueTimer` stays true: the
remaining time after them and the cycles they issue. -/
def quietTail (ms : Nat) : Nat × List period_t :=
  let a := quietIf 4000 .SLEEP_4S 4000 ms
  let b := quietIf 2000 .SLEEP_2S 2000 a.1
  let c := quietIf 1000 .SLEEP_1S 1000 b.1
  let d := quietIf 500 .SLEEP_500MS 500 c.1
  let e := quietIf 250 .SLEEP_250MS 250 d.1
  let f := quietIf 125 .SLEEP_120MS 120 e.1
  let g := quietIf 64 .SLEEP_60MS 60 f.1
  let h := quietIf 32 .SLEEP_30MS 30 g.1
  let i := quietIf 16 .SLEEP_15Ms 15 h.1
  (i.1, a.2 ++ b.2 ++ c.2 ++ d.2 ++ e.2 ++ f.2 ++ g.2 ++ h.2 ++ i.2)

/-- Whether the interrupt handler has run at one of the tests `first`, ...,
`last - 1` of `continueTimer`. -/
def handlerRan (irq : Nat → Bool) (first last : Nat) : Bool :=
  (List.range' first (last - first)).any irq

/-- From test `first` on the flag `continueTimer` has not been set: it is true
exactly when the handler has not run since. -/
def armed (irq : Nat → Bool) (first : Nat) (st : Sleeper) : Prop :=
  first ≤ st.checks ∧ st.continueTimer = !handlerRan irq first st.checks

/-- The cycles `internalSleep(ms)` issues when `continueTimer` stays true: `ms / 8000`
cycles of 8 s from the `while` line, then those of the nine `if` lines. -/
def quietCycles (ms : Nat) : List period_t :=
  List.replicate (ms / 8000) .SLEEP_8S ++ (quietTail (ms % 8000)).2

/-- Where `internalSleep` stands, called with the cycles `cycles` behind it and the
time `ms` to sleep, at a point where it would have issued `quiet` and be left with
`x` if `continueTimer` had stayed true.  Either `continueTimer` is still true and
that is what it has done, or `continueTimer` is false and it has issued an initial
part of `quiet`; in both cases the amounts of the cycles issued and the time left add
up to `ms`. -/
def onSchedule (cycles : List period_t) (ms : Nat) (quiet : List period_t) (x : Nat)
    (st : Sleeper) : Prop :=
  (st.continueTimer = true ∧ st.ms = x ∧ st.cycles = cycles ++ quiet ∧
    totalMillis quiet + x = ms) ∨
  (st.continueTimer = false ∧ ∃ pre, pre <+: quiet ∧ st.cycles = cycles ++ pre ∧
    totalMillis pre + st.ms = ms)

/-- The nine `if` lines of `internalSleep`, each as the threshold of its test, the
period of its cycle and the amount it takes off `ms`. -/
def ifLines : List (Nat × period_t × Nat) :=
  [(4000, .SLEEP_4S, 4000), (2000, .SLEEP_2S, 2000), (1000, .SLEEP_1S, 1000),
    (500, .SLEEP_500MS, 500), (250, .SLEEP_250MS, 250), (125, .SLEEP_120MS, 120),
    (64, .SLEEP_60MS, 60), (32, .SLEEP_30MS, 30), (16, .SLEEP_15Ms, 15)]

/-- The tests `internalSleep(ms)` makes when `continueTimer` stays true, in order: the
test of the `while` line `ms / 8000 + 1` times (the last one fails), then the test of
each of the nine `if` lines. -/
def quietTests (ms : Nat) : List (Nat × period_t × Nat) :=
  List.replicate (ms / 8000 + 1) (8000, .SLEEP_8S, 8000) ++ ifLines

/-- One test of the run in which `continueTimer` stays true, with the body it guards:
the time left and the cycles issued so far, after it. -/
def quietStep (acc : Nat × List period_t) (line : Nat × period_t × Nat) :
    Nat × List period_t :=
  ((quietIf line.1 line.2.1 line.2.2 acc.1).1,
    acc.2 ++ (quietIf line.1 line.2.1 line.2.2 acc.1).2)

/-- The run of `internalSleep(ms)` in which `continueTimer` stays true, after its first
`i` tests: the time left and the cycles issued. -/
def quietRun (ms i : Nat) : Nat × List period_t :=
  ((quietTests ms).take i).foldl quietStep (ms, [])

/-- Lines `if (continueTimer && ms >= threshold) { powerDown(period); ms -= amount; }`
run one after another. -/
def sleepLines (irq : Nat → Bool) (lines : List (Nat × period_t × Nat)) (st : Sleeper) :
    Sleeper :=
  lines.foldl (fun st line => sleepIf irq line.1 line.2.1 line.2.2 st) st

/-! ## Reading the record of calls -/

/-- The event is a `sendtoWait` call. -/
def Event.isSend : Event → Bool
  | .sendtoWait _ _ _ _ => true
  | _ => false

/-- The event is a `msgCallback` call. -/
def Event.isMsgCallback : Event → Bool
  | .msgCallback _ _ => true
  | _ => false

/-- The event is an `eeprom_write_byte` call. -/
def Event.isEepromWrite : Event → Bool
  | .eepromWrite _ _ => true
  | _ => false

/-- The status `sendWrite` gets from the radio for the message `r` refers to. -/
def sendStatus (env : Env) (r : Ref) (s : State) : Nat :=
  env.sendtoWait s.sends (mSetVersion (s.get r) PROTOCOL_VERSION) sizeofMyMessage
    (s.get r).destination

/-- The `sendtoWait` call `sendWrite` makes for the message `r` refers to. -/
def sendEvent (r : Ref) (s : State) : Event :=
  .sendtoWait (mSetVersion (s.get r) PROTOCOL_VERSION) sizeofMyMessage
    (s.get r).destination s.nodeId

/-- The state `sendWrite` leaves. -/
def afterSend (r : Ref) (s : State) : State :=
  { s.put r (mSetVersion (s.get r) PROTOCOL_VERSION) with
    sends := s.sends + 1, trace := s.trace ++ [sendEvent r s] }

/-- The content of `msg` once `process()` has taken the frame `m` from the radio
and written the string terminator `msg.data[mGetLength(msg)] = 0`.  (An index past
the 26 bytes of `data` is outside the message, which is then left as it is.) -/
def terminated (m : MyMessage) : MyMessage :=
  if mGetLength m ≤ MAX_PAYLOAD then { m with data := m.data.set (mGetLength m) 0 } else m

/-- The state of `process()` once it has taken the frame `m` from the radio, as far
as `msg` and the poll counter go. -/
def received (m : MyMessage) (s : State) : State :=
  { s with polls := s.polls + 1, msg := terminated m }

/-- The state of `process()` once it has taken the frame `m` from the radio and
executed `msg.data[mGetLength(msg)] = 0`: for a length field up to `MAX_PAYLOAD` it
is `received m s`; for a larger one the store outside `msg` has been made as well. -/
def taken (env : Env) (m : MyMessage) (s : State) : State :=
  if mGetLength m ≤ MAX_PAYLOAD then received m s
  else (received m s).strayStore env (mGetLength m)

/-- The acknowledgement `process()` builds in `ack` from the content of `msg`. -/
def ackOf (s : State) : MyMessage :=
  { mSetAck (mSetRequestAck s.msg (boolToNat false)) (boolToNat true) with
    sender := s.nodeId, destination := s.msg.sender }

/-- What holds of every call the library makes after `polls` calls of `recvfromAck`:
a frame handed to the transport while the node address is `AUTO` is an internal
identity request, and a message callback belongs to a `process()` invocation whose
`recvfromAck` call has number `polls` or more. -/
def Event.sound (polls : Nat) : Event → Prop
  | .sendtoWait frame _ _ nodeId =>
    nodeId = AUTO → mGetCommand frame = C_INTERNAL ∧ frame.type = I_ID_REQUEST
  | .msgCallback poll _ => polls ≤ poll
  | _ => True

/-- The state `t` comes after `s`: the record of calls of `s` with sound calls added. -/
def Extends (s t : State) : Prop :=
  s.polls ≤ t.polls ∧ ∃ rest, t.trace = s.trace ++ rest ∧ ∀ e ∈ rest, e.sound s.polls

/-- From `s` to `t` the node address is the same, the byte at
`EEPROM_NODE_ID_ADDRESS` is the same, and the calls added to the record include
neither a write at `EEPROM_NODE_ID_ADDRESS` nor `setThisAddress`. -/
def keepsIdentity (env : Env) (s t : State) : Prop :=
  t.nodeId = s.nodeId ∧
  t.eeprom env.EEPROM_NODE_ID_ADDRESS = s.eeprom env.EEPROM_NODE_ID_ADDRESS ∧
  ∃ rest, t.trace = s.trace ++ rest ∧
    ∀ e ∈ rest, (∀ v, e ≠ Event.eepromWrite env.EEPROM_NODE_ID_ADDRESS v) ∧
      (∀ a, e ≠ Event.setThisAddress a)

/-- A frame that can halt the node: an internal command of the gateway that asks for
a reboot, or an identity response that carries `AUTO` or requests an acknowledgement
(its payload is then read after the acknowledgement has been routed). -/
def haltingFrame (env : Env) (m : MyMessage) : Prop :=
  mGetCommand m = C_INTERNAL ∧ m.sender = GATEWAY_ADDRESS ∧
  (m.type = I_REBOOT ∨
    (m.type = I_ID_RESPONSE ∧ (mGetRequestAck m ≠ 0 ∨ env.getByte (terminated m) = AUTO)))

/-- The radio delivers no frame that can halt the node. -/
def noHaltingFrame (env : Env) : Prop :=
  ∀ k b m, env.recvfromAck k b = some m → ¬ haltingFrame env m

/-- The call that gave `x` from state `s` has ended (it returned or halted, the fuel
was enough) after at most `p` calls of `millis()`; the counters of `recvfromAck` and
`millis` calls have not gone back; and it returned if no frame that can halt the node
is delivered. -/
def Ends {α : Type} (env : Env) (p : Nat) (s : State) (x : Res α) : Prop :=
  ∃ t, x.final = some t ∧ s.polls ≤ t.polls ∧ s.clock ≤ t.clock ∧ t.clock ≤ s.clock + p ∧
    (noHaltingFrame env → ∃ a, x = .ret a t)

/-- The test `millis() - enter < 2000` of `waitForReply` on clock reading `k`. -/
def inWindow (env : Env) (enter k : Nat) : Prop :=
  (env.millis k % 2 ^ 32 + 2 ^ 32 - enter) % 2 ^ 32 < 2000

/-- The identity request `requestNodeId()` builds in `msg`. -/
def idRequestOf (env : Env) (s : State) : MyMessage :=
  (build s.msg s.nodeId GATEWAY_ADDRESS env.NODE_SENSOR_ID C_INTERNAL I_ID_REQUEST
    false).setEmptyString

/-! ## Sample inputs -/

/-- The payload buffer of 26 zero bytes. -/
def zeroData : List Nat := List.replicate 26 0

/-- A message with every byte zero. -/
def zeroMessage : MyMessage :=
  { last := 0, sender := 0, destination := 0, version_length := 0,
    command_ack_payload := 0, type := 0, sensor := 0, data := zeroData }

/-- A sample frame of version 2 with a one-byte payload `byte` tagged `P_BYTE`. -/
def sampleByteFrame (sender destination command type : Nat) (requestAck : Bool)
    (byte : Nat) : MyMessage :=
  { last := sender, sender := sender, destination := destination,
    version_length := 2 + 8 * 1,
    command_ack_payload := command + 8 * boolToNat requestAck + 32 * P_BYTE,
    type := type, sensor := 1, data := byte :: List.replicate 25 0 }

/-- A sample environment: the radio delivers the frames of `frames`, one per
`recvfromAck` call, and then nothing; `sendtoWait` answers `status`; the clock
advances 2000 ms between two readings; the byte accessor is `getByteSpec`.  The
constants of MySensor.h are given sample values, the failure counter 8 bits, and
the layout is one in which a store past the end of `msg` hits none of the members
(a byte that is not used, or that holds 0 already). -/
def sampleEnv (frames : List MyMessage) (status : Nat) : Env :=
  { NODE_SENSOR_ID := 255,
    EEPROM_NODE_ID_ADDRESS := 0,
    EEPROM_CONTROLLER_CONFIG_ADDRESS := 259,
    EEPROM_LOCAL_CONFIG_ADDRESS := 283,
    RH_ROUTER_ERROR_NONE := 0,
    counterBits := 8,
    recvfromAck := fun k _ => frames.get? k,
    sendtoWait := fun _ _ _ _ => status,
    millis := fun k => 2000 * k,
    getByte := MyMessage.getByteSpec,
    getULong := fun _ => 0,
    strayStore := fun _ members => members }

/-- The sample environment with a clock that advances 1500 ms between two readings:
every wait for a reply calls `process()` once. -/
def slowClockEnv (frames : List MyMessage) (status : Nat) : Env :=
  { sampleEnv frames status with millis := fun k => 1500 * k }

/-- A sample state: a node with address `nodeId`, metric units, both callbacks
registered, an erased EEPROM, and no call made yet. -/
def sampleState (nodeId : Nat) : State :=
  { nodeId := nodeId, isMetric := 1, failedTransmissions := 0,
    msg := zeroMessage, ack := zeroMessage, usr := zeroMessage,
    hasMsgCallback := true, hasTimeCallback := true,
    eeprom := fun _ => 255, polls := 0, sends := 0, clock := 0, trace := [] }

/-- A frame from node 9 to the gateway: version 3, signed, length 4; command
`C_SET`, is-ack set, payload type `P_CUSTOM`. -/
def sampleFrame : MyMessage :=
  { last := 9, sender := 9, destination := 0, version_length := 39,
    command_ack_payload := 209, type := 0, sensor := 1, data := zeroData }

/-- A frame of version 2 from node 9 to node 7 whose length field holds 31, the
largest value of its five bits (`version_length` = 2 + 8 * 31). -/
def sampleLongFrame : MyMessage :=
  { sampleByteFrame 9 7 C_SET 0 false 77 with version_length := 2 + 8 * 31 }

end MySensors

namespace MySensors

/-! ## The bit fields of the header -/

theorem BF_SET_lt (y x start len : Nat) : BF_SET y x start len < 256 := by
  unfold BF_SET; omega

theorem BIT_MASK_eq (len : Nat) : BIT_MASK len = 2 ^ len - 1 := by
  simp [BIT_MASK, BIT, Nat.shiftLeft_eq]

/-- Only the low byte of the old value matters for `BF_SET`. -/
theorem BF_SET_mod (y x start len : Nat) :
    BF_SET y x start len = BF_SET (y % 256) x start len := by
  unfold BF_SET
  apply Nat.eq_of_testBit_eq
  intro i
  have h256 : (256 : Nat) = 2 ^ 8 := by norm_num
  rw [h256]
  simp only [Nat.testBit_mod_two_pow, Nat.testBit_or, Nat.testBit_and]
  by_cases h : i < 8 <;> simp [h]

/-- Only the low byte matters for `BF_GET` on a field that lies inside the byte. -/
theorem BF_GET_mod (y start len : Nat) (h : start + len ≤ 8) :
    BF_GET y start len = BF_GET (y % 256) start len := by
  unfold BF_GET
  rw [BIT_MASK_eq]
  apply Nat.eq_of_testBit_eq
  intro i
  have h256 : (256 : Nat) = 2 ^ 8 := by norm_num
  rw [h256]
  simp only [Nat.testBit_and, Nat.testBit_shiftRight, Nat.testBit_mod_two_pow,
    Nat.testBit_two_pow_sub_one]
  by_cases hi : i < len
  · have : start + i < 8 := by omega
    simp [hi, this]
  · simp [hi]

theorem BF_SET_0_2_byte : ∀ y, y < 256 → ∀ x, x < 4 →
    BF_GET (BF_SET y x 0 2) 0 2 = x ∧
    BF_GET (BF_SET y x 0 2) 2 1 = BF_GET y 2 1 ∧
    BF_GET (BF_SET y x 0 2) 3 5 = BF_GET y 3 5 := by
  decide!

theorem BF_SET_0_2 (y x : Nat) (hx : x < 4) :
    BF_GET (BF_SET y x 0 2) 0 2 = x ∧
    BF_GET (BF_SET y x 0 2) 2 1 = BF_GET y 2 1 ∧
    BF_GET (BF_SET y x 0 2) 3 5 = BF_GET y 3 5 := by
  rw [BF_SET_mod y, BF_GET_mod y 2 1 (by norm_num), BF_GET_mod y 3 5 (by norm_num)]
  exact BF_SET_0_2_byte (y % 256) (Nat.mod_lt _ (by norm_num)) x hx

theorem BF_SET_2_1_byte : ∀ y, y < 256 → ∀ x, x < 2 →
    BF_GET (BF_SET y x 2 1) 2 1 = x ∧
    BF_GET (BF_SET y x 2 1) 0 2 = BF_GET y 0 2 ∧
    BF_GET (BF_SET y x 2 1) 3 5 = BF_GET y 3 5 := by
  decide!

theorem BF_SET_2_1 (y x : Nat) (hx : x < 2) :
    BF_GET (BF_SET y x 2 1) 2 1 = x ∧
    BF_GET (BF_SET y x 2 1) 0 2 = BF_GET y 0 2 ∧
    BF_GET (BF_SET y x 2 1) 3 5 = BF_GET y 3 5 := by
  rw [BF_SET_mod y, BF_GET_mod y 0 2 (by norm_num), BF_GET_mod y 3 5 (by norm_num)]
  exact BF_SET_2_1_byte (y % 256) (Nat.mod_lt _ (by norm_num)) x hx

theorem BF_SET_3_5_byte : ∀ y, y < 256 → ∀ x, x < 32 →
    BF_GET (BF_SET y x 3 5) 3 5 = x ∧
    BF_GET (BF_SET y x 3 5) 0 2 = BF_GET y 0 2 ∧
    BF_GET (BF_SET y x 3 5) 2 1 = BF_GET y 2 1 := by
  decide!

theorem BF_SET_3_5 (y x : Nat) (hx : x < 32) :
    BF_GET (BF_SET y x 3 5) 3 5 = x ∧
    BF_GET (BF_SET y x 3 5) 0 2 = BF_GET y 0 2 ∧
    BF_GET (BF_SET y x 3 5) 2 1 = BF_GET y 2 1 := by
  rw [BF_SET_mod y, BF_GET_mod y 0 2 (by norm_num), BF_GET_mod y 2 1 (by norm_num)]
  exact BF_SET_3_5_byte (y % 256) (Nat.mod_lt _ (by norm_num)) x hx

theorem BF_SET_0_3_byte : ∀ y, y < 256 → ∀ x, x < 8 →
    BF_GET (BF_SET y x 0 3) 0 3 = x ∧
    BF_GET (BF_SET y x 0 3) 3 1 = BF_GET y 3 1 ∧
    BF_GET (BF_SET y x 0 3) 4 1 = BF_GET y 4 1 ∧
    BF_GET (BF_SET y x 0 3) 5 3 = BF_GET y 5 3 := by
  decide!

theorem BF_SET_0_3 (y x : Nat) (hx : x < 8) :
    BF_GET (BF_SET y x 0 3) 0 3 = x ∧
    BF_GET (BF_SET y x 0 3) 3 1 = BF_GET y 3 1 ∧
    BF_GET (BF_SET y x 0 3) 4 1 = BF_GET y 4 1 ∧
    BF_GET (BF_SET y x 0 3) 5 3 = BF_GET y 5 3 := by
  rw [BF_SET_mod y, BF_GET_mod y 3 1 (by norm_num), BF_GET_mod y 4 1 (by norm_num), BF_GET_mod y 5 3 (by norm_num)]
  exact BF_SET_0_3_byte (y % 256) (Nat.mod_lt _ (by norm_num)) x hx

theorem BF_SET_3_1_byte : ∀ y, y < 256 → ∀ x, x < 2 →
    BF_GET (BF_SET y x 3 1) 3 1 = x ∧
    BF_GET (BF_SET y x 3 1) 0 3 = BF_GET y 0 3 ∧
    BF_GET (BF_SET y x 3 1) 4 1 = BF_GET y 4 1 ∧
    BF_GET (BF_SET y x 3 1) 5 3 = BF_GET y 5 3 := by
  decide!

theorem BF_SET_3_1 (y x : Nat) (hx : x < 2) :
    BF_GET (BF_SET y x 3 1) 3 1 = x ∧
    BF_GET (BF_SET y x 3 1) 0 3 = BF_GET y 0 3 ∧
    BF_GET (BF_SET y x 3 1) 4 1 = BF_GET y 4 1 ∧
    BF_GET (BF_SET y x 3 1) 5 3 = BF_GET y 5 3 := by
  rw [BF_SET_mod y, BF_GET_mod y 0 3 (by norm_num), BF_GET_mod y 4 1 (by norm_num), BF_GET_mod y 5 3 (by norm_num)]
  exact BF_SET_3_1_byte (y % 256) (Nat.mod_lt _ (by norm_num)) x hx

theorem BF_SET_4_1_byte : ∀ y, y < 256 → ∀ x, x < 2 →
    BF_GET (BF_SET y x 4 1) 4 1 = x ∧
    BF_GET (BF_SET y x 4 1) 0 3 = BF_GET y 0 3 ∧
    BF_GET (BF_SET y x 4 1) 3 1 = BF_GET y 3 1 ∧
    BF_GET (BF_SET y x 4 1) 5 3 = BF_GET y 5 3 := by
  decide!

theorem BF_SET_4_1 (y x : Nat) (hx : x < 2) :
    BF_GET (BF_SET y x 4 1) 4 1 = x ∧
    BF_GET (BF_SET y x 4 1) 0 3 = BF_GET y 0 3 ∧
    BF_GET (BF_SET y x 4 1) 3 1 = BF_GET y 3 1 ∧
    BF_GET (BF_SET y x 4 1) 5 3 = BF_GET y 5 3 := by
  rw [BF_SET_mod y, BF_GET_mod y 0 3 (by norm_num), BF_GET_mod y 3 1 (by norm_num), BF_GET_mod y 5 3 (by norm_num)]
  exact BF_SET_4_1_byte (y % 256) (Nat.mod_lt _ (by norm_num)) x hx

theorem BF_SET_5_3_byte : ∀ y, y < 256 → ∀ x, x < 8 →
    BF_GET (BF_SET y x 5 3) 5 3 = x ∧
    BF_GET (BF_SET y x 5 3) 0 3 = BF_GET y 0 3 ∧
    BF_GET (BF_SET y x 5 3) 3 1 = BF_GET y 3 1 ∧
    BF_GET (BF_SET y x 5 3) 4 1 = BF_GET y 4 1 := by
  decide!

theorem BF_SET_5_3 (y x : Nat) (hx : x < 8) :
    BF_GET (BF_SET y x 5 3) 5 3 = x ∧
    BF_GET (BF_SET y x 5 3) 0 3 = BF_GET y 0 3 ∧
    BF_GET (BF_SET y x 5 3) 3 1 = BF_GET y 3 1 ∧
    BF_GET (BF_SET y x 5 3) 4 1 = BF_GET y 4 1 := by
  rw [BF_SET_mod y, BF_GET_mod y 0 3 (by norm_num), BF_GET_mod y 3 1 (by norm_num), BF_GET_mod y 4 1 (by norm_num)]
  exact BF_SET_5_3_byte (y % 256) (Nat.mod_lt _ (by norm_num)) x hx

/-- Writing the version a byte already carries leaves the byte as it is. -/
theorem BF_SET_version_same : ∀ y, y < 256 → BF_SET y (BF_GET y 0 2) 0 2 = y := by
  decide!

/-- A getter after a setter: the value set for the same field, the old value for
any other field. -/
theorem HeaderField.get_set (f g : HeaderField) (m : MyMessage) (x : Nat)
    (hx : x < g.range) :
    f.get (g.set m x) = if f = g then x else f.get m := by
  cases g <;> simp only [HeaderField.range] at hx
  · have := BF_SET_0_2 m.version_length x hx
    cases f <;> simp [HeaderField.get, HeaderField.set, mSetVersion, mGetVersion,
      mGetSigned, mGetLength, mGetCommand, mGetRequestAck, mGetAck, mGetPayloadType, this]
  · have := BF_SET_2_1 m.version_length x hx
    cases f <;> simp [HeaderField.get, HeaderField.set, mSetSigned, mGetVersion,
      mGetSigned, mGetLength, mGetCommand, mGetRequestAck, mGetAck, mGetPayloadType, this]
  · have := BF_SET_3_5 m.version_length x hx
    cases f <;> simp [HeaderField.get, HeaderField.set, mSetLength, mGetVersion,
      mGetSigned, mGetLength, mGetCommand, mGetRequestAck, mGetAck, mGetPayloadType, this]
  · have := BF_SET_0_3 m.command_ack_payload x hx
    cases f <;> simp [HeaderField.get, HeaderField.set, mSetCommand, mGetVersion,
      mGetSigned, mGetLength, mGetCommand, mGetRequestAck, mGetAck, mGetPayloadType, this]
  · have := BF_SET_3_1 m.command_ack_payload x hx
    cases f <;> simp [HeaderField.get, HeaderField.set, mSetRequestAck, mGetVersion,
      mGetSigned, mGetLength, mGetCommand, mGetRequestAck, mGetAck, mGetPayloadType, this]
  · have := BF_SET_4_1 m.command_ack_payload x hx
    cases f <;> simp [HeaderField.get, HeaderField.set, mSetAck, mGetVersion,
      mGetSigned, mGetLength, mGetCommand, mGetRequestAck, mGetAck, mGetPayloadType, this]
  · have := BF_SET_5_3 m.command_ack_payload x hx
    cases f <;> simp [HeaderField.get, HeaderField.set, mSetPayloadType, mGetVersion,
      mGetSigned, mGetLength, mGetCommand, mGetRequestAck, mGetAck, mGetPayloadType, this]

theorem applySetters_cons (m : MyMessage) (op : HeaderField × Nat)
    (ops : List (HeaderField × Nat)) :
    applySetters m (op :: ops) = applySetters (op.1.set m op.2) ops := rfl

/-- Setters of other fields leave a field as it is. -/
theorem applySetters_get_other (f : HeaderField) :
    ∀ (ops : List (HeaderField × Nat)) (m : MyMessage),
      (∀ op ∈ ops, op.2 < op.1.range) → (∀ op ∈ ops, op.1 ≠ f) →
      f.get (applySetters m ops) = f.get m := by
  intro ops
  induction ops with
  | nil => intro m _ _; rfl
  | cons op rest ih =>
    intro m hr hne
    rw [applySetters_cons, ih _
      (fun o ho => hr o (List.mem_cons_of_mem _ ho))
      (fun o ho => hne o (List.mem_cons_of_mem _ ho)),
      HeaderField.get_set f op.1 m op.2 (hr op (List.mem_cons_self _ _))]
    have : f ≠ op.1 := fun h => hne op (List.mem_cons_self _ _) h.symm
    simp [this]

/-- A field that is set, always to the same value, holds that value afterwards. -/
theorem applySetters_get (f : HeaderField) (x : Nat) :
    ∀ (ops : List (HeaderField × Nat)) (m : MyMessage),
      (∀ op ∈ ops, op.2 < op.1.range) → (∀ op ∈ ops, op.1 = f → op.2 = x) →
      (∃ op ∈ ops, op.1 = f) → f.get (applySetters m ops) = x := by
  intro ops
  induction ops with
  | nil => intro m _ _ h; obtain ⟨op, hop, _⟩ := h; cases hop
  | cons op rest ih =>
    intro m hr hval hex
    rw [applySetters_cons]
    have hr1 : ∀ o ∈ rest, o.2 < o.1.range := fun o ho => hr o (List.mem_cons_of_mem _ ho)
    by_cases hrest : ∃ o ∈ rest, o.1 = f
    · exact ih _ hr1 (fun o ho => hval o (List.mem_cons_of_mem _ ho)) hrest
    · have hne : ∀ o ∈ rest, o.1 ≠ f := fun o ho h => hrest ⟨o, ho, h⟩
      rw [applySetters_get_other f rest _ hr1 hne]
      obtain ⟨o, ho, hof⟩ := hex
      have hop : op.1 = f := by
        rcases List.mem_cons.mp ho with h | h
        · rw [← h]; exact hof
        · exact absurd hof (hne o h)
      rw [HeaderField.get_set f op.1 m op.2 (hr op (List.mem_cons_self _ _))]
      simp [hop, hval op (List.mem_cons_self _ _) hop]

/-- C5. For every initial `version_length` byte and all version in [0,3], signed in
{0,1}, length in [0,31]: once `mSetVersion`, `mSetSigned` and `mSetLength` have each
been applied, in whatever order, `mGetVersion`, `mGetSigned` and `mGetLength`
return that triple. -/
theorem version_length_roundtrip (m : MyMessage) (version sgn length : Nat)
    (ops : List (HeaderField × Nat))
    (hv : version < 4) (hs : sgn < 2) (hl : length < 32)
    (hops : ops.Perm [(.version, version), (.signed, sgn), (.length, length)]) :
    mGetVersion (applySetters m ops) = version ∧
    mGetSigned (applySetters m ops) = sgn ∧
    mGetLength (applySetters m ops) = length := by
  have hmem : ∀ op, op ∈ ops ↔
      op = (.version, version) ∨ op = (.signed, sgn) ∨ op = (.length, length) := by
    intro op; rw [hops.mem_iff]; simp
  have hr : ∀ op ∈ ops, op.2 < op.1.range := by
    intro op hop
    rcases (hmem op).mp hop with h | h | h <;> subst h <;> simpa [HeaderField.range]
  refine ⟨applySetters_get .version version ops m hr ?_ ?_,
          applySetters_get .signed sgn ops m hr ?_ ?_,
          applySetters_get .length length ops m hr ?_ ?_⟩
  · intro op hop h1
    rcases (hmem op).mp hop with h | h | h <;> subst h <;> simp at h1 ⊢
  · exact ⟨_, (hmem _).mpr (Or.inl rfl), rfl⟩
  · intro op hop h1
    rcases (hmem op).mp hop with h | h | h <;> subst h <;> simp at h1 ⊢
  · exact ⟨_, (hmem _).mpr (Or.inr (Or.inl rfl)), rfl⟩
  · intro op hop h1
    rcases (hmem op).mp hop with h | h | h <;> subst h <;> simp at h1 ⊢
  · exact ⟨_, (hmem _).mpr (Or.inr (Or.inr rfl)), rfl⟩

theorem version_length_roundtrip_witness :
    List.Perm [(HeaderField.length, 17), (HeaderField.version, 2), (HeaderField.signed, 1)]
      [(HeaderField.version, 2), (HeaderField.signed, 1), (HeaderField.length, 17)] ∧
    mGetVersion (applySetters sampleFrame
      [(.length, 17), (.version, 2), (.signed, 1)]) = 2 ∧
    mGetSigned (applySetters sampleFrame
      [(.length, 17), (.version, 2), (.signed, 1)]) = 1 ∧
    mGetLength (applySetters sampleFrame
      [(.length, 17), (.version, 2), (.signed, 1)]) = 17 :=
  ⟨by decide, version_length_roundtrip sampleFrame 2 1 17 _ (by decide) (by decide)
    (by decide) (by decide)⟩

/-- C6. For every initial `command_ack_payload` byte and all command in [0,7],
requestAck in {0,1}, isAck in {0,1}, payloadType in [0,7]: once `mSetCommand`,
`mSetRequestAck`, `mSetAck` and `mSetPayloadType` have each been applied, in
whatever order, the four getters return those four values. -/
theorem command_ack_payload_roundtrip (m : MyMessage) (command rack isAck pt : Nat)
    (ops : List (HeaderField × Nat))
    (hc : command < 8) (hr : rack < 2) (ha : isAck < 2) (hp : pt < 8)
    (hops : ops.Perm
      [(.command, command), (.requestAck, rack), (.ack, isAck), (.payloadType, pt)]) :
    mGetCommand (applySetters m ops) = command ∧
    mGetRequestAck (applySetters m ops) = rack ∧
    mGetAck (applySetters m ops) = isAck ∧
    mGetPayloadType (applySetters m ops) = pt := by
  have hmem : ∀ op, op ∈ ops ↔
      op = (.command, command) ∨ op = (.requestAck, rack) ∨ op = (.ack, isAck) ∨
      op = (.payloadType, pt) := by
    intro op; rw [hops.mem_iff]; simp
  have hrg : ∀ op ∈ ops, op.2 < op.1.range := by
    intro op hop
    rcases (hmem op).mp hop with h | h | h | h <;> subst h <;> simpa [HeaderField.range]
  refine ⟨applySetters_get .command command ops m hrg ?_ ?_,
          applySetters_get .requestAck rack ops m hrg ?_ ?_,
          applySetters_get .ack isAck ops m hrg ?_ ?_,
          applySetters_get .payloadType pt ops m hrg ?_ ?_⟩
  · intro op hop h1
    rcases (hmem op).mp hop with h | h | h | h <;> subst h <;> simp at h1 ⊢
  · exact ⟨_, (hmem _).mpr (Or.inl rfl), rfl⟩
  · intro op hop h1
    rcases (hmem op).mp hop with h | h | h | h <;> subst h <;> simp at h1 ⊢
  · exact ⟨_, (hmem _).mpr (Or.inr (Or.inl rfl)), rfl⟩
  · intro op hop h1
    rcases (hmem op).mp hop with h | h | h | h <;> subst h <;> simp at h1 ⊢
  · exact ⟨_, (hmem _).mpr (Or.inr (Or.inr (Or.inl rfl))), rfl⟩
  · intro op hop h1
    rcases (hmem op).mp hop with h | h | h | h <;> subst h <;> simp at h1 ⊢
  · exact ⟨_, (hmem _).mpr (Or.inr (Or.inr (Or.inr rfl))), rfl⟩

theorem command_ack_payload_roundtrip_witness :
    List.Perm [(HeaderField.payloadType, 5), (HeaderField.ack, 0),
        (HeaderField.command, 3), (HeaderField.requestAck, 1)]
      [(HeaderField.command, 3), (HeaderField.requestAck, 1), (HeaderField.ack, 0),
        (HeaderField.payloadType, 5)] ∧
    mGetCommand (applySetters sampleFrame
      [(.payloadType, 5), (.ack, 0), (.command, 3), (.requestAck, 1)]) = 3 ∧
    mGetRequestAck (applySetters sampleFrame
      [(.payloadType, 5), (.ack, 0), (.command, 3), (.requestAck, 1)]) = 1 ∧
    mGetAck (applySetters sampleFrame
      [(.payloadType, 5), (.ack, 0), (.command, 3), (.requestAck, 1)]) = 0 ∧
    mGetPayloadType (applySetters sampleFrame
      [(.payloadType, 5), (.ack, 0), (.command, 3), (.requestAck, 1)]) = 5 :=
  ⟨by decide, command_ack_payload_roundtrip sampleFrame 3 1 0 5 _ (by decide) (by decide)
    (by decide) (by decide) (by decide)⟩

/-! ## The inbound path: the frame taken from the radio -/

theorem terminated_header (m : MyMessage) :
    (terminated m).version_length = m.version_length ∧
    (terminated m).command_ack_payload = m.command_ack_payload ∧
    (terminated m).last = m.last ∧ (terminated m).sender = m.sender ∧
    (terminated m).destination = m.destination ∧ (terminated m).type = m.type ∧
    (terminated m).sensor = m.sensor := by
  unfold terminated
  split_ifs <;> exact ⟨rfl, rfl, rfl, rfl, rfl, rfl, rfl⟩

theorem terminated_of_le (m : MyMessage) (hlen : mGetLength m ≤ MAX_PAYLOAD) :
    terminated m = { m with data := m.data.set (mGetLength m) 0 } := if_pos hlen

theorem terminated_getters (m : MyMessage) :
    mGetVersion (terminated m) = mGetVersion m ∧ mGetLength (terminated m) = mGetLength m ∧
    mGetCommand (terminated m) = mGetCommand m ∧
    mGetRequestAck (terminated m) = mGetRequestAck m ∧
    mGetAck (terminated m) = mGetAck m ∧
    mGetPayloadType (terminated m) = mGetPayloadType m := by
  unfold terminated
  split_ifs <;> exact ⟨rfl, rfl, rfl, rfl, rfl, rfl⟩

/-- For a length field that is an index of `data` nothing is stored outside `msg`. -/
theorem taken_of_le (env : Env) (m : MyMessage) (s : State)
    (hlen : mGetLength m ≤ MAX_PAYLOAD) : taken env m s = received m s := if_pos hlen

/-- What the terminator store leaves alone, whatever the length field. -/
theorem taken_fields (env : Env) (m : MyMessage) (s : State) :
    (taken env m s).msg = terminated m ∧ (taken env m s).polls = s.polls + 1 ∧
    (taken env m s).trace = s.trace ∧ (taken env m s).eeprom = s.eeprom ∧
    (taken env m s).sends = s.sends ∧ (taken env m s).clock = s.clock := by
  unfold taken
  split_ifs <;> exact ⟨rfl, rfl, rfl, rfl, rfl, rfl⟩

/-- The method `process()` on a frame `m`: the terminator store, the version test,
the destination test, the acknowledgement block and the dispatch on the command,
sender and type read from the frame. -/
theorem processWith_taken (env : Env) (rq : State → Res Unit) (s : State) (m : MyMessage)
    (hrecv : env.recvfromAck s.polls s.msg = some m) :
    processWith env rq s =
      if ¬ (mGetVersion m = PROTOCOL_VERSION) then .ret false (taken env m s)
      else if m.destination = (taken env m s).nodeId then
        (ackStep env rq (taken env m s)).bind fun _ t =>
          if mGetCommand m = C_INTERNAL then
            if m.sender = GATEWAY_ADDRESS then internalDispatch env m.type t
            else deliver s.polls t
          else deliver s.polls t
      else .ret false (taken env m s) := by
  by_cases hlen : mGetLength m ≤ MAX_PAYLOAD
  · simp [processWith, hrecv, hlen, taken, received, terminated, mGetVersion, mGetCommand]
  · simp [processWith, hrecv, hlen, taken, received, terminated, mGetVersion, mGetCommand,
      State.strayStore]

/-! ## The inbound path: frames that are dropped -/

/-- A received frame whose version field differs from `PROTOCOL_VERSION` makes
`process()` return false, in the state the terminator store has left: no call is made
to a callback, to the radio or to the EEPROM (the record of calls is unchanged) and the
stored bytes stay as they were.  When the length field is an index of `data`, the
node address, the controller configuration and the failure counter stay as they were
too. -/
theorem process_version_mismatch (env : Env) (fuel : Nat) (s : State) (m : MyMessage)
    (hrecv : env.recvfromAck s.polls s.msg = some m)
    (hver : mGetVersion m ≠ PROTOCOL_VERSION) :
    process env fuel s = .ret false (taken env m s) ∧
    (taken env m s).trace = s.trace ∧ (taken env m s).sends = s.sends ∧
    (taken env m s).eeprom = s.eeprom ∧
    (mGetLength m ≤ MAX_PAYLOAD →
      (taken env m s).nodeId = s.nodeId ∧ (taken env m s).isMetric = s.isMetric ∧
      (taken env m s).failedTransmissions = s.failedTransmissions) := by
  obtain ⟨_, _, f3, f4, f5, _⟩ := taken_fields env m s
  refine ⟨?_, f3, f5, f4, fun hlen => ?_⟩
  · rw [process, processWith_taken env _ s m hrecv, if_pos hver]
  · rw [taken_of_le env m s hlen]
    exact ⟨rfl, rfl, rfl⟩

theorem process_version_mismatch_witness :
    mGetVersion sampleFrame ≠ PROTOCOL_VERSION ∧
    process (sampleEnv [sampleFrame] 0) 0 (sampleState 0) =
      .ret false (taken (sampleEnv [sampleFrame] 0) sampleFrame (sampleState 0)) ∧
    (taken (sampleEnv [sampleFrame] 0) sampleFrame (sampleState 0)).trace
      = (sampleState 0).trace ∧
    (taken (sampleEnv [sampleFrame] 0) sampleFrame (sampleState 0)).sends
      = (sampleState 0).sends ∧
    (taken (sampleEnv [sampleFrame] 0) sampleFrame (sampleState 0)).eeprom
      = (sampleState 0).eeprom ∧
    (mGetLength sampleFrame ≤ MAX_PAYLOAD →
      (taken (sampleEnv [sampleFrame] 0) sampleFrame (sampleState 0)).nodeId
        = (sampleState 0).nodeId ∧
      (taken (sampleEnv [sampleFrame] 0) sampleFrame (sampleState 0)).isMetric
        = (sampleState 0).isMetric ∧
      (taken (sampleEnv [sampleFrame] 0) sampleFrame (sampleState 0)).failedTransmissions
        = (sampleState 0).failedTransmissions) :=
  ⟨by decide, process_version_mismatch (sampleEnv [sampleFrame] 0) 0 (sampleState 0)
    sampleFrame rfl (by decide)⟩

theorem State.get_put (s : State) (r : Ref) (m : MyMessage) : (s.put r m).get r = m := by
  cases r <;> rfl

theorem sendWrite_eq (env : Env) (r : Ref) (s : State) :
    sendWrite env r s =
      (decide (sendStatus env r s = env.RH_ROUTER_ERROR_NONE), afterSend r s) := by
  by_cases hst : sendStatus env r s = env.RH_ROUTER_ERROR_NONE
  · cases r <;>
      simp_all [sendWrite, sendStatus, afterSend, sendEvent, State.get, State.put, State.log,
        mSetVersion]
  · cases r <;>
      simp_all [sendWrite, sendStatus, afterSend, sendEvent, State.get, State.put, State.log,
        mSetVersion]

/-- What `sendRoute` does when its guard lets the message through. -/
theorem sendRouteWith_direct (env : Env) (rq : State → Res Unit) (r : Ref) (s : State)
    (hgo : s.nodeId ≠ AUTO ∨
      (mGetCommand (s.get r) = C_INTERNAL ∧ (s.get r).type = I_ID_REQUEST)) :
    sendRouteWith env rq r s =
      .ret (decide (sendStatus env r s = env.RH_ROUTER_ERROR_NONE))
        { afterSend r s with
          failedTransmissions :=
            if sendStatus env r s = env.RH_ROUTER_ERROR_NONE then 0
            else (s.failedTransmissions + 1) % 2 ^ env.counterBits } := by
  have hg : (s.nodeId == AUTO &&
      !(mGetCommand (s.get r) == C_INTERNAL && (s.get r).type == I_ID_REQUEST)) = false := by
    rcases hgo with h | ⟨h1, h2⟩
    · simp [h]
    · simp [h1, h2]
  unfold sendRouteWith
  simp only [hg, sendWrite_eq]
  by_cases hst : sendStatus env r s = env.RH_ROUTER_ERROR_NONE
  · simp [hst]
  · simp [hst]; cases r <;> rfl

/-- C7 (amended). When `sendRoute` hands the message to the transport (the node has
an address, or the message is an internal identity request), `sendtoWait` is called
exactly once.  If it reports `RH_ROUTER_ERROR_NONE`, `sendRoute` returns true and the
failure counter is 0; for any other status `sendRoute` returns false and the failure
counter is one more than before, reduced modulo the range of the counter: it is
exactly one more unless the counter was at its maximum, from where it wraps to 0. -/
theorem sendRoute_failure_counter (env : Env) (fuel : Nat) (r : Ref) (s : State)
    (hgo : s.nodeId ≠ AUTO ∨
      (mGetCommand (s.get r) = C_INTERNAL ∧ (s.get r).type = I_ID_REQUEST)) :
    ∃ t, sendRoute env fuel r s =
        .ret (decide (sendStatus env r s = env.RH_ROUTER_ERROR_NONE)) t ∧
      t.sends = s.sends + 1 ∧
      t.trace = s.trace ++ [.sendtoWait (mSetVersion (s.get r) PROTOCOL_VERSION)
        sizeofMyMessage (s.get r).destination s.nodeId] ∧
      (sendStatus env r s = env.RH_ROUTER_ERROR_NONE → t.failedTransmissions = 0) ∧
      (sendStatus env r s ≠ env.RH_ROUTER_ERROR_NONE →
        t.failedTransmissions = (s.failedTransmissions + 1) % 2 ^ env.counterBits ∧
        (s.failedTransmissions + 1 < 2 ^ env.counterBits →
          t.failedTransmissions = s.failedTransmissions + 1) ∧
        (s.failedTransmissions + 1 = 2 ^ env.counterBits → t.failedTransmissions = 0)) := by
  refine ⟨_, sendRouteWith_direct env _ r s hgo, ?_, ?_, ?_, ?_⟩
  · cases r <;> rfl
  · cases r <;> rfl
  · intro h; simp [h]
  · intro h
    simp only [h, if_false]
    refine ⟨trivial, fun hlt => Nat.mod_eq_of_lt hlt, fun heq => ?_⟩
    rw [heq]; exact Nat.mod_self _

theorem sendRoute_failure_counter_witness :
    ∃ t, sendRoute (sampleEnv [] 1) 0 .usr (sampleState 7) =
        .ret (decide (sendStatus (sampleEnv [] 1) .usr (sampleState 7) =
          (sampleEnv [] 1).RH_ROUTER_ERROR_NONE)) t ∧
      t.sends = (sampleState 7).sends + 1 ∧
      t.trace = (sampleState 7).trace ++
        [.sendtoWait (mSetVersion ((sampleState 7).get .usr) PROTOCOL_VERSION)
          sizeofMyMessage ((sampleState 7).get .usr).destination (sampleState 7).nodeId] ∧
      (sendStatus (sampleEnv [] 1) .usr (sampleState 7) =
          (sampleEnv [] 1).RH_ROUTER_ERROR_NONE → t.failedTransmissions = 0) ∧
      (sendStatus (sampleEnv [] 1) .usr (sampleState 7) ≠
          (sampleEnv [] 1).RH_ROUTER_ERROR_NONE →
        t.failedTransmissions =
          ((sampleState 7).failedTransmissions + 1) % 2 ^ (sampleEnv [] 1).counterBits ∧
        ((sampleState 7).failedTransmissions + 1 < 2 ^ (sampleEnv [] 1).counterBits →
          t.failedTransmissions = (sampleState 7).failedTransmissions + 1) ∧
        ((sampleState 7).failedTransmissions + 1 = 2 ^ (sampleEnv [] 1).counterBits →
          t.failedTransmissions = 0)) :=
  sendRoute_failure_counter (sampleEnv [] 1) 0 .usr (sampleState 7) (Or.inl (by decide))

/-- C7 as stated fails: with an 8-bit failure counter at 255, a failed `sendRoute`
returns false and leaves the counter at 0, not at 256. -/
theorem sendRoute_failure_counter_wraps :
    ∃ t, sendRoute (sampleEnv [] 1) 0 .usr { sampleState 7 with failedTransmissions := 255 } =
        .ret false t ∧
      t.failedTransmissions = 0 ∧ t.failedTransmissions ≠ 255 + 1 :=
  ⟨_, rfl, rfl, by decide⟩

/-! ## The inbound path: frames addressed to the node -/

/-- A frame of the supported version addressed to the node: `process()` runs the
acknowledgement block and then dispatches on the command, sender and type it read
from the frame before. -/
theorem process_accept (env : Env) (fuel : Nat) (s : State) (m : MyMessage)
    (hrecv : env.recvfromAck s.polls s.msg = some m)
    (hver : mGetVersion m = PROTOCOL_VERSION)
    (hdest : m.destination = (taken env m s).nodeId) :
    process env fuel s =
      (ackStep env (requestNodeId env fuel) (taken env m s)).bind fun _ t =>
        if mGetCommand m = C_INTERNAL then
          if m.sender = GATEWAY_ADDRESS then internalDispatch env m.type t
          else deliver s.polls t
        else deliver s.polls t := by
  rw [process, processWith_taken env _ s m hrecv, if_neg (not_not.mpr hver), if_pos hdest]

/-- The same for a frame whose length field is an index of `data`. -/
theorem process_accept_plain (env : Env) (fuel : Nat) (s : State) (m : MyMessage)
    (hrecv : env.recvfromAck s.polls s.msg = some m) (hlen : mGetLength m ≤ MAX_PAYLOAD)
    (hver : mGetVersion m = PROTOCOL_VERSION) (hdest : m.destination = s.nodeId) :
    process env fuel s =
      (ackStep env (requestNodeId env fuel) (received m s)).bind fun _ t =>
        if mGetCommand m = C_INTERNAL then
          if m.sender = GATEWAY_ADDRESS then internalDispatch env m.type t
          else deliver s.polls t
        else deliver s.polls t := by
  have ht := taken_of_le env m s hlen
  rw [process_accept env fuel s m hrecv hver (by rw [ht]; exact hdest), ht]

theorem ackStep_none (env : Env) (rq : State → Res Unit) (s : State)
    (h : mGetRequestAck s.msg = 0) : ackStep env rq s = .ret () s := by
  simp [ackStep, h]

/-- The acknowledgement block when an acknowledgement is requested and the guard of
`sendRoute` lets it through. -/
theorem ackStep_direct (env : Env) (rq : State → Res Unit) (s : State)
    (h : mGetRequestAck s.msg ≠ 0)
    (hgo : s.nodeId ≠ AUTO ∨
      (mGetCommand (ackOf s) = C_INTERNAL ∧ (ackOf s).type = I_ID_REQUEST)) :
    ackStep env rq s =
      .ret ()
        { afterSend .ack { s with ack := ackOf s } with
          failedTransmissions :=
            if sendStatus env .ack { s with ack := ackOf s } = env.RH_ROUTER_ERROR_NONE then 0
            else (s.failedTransmissions + 1) % 2 ^ env.counterBits } := by
  have e : sendRouteWith env rq .ack { s with ack := ackOf s } = _ :=
    sendRouteWith_direct env rq .ack { s with ack := ackOf s } hgo
  simp only [ackStep, h, ne_eq, not_false_eq_true, if_true]
  show (sendRouteWith env rq .ack { s with ack := ackOf s }).bind _ = _
  rw [e]; rfl

/-- The block for internal commands of the gateway always ends: it returns false or
halts, and it calls neither the radio nor the message callback. -/
theorem internalDispatch_final (env : Env) (type : Nat) (s : State) :
    ∃ t rest, (internalDispatch env type s).final = some t ∧
      t.trace = s.trace ++ rest ∧ t.polls = s.polls ∧ t.sends = s.sends ∧
      (∀ e ∈ rest, e.isSend = false ∧ e.isMsgCallback = false) ∧
      (∀ b t', internalDispatch env type s = .ret b t' → b = false) := by
  have hret : ∀ (u : State) (b : Bool) (t' : State), Res.ret false u = Res.ret b t' → b = false := by
    intro u b t' h; cases h; rfl
  unfold internalDispatch
  dsimp only
  split_ifs
  · exact ⟨_, [.wdtEnable], rfl, rfl, rfl, rfl, by simp [Event.isSend, Event.isMsgCallback],
      fun _ _ h => h.elim⟩
  · exact ⟨_, [], rfl, by simp, rfl, rfl, by simp, fun _ _ h => h.elim⟩
  · exact ⟨_, [.setThisAddress (env.getByte s.msg),
        .eepromWrite env.EEPROM_NODE_ID_ADDRESS (env.getByte s.msg)], rfl,
      by simp [State.log, State.eepromWriteByte], rfl, rfl,
      by simp [Event.isSend, Event.isMsgCallback], hret _⟩
  · exact ⟨_, [], rfl, by simp, rfl, rfl, by simp, hret _⟩
  · exact ⟨_, [.eepromWrite _ _], rfl, rfl, rfl, rfl,
      by simp [Event.isSend, Event.isMsgCallback], hret _⟩
  · exact ⟨_, [], rfl, by simp, rfl, rfl, by simp, hret _⟩
  · exact ⟨_, [.timeCallback _], rfl, rfl, rfl, rfl,
      by simp [Event.isSend, Event.isMsgCallback], hret _⟩
  · exact ⟨_, [], rfl, by simp, rfl, rfl, by simp, hret _⟩
  · exact ⟨_, [], rfl, by simp, rfl, rfl, by simp, hret _⟩

/-- The end of `process()` returns true and calls at most the message callback. -/
theorem deliver_final (poll : Nat) (s : State) :
    ∃ t rest, deliver poll s = .ret true t ∧ t.trace = s.trace ++ rest ∧
      t.polls = s.polls ∧ t.sends = s.sends ∧
      (∀ e ∈ rest, e.isSend = false ∧ ∃ m, e = .msgCallback poll m) := by
  unfold deliver
  split_ifs
  · exact ⟨_, [_], rfl, rfl, rfl, rfl, by simp [Event.isSend]⟩
  · exact ⟨_, [], rfl, by simp, rfl, rfl, by simp⟩


/-- The bit fields of the acknowledgement built from `msg`. -/
theorem ackOf_fields (s : State) :
    mGetAck (ackOf s) = 1 ∧ mGetRequestAck (ackOf s) = 0 ∧
    mGetCommand (ackOf s) = mGetCommand s.msg ∧
    mGetPayloadType (ackOf s) = mGetPayloadType s.msg := by
  have a := HeaderField.get_set .ack .ack (mSetRequestAck s.msg 0) 1 (by decide)
  have b := HeaderField.get_set .requestAck .ack (mSetRequestAck s.msg 0) 1 (by decide)
  have b' := HeaderField.get_set .requestAck .requestAck s.msg 0 (by decide)
  have c := HeaderField.get_set .command .ack (mSetRequestAck s.msg 0) 1 (by decide)
  have c' := HeaderField.get_set .command .requestAck s.msg 0 (by decide)
  have d := HeaderField.get_set .payloadType .ack (mSetRequestAck s.msg 0) 1 (by decide)
  have d' := HeaderField.get_set .payloadType .requestAck s.msg 0 (by decide)
  simp only [HeaderField.get, HeaderField.set, if_true, reduceCtorEq, if_false] at a b b' c c' d d'
  exact ⟨a, b.trans b', c.trans c', d.trans d'⟩

/-- The acknowledgement block and the dispatch after it, run in a state `u` whose
`msg` holds the frame `m` with its terminator, when the frame requests an
acknowledgement and the guard of `sendRoute` lets the acknowledgement through: one
frame is handed to the transport, before any other call. -/
theorem ackStep_routes (env : Env) (rq : State → Res Unit) (u : State) (m : MyMessage)
    (poll : Nat) (hmsg : u.msg = terminated m) (hbyte : m.version_length < 256)
    (hver : mGetVersion m = PROTOCOL_VERSION) (hreq : mGetRequestAck m = 1)
    (haddr : u.nodeId ≠ AUTO ∨ (mGetCommand m = C_INTERNAL ∧ m.type = I_ID_REQUEST)) :
    ∃ frame t rest,
      ((ackStep env rq u).bind fun _ t =>
        if mGetCommand m = C_INTERNAL then
          if m.sender = GATEWAY_ADDRESS then internalDispatch env m.type t
          else deliver poll t
        else deliver poll t).final = some t ∧
      t.trace = u.trace ++ Event.sendtoWait frame sizeofMyMessage m.sender u.nodeId :: rest ∧
      (∀ e ∈ rest, e.isSend = false) ∧
      mGetAck frame = 1 ∧ mGetRequestAck frame = 0 ∧
      frame.sender = u.nodeId ∧ frame.destination = m.sender ∧
      frame.last = m.last ∧ frame.version_length = m.version_length ∧
      mGetCommand frame = mGetCommand m ∧ mGetPayloadType frame = mGetPayloadType m ∧
      frame.type = m.type ∧ frame.sensor = m.sensor ∧
      frame.data = (terminated m).data := by
  obtain ⟨t1, t2, t3, t4, t5, t6, t7⟩ := terminated_header m
  obtain ⟨f1, f2, f3, f4⟩ := ackOf_fields u
  have hcap : u.msg.command_ack_payload = m.command_ack_payload := by rw [hmsg, t2]
  have g3 : mGetCommand (ackOf u) = mGetCommand m := by
    rw [f3]; show BF_GET u.msg.command_ack_payload 0 3 = _; rw [hcap]; rfl
  have g4 : mGetPayloadType (ackOf u) = mGetPayloadType m := by
    rw [f4]; show BF_GET u.msg.command_ack_payload 5 3 = _; rw [hcap]; rfl
  have hreq1 : mGetRequestAck u.msg ≠ 0 := by
    have : mGetRequestAck u.msg = mGetRequestAck m := by
      show BF_GET u.msg.command_ack_payload 3 1 = _; rw [hcap]; rfl
    rw [this, hreq]; decide
  have htype : (ackOf u).type = m.type := by
    show u.msg.type = m.type; rw [hmsg, t6]
  have hgo : u.nodeId ≠ AUTO ∨
      (mGetCommand (ackOf u) = C_INTERNAL ∧ (ackOf u).type = I_ID_REQUEST) := by
    rcases haddr with h | ⟨h1, h2⟩
    · exact Or.inl h
    · exact Or.inr ⟨g3.trans h1, htype.trans h2⟩
  have hvl : BF_SET m.version_length PROTOCOL_VERSION 0 2 = m.version_length := by
    have := BF_SET_version_same m.version_length hbyte
    have hv : BF_GET m.version_length 0 2 = PROTOCOL_VERSION := hver
    rwa [hv] at this
  rw [ackStep_direct env rq u hreq1 hgo]
  simp only [Res.bind]
  generalize hs2 : ({ afterSend .ack { u with ack := ackOf u } with
      failedTransmissions :=
        if sendStatus env .ack { u with ack := ackOf u } = env.RH_ROUTER_ERROR_NONE then 0
        else (u.failedTransmissions + 1) % 2 ^ env.counterBits } : State) = s2
  have htr : s2.trace = u.trace ++
      [Event.sendtoWait (mSetVersion (ackOf u) PROTOCOL_VERSION) sizeofMyMessage m.sender
        u.nodeId] := by
    rw [← hs2]
    show u.trace ++ [Event.sendtoWait (mSetVersion (ackOf u) PROTOCOL_VERSION) sizeofMyMessage
      u.msg.sender u.nodeId] = _
    rw [hmsg, t4]
  have key : ∀ (x : Res Bool) , (∃ t rest, x.final = some t ∧ t.trace = s2.trace ++ rest ∧
      ∀ e ∈ rest, e.isSend = false) →
      ∃ frame t rest, x.final = some t ∧
      t.trace = u.trace ++ Event.sendtoWait frame sizeofMyMessage m.sender u.nodeId :: rest ∧
      (∀ e ∈ rest, e.isSend = false) ∧
      mGetAck frame = 1 ∧ mGetRequestAck frame = 0 ∧
      frame.sender = u.nodeId ∧ frame.destination = m.sender ∧
      frame.last = m.last ∧ frame.version_length = m.version_length ∧
      mGetCommand frame = mGetCommand m ∧ mGetPayloadType frame = mGetPayloadType m ∧
      frame.type = m.type ∧ frame.sensor = m.sensor ∧
      frame.data = (terminated m).data := by
    rintro x ⟨t, rest, h1, h2, h3⟩
    refine ⟨mSetVersion (ackOf u) PROTOCOL_VERSION, t, rest, h1, ?_, h3,
      f1, f2, rfl, ?_, ?_, ?_, g3, g4, htype, ?_, ?_⟩
    · rw [h2, htr]; simp
    · show u.msg.sender = m.sender; rw [hmsg, t4]
    · show u.msg.last = m.last; rw [hmsg, t3]
    · show BF_SET u.msg.version_length PROTOCOL_VERSION 0 2 = m.version_length
      rw [hmsg, t1, hvl]
    · show u.msg.sensor = m.sensor; rw [hmsg, t7]
    · show u.msg.data = (terminated m).data; rw [hmsg]
  apply key
  split_ifs
  · obtain ⟨t, rest, h1, h2, _, _, h5, _⟩ := internalDispatch_final env m.type s2
    exact ⟨t, rest, h1, h2, fun e he => (h5 e he).1⟩
  · obtain ⟨t, rest, h1, h2, _, _, h5⟩ := deliver_final poll s2
    exact ⟨t, rest, by rw [h1]; rfl, h2, fun e he => (h5 e he).1⟩
  · obtain ⟨t, rest, h1, h2, _, _, h5⟩ := deliver_final poll s2
    exact ⟨t, rest, by rw [h1]; rfl, h2, fun e he => (h5 e he).1⟩

/-- C2 (amended). For every inbound frame of the supported version with the
request-ack flag set that is addressed to the local address, received by a node
whose address is not `AUTO` (or the frame being an internal identity request):
`process()` hands exactly one frame to the transport, before any other call it makes
(callbacks included).  That frame is the frame held in `msg` (the received frame with
the string terminator written) except that is-ack = 1, request-ack = 0, sender =
local address and destination = the original sender.  The local address is the
member `nc.nodeId` as `process()` reads it, after the terminator store: the address
the node had at the call whenever the length field is an index of `data`. -/
theorem process_routes_ack (env : Env) (fuel : Nat) (s : State) (m : MyMessage)
    (hrecv : env.recvfromAck s.polls s.msg = some m)
    (hbyte : m.version_length < 256)
    (hver : mGetVersion m = PROTOCOL_VERSION)
    (hdest : m.destination = (taken env m s).nodeId)
    (hreq : mGetRequestAck m = 1)
    (haddr : (taken env m s).nodeId ≠ AUTO ∨
      (mGetCommand m = C_INTERNAL ∧ m.type = I_ID_REQUEST)) :
    (mGetLength m ≤ MAX_PAYLOAD → (taken env m s).nodeId = s.nodeId ∧
      (terminated m).data = m.data.set (mGetLength m) 0) ∧
    ∃ frame t rest, (process env fuel s).final = some t ∧
      t.trace = s.trace ++
        Event.sendtoWait frame sizeofMyMessage m.sender (taken env m s).nodeId :: rest ∧
      (∀ e ∈ rest, e.isSend = false) ∧
      mGetAck frame = 1 ∧ mGetRequestAck frame = 0 ∧
      frame.sender = (taken env m s).nodeId ∧ frame.destination = m.sender ∧
      frame.last = m.last ∧ frame.version_length = m.version_length ∧
      mGetCommand frame = mGetCommand m ∧ mGetPayloadType frame = mGetPayloadType m ∧
      frame.type = m.type ∧ frame.sensor = m.sensor ∧
      frame.data = (terminated m).data := by
  obtain ⟨k1, _, k3, _⟩ := taken_fields env m s
  constructor
  · intro hlen
    rw [taken_of_le env m s hlen, terminated_of_le m hlen]
    exact ⟨rfl, rfl⟩
  · rw [process_accept env fuel s m hrecv hver hdest, ← k3]
    exact ackStep_routes env _ (taken env m s) m s.polls k1 hbyte hver hreq haddr

theorem process_routes_ack_witness :
    (sampleByteFrame 9 7 C_SET 0 true 77).destination =
      (taken (sampleEnv [sampleByteFrame 9 7 C_SET 0 true 77] 0)
        (sampleByteFrame 9 7 C_SET 0 true 77) (sampleState 7)).nodeId ∧
    (taken (sampleEnv [sampleByteFrame 9 7 C_SET 0 true 77] 0)
      (sampleByteFrame 9 7 C_SET 0 true 77) (sampleState 7)).nodeId = 7 ∧
    ∃ frame t rest,
      (process (sampleEnv [sampleByteFrame 9 7 C_SET 0 true 77] 0) 0 (sampleState 7)).final
        = some t ∧
      t.trace = (sampleState 7).trace ++
        Event.sendtoWait frame sizeofMyMessage (sampleByteFrame 9 7 C_SET 0 true 77).sender
          (taken (sampleEnv [sampleByteFrame 9 7 C_SET 0 true 77] 0)
            (sampleByteFrame 9 7 C_SET 0 true 77) (sampleState 7)).nodeId :: rest ∧
      (∀ e ∈ rest, e.isSend = false) ∧
      mGetAck frame = 1 ∧ mGetRequestAck frame = 0 ∧
      frame.sender = (taken (sampleEnv [sampleByteFrame 9 7 C_SET 0 true 77] 0)
        (sampleByteFrame 9 7 C_SET 0 true 77) (sampleState 7)).nodeId ∧
      frame.destination = (sampleByteFrame 9 7 C_SET 0 true 77).sender ∧
      frame.last = (sampleByteFrame 9 7 C_SET 0 true 77).last ∧
      frame.version_length = (sampleByteFrame 9 7 C_SET 0 true 77).version_length ∧
      mGetCommand frame = mGetCommand (sampleByteFrame 9 7 C_SET 0 true 77) ∧
      mGetPayloadType frame = mGetPayloadType (sampleByteFrame 9 7 C_SET 0 true 77) ∧
      frame.type = (sampleByteFrame 9 7 C_SET 0 true 77).type ∧
      frame.sensor = (sampleByteFrame 9 7 C_SET 0 true 77).sensor ∧
      frame.data = (terminated (sampleByteFrame 9 7 C_SET 0 true 77)).data :=
  ⟨by decide, by decide,
    (process_routes_ack (sampleEnv [sampleByteFrame 9 7 C_SET 0 true 77] 0) 0 (sampleState 7)
      (sampleByteFrame 9 7 C_SET 0 true 77) rfl (by decide) (by decide) (by decide)
      (by decide) (Or.inl (by decide))).2⟩

/-- C2 as stated fails on a node without an address: the node with address `AUTO`
receives a frame addressed to 255 that requests an acknowledgement.  The only frame
handed to the transport is an identity request to the gateway (is-ack clear); no
acknowledgement goes to the sender, node 9. -/
theorem process_ack_not_routed_without_address :
    mGetVersion (sampleByteFrame 9 AUTO C_SET 0 true 77) = PROTOCOL_VERSION ∧
    (sampleByteFrame 9 AUTO C_SET 0 true 77).destination = (sampleState AUTO).nodeId ∧
    mGetRequestAck (sampleByteFrame 9 AUTO C_SET 0 true 77) = 1 ∧
    ∃ t q, process (sampleEnv [sampleByteFrame 9 AUTO C_SET 0 true 77] 0) 2 (sampleState AUTO)
        = .ret true t ∧
      t.trace = [Event.sendtoWait q sizeofMyMessage GATEWAY_ADDRESS AUTO,
        Event.msgCallback 0 q] ∧
      mGetAck q = 0 ∧ mGetCommand q = C_INTERNAL ∧ q.type = I_ID_REQUEST :=
  ⟨by decide, by decide, by decide, _, _, rfl, rfl, by decide, by decide, by decide⟩

/-- The acknowledgement block when no acknowledgement is requested or the node has
an address: it returns, after at most one `sendtoWait` call, and leaves `msg`, the
node address, the configuration and the EEPROM as they were. -/
theorem ackStep_plain (env : Env) (rq : State → Res Unit) (s : State)
    (h : mGetRequestAck s.msg = 0 ∨ s.nodeId ≠ AUTO) :
    ∃ t pre, ackStep env rq s = .ret () t ∧ t.msg = s.msg ∧ t.nodeId = s.nodeId ∧
      t.isMetric = s.isMetric ∧ t.eeprom = s.eeprom ∧
      t.hasMsgCallback = s.hasMsgCallback ∧ t.hasTimeCallback = s.hasTimeCallback ∧
      t.polls = s.polls ∧ t.trace = s.trace ++ pre ∧ (∀ e ∈ pre, e.isSend = true) ∧
      (mGetRequestAck s.msg = 0 → pre = [] ∧ t.sends = s.sends) := by
  by_cases hr : mGetRequestAck s.msg = 0
  · exact ⟨s, [], ackStep_none env rq s hr, rfl, rfl, rfl, rfl, rfl, rfl, rfl, by simp,
      by simp, fun _ => ⟨rfl, rfl⟩⟩
  · have hn : s.nodeId ≠ AUTO := by
      rcases h with h | h
      · exact absurd h hr
      · exact h
    exact ⟨_, [sendEvent .ack { s with ack := ackOf s }],
      ackStep_direct env rq s hr (Or.inl hn), rfl, rfl, rfl, rfl, rfl, rfl, rfl, rfl,
      by simp [sendEvent, Event.isSend], fun h0 => absurd h0 hr⟩

theorem internalDispatch_config (env : Env) (s : State) :
    internalDispatch env I_CONFIG s =
      if s.isMetric ≠ boolToNat (env.getByte s.msg == 77) then
        .ret false
          ({ s with isMetric := boolToNat (env.getByte s.msg == 77) }.eepromWriteByte
            env.EEPROM_CONTROLLER_CONFIG_ADDRESS (boolToNat (env.getByte s.msg == 77)))
      else .ret false s := by
  have h1 : ¬ I_CONFIG = I_REBOOT := by decide
  have h2 : ¬ I_CONFIG = I_ID_RESPONSE := by decide
  simp only [internalDispatch, h1, h2, if_false, if_true]

/-- The configuration response when no acknowledgement is diverted into an identity
request.  `process()` handles an internal `I_CONFIG` frame from the gateway addressed
to this node whose length field is an index of `data`, and the frame requests no
acknowledgement or the node has an address.  With p the decoded preference (byte
payload = 'M'): if p equals the held preference there is no storage write and the
configuration is unchanged; otherwise there is exactly one storage write, of p at
`EEPROM_CONTROLLER_CONFIG_ADDRESS`, and the held preference becomes p.  `process()`
returns false. -/
theorem process_config_write_on_change (env : Env) (fuel : Nat) (s : State) (m : MyMessage)
    (hrecv : env.recvfromAck s.polls s.msg = some m) (hlen : mGetLength m ≤ MAX_PAYLOAD)
    (hver : mGetVersion m = PROTOCOL_VERSION) (hdest : m.destination = s.nodeId)
    (hcmd : mGetCommand m = C_INTERNAL) (hsender : m.sender = GATEWAY_ADDRESS)
    (htype : m.type = I_CONFIG)
    (hplain : mGetRequestAck m = 0 ∨ s.nodeId ≠ AUTO) :
    ∃ t, process env fuel s = .ret false t ∧
      (boolToNat (env.getByte (terminated m) == 77) = s.isMetric →
        t.isMetric = s.isMetric ∧ t.eeprom = s.eeprom ∧
        t.trace.filter Event.isEepromWrite = s.trace.filter Event.isEepromWrite) ∧
      (boolToNat (env.getByte (terminated m) == 77) ≠ s.isMetric →
        t.isMetric = boolToNat (env.getByte (terminated m) == 77) ∧
        t.eeprom = (fun a => if a = env.EEPROM_CONTROLLER_CONFIG_ADDRESS
          then boolToNat (env.getByte (terminated m) == 77) else s.eeprom a) ∧
        t.trace.filter Event.isEepromWrite = s.trace.filter Event.isEepromWrite ++
          [.eepromWrite env.EEPROM_CONTROLLER_CONFIG_ADDRESS
            (boolToNat (env.getByte (terminated m) == 77))]) := by
  obtain ⟨s2, pre, e1, k1, k2, k3, k4, k5, k6, k7, k8, k9, _⟩ :=
    ackStep_plain env (requestNodeId env fuel) (received m s)
      (hplain.imp (fun h => (terminated_getters m).2.2.2.1.trans h) id)
  have hpre : pre.filter Event.isEepromWrite = [] := by
    rw [List.filter_eq_nil_iff]
    intro e he
    have := k9 e he
    cases e <;> simp_all [Event.isSend, Event.isEepromWrite]
  have hmsg : s2.msg = terminated m := k1
  have hmet : s2.isMetric = s.isMetric := k3
  have hee : s2.eeprom = s.eeprom := k4
  have htr : s2.trace = s.trace ++ pre := k8
  rw [process_accept_plain env fuel s m hrecv hlen hver hdest, e1]
  simp only [Res.bind, hcmd, hsender, htype, if_true, internalDispatch_config, hmsg, hmet]
  by_cases hp : s.isMetric = boolToNat (env.getByte (terminated m) == 77)
  · refine ⟨s2, by simp [hp], fun _ => ⟨hmet, hee, ?_⟩, fun h => absurd hp.symm h⟩
    rw [htr, List.filter_append, hpre, List.append_nil]
  · refine ⟨_, by simp only [ne_eq, hp, not_false_eq_true, if_true]; rfl,
      fun h => absurd h.symm hp, fun _ => ⟨rfl, ?_, ?_⟩⟩
    · simp only [State.eepromWriteByte, hee]
    · simp only [State.eepromWriteByte, htr, List.filter_append, hpre, List.append_nil]
      rfl

theorem process_config_write_on_change_witness :
    (mGetRequestAck (sampleByteFrame 0 7 C_INTERNAL I_CONFIG false 73) = 0 ∨
      (sampleState 7).nodeId ≠ AUTO) ∧
    ∃ t, process (sampleEnv [sampleByteFrame 0 7 C_INTERNAL I_CONFIG false 73] 0) 0
        (sampleState 7) = .ret false t ∧
      (boolToNat ((sampleEnv [sampleByteFrame 0 7 C_INTERNAL I_CONFIG false 73] 0).getByte
          (terminated (sampleByteFrame 0 7 C_INTERNAL I_CONFIG false 73)) == 77) =
          (sampleState 7).isMetric →
        t.isMetric = (sampleState 7).isMetric ∧ t.eeprom = (sampleState 7).eeprom ∧
        t.trace.filter Event.isEepromWrite =
          (sampleState 7).trace.filter Event.isEepromWrite) ∧
      (boolToNat ((sampleEnv [sampleByteFrame 0 7 C_INTERNAL I_CONFIG false 73] 0).getByte
          (terminated (sampleByteFrame 0 7 C_INTERNAL I_CONFIG false 73)) == 77) ≠
          (sampleState 7).isMetric →
        t.isMetric =
          boolToNat ((sampleEnv [sampleByteFrame 0 7 C_INTERNAL I_CONFIG false 73] 0).getByte
            (terminated (sampleByteFrame 0 7 C_INTERNAL I_CONFIG false 73)) == 77) ∧
        t.eeprom = (fun a =>
          if a = (sampleEnv [sampleByteFrame 0 7 C_INTERNAL I_CONFIG false 73]
              0).EEPROM_CONTROLLER_CONFIG_ADDRESS
          then boolToNat
            ((sampleEnv [sampleByteFrame 0 7 C_INTERNAL I_CONFIG false 73] 0).getByte
              (terminated (sampleByteFrame 0 7 C_INTERNAL I_CONFIG false 73)) == 77)
          else (sampleState 7).eeprom a) ∧
        t.trace.filter Event.isEepromWrite =
          (sampleState 7).trace.filter Event.isEepromWrite ++
          [.eepromWrite
            (sampleEnv [sampleByteFrame 0 7 C_INTERNAL I_CONFIG false 73]
              0).EEPROM_CONTROLLER_CONFIG_ADDRESS
            (boolToNat
              ((sampleEnv [sampleByteFrame 0 7 C_INTERNAL I_CONFIG false 73] 0).getByte
                (terminated (sampleByteFrame 0 7 C_INTERNAL I_CONFIG false 73)) == 77))]) :=
  ⟨Or.inl (by decide),
    process_config_write_on_change
      (sampleEnv [sampleByteFrame 0 7 C_INTERNAL I_CONFIG false 73] 0) 0 (sampleState 7)
      (sampleByteFrame 0 7 C_INTERNAL I_CONFIG false 73) rfl (by decide) (by decide)
      (by decide) (by decide) (by decide) (by decide) (Or.inl (by decide))⟩

/-- C8 (the code departs from the claim). A node without an address holds metric and
receives from the gateway an `I_CONFIG` frame that carries 'M' and requests an
acknowledgement: the decoded preference equals the held one, yet `process()` writes 0
to the EEPROM and the held preference becomes 0 (imperial).  Routing the
acknowledgement makes `requestNodeId()` build an identity request in `msg`, and
`msg.getByte()` is then read from that request, not from the frame received. -/
theorem process_config_written_without_change :
    mGetVersion (sampleByteFrame 0 AUTO C_INTERNAL I_CONFIG true 77) = PROTOCOL_VERSION ∧
    (sampleByteFrame 0 AUTO C_INTERNAL I_CONFIG true 77).destination
      = (sampleState AUTO).nodeId ∧
    boolToNat (MyMessage.getByteSpec
      (terminated (sampleByteFrame 0 AUTO C_INTERNAL I_CONFIG true 77)) == 77)
      = (sampleState AUTO).isMetric ∧
    ∃ t, process (sampleEnv [sampleByteFrame 0 AUTO C_INTERNAL I_CONFIG true 77] 0) 2
        (sampleState AUTO) = .ret false t ∧
      t.isMetric = 0 ∧ t.isMetric ≠ (sampleState AUTO).isMetric ∧
      t.trace.filter Event.isEepromWrite = [.eepromWrite 259 0] :=
  ⟨by decide, by decide, by decide, _, rfl, rfl, by decide, by decide⟩

theorem internalDispatch_exhausted (env : Env) (s : State)
    (hauto : s.nodeId = AUTO) (hbyte : env.getByte s.msg = AUTO) :
    internalDispatch env I_ID_RESPONSE s = .halt { s with nodeId := env.getByte s.msg } := by
  have h1 : ¬ I_ID_RESPONSE = I_REBOOT := by decide
  simp only [internalDispatch, h1, if_false, if_true, hauto, hbyte]

/-- The exhausted identity pool when no acknowledgement is requested.  The node
address is `AUTO` and `process()` receives, addressed to it and from the gateway, an
internal `I_ID_RESPONSE` whose length field is an index of `data`, that requests no
acknowledgement and whose byte payload is the `AUTO` sentinel: `process()` halts (it
never returns, and nothing can be run after it); up to the halt no frame has been
handed to the transport and nothing has been written to the EEPROM, and the address
is still `AUTO`. -/
theorem process_identity_exhausted (env : Env) (fuel : Nat) (s : State) (m : MyMessage)
    (hrecv : env.recvfromAck s.polls s.msg = some m) (hlen : mGetLength m ≤ MAX_PAYLOAD)
    (hver : mGetVersion m = PROTOCOL_VERSION)
    (hauto : s.nodeId = AUTO) (hdest : m.destination = s.nodeId)
    (hcmd : mGetCommand m = C_INTERNAL) (hsender : m.sender = GATEWAY_ADDRESS)
    (htype : m.type = I_ID_RESPONSE)
    (hbyte : env.getByte (terminated m) = AUTO)
    (hnoack : mGetRequestAck m = 0) :
    ∃ t, process env fuel s = .halt t ∧ t.trace = s.trace ∧ t.sends = s.sends ∧
      t.eeprom = s.eeprom ∧ t.nodeId = AUTO ∧
      ∀ (k : Bool → State → Res Unit), (process env fuel s).bind k = .halt t := by
  have e1 : ackStep env (requestNodeId env fuel) (received m s) = .ret () (received m s) :=
    ackStep_none env _ _ ((terminated_getters m).2.2.2.1.trans hnoack)
  have e2 := internalDispatch_exhausted env (received m s) hauto hbyte
  have e : process env fuel s =
      .halt { received m s with nodeId := env.getByte (received m s).msg } := by
    rw [process_accept_plain env fuel s m hrecv hlen hver hdest, e1]
    simp only [Res.bind, hcmd, hsender, htype, if_true, e2]
  refine ⟨_, e, rfl, rfl, rfl, hbyte, fun k => ?_⟩
  rw [e]; rfl

theorem process_identity_exhausted_witness :
    mGetRequestAck (sampleByteFrame 0 AUTO C_INTERNAL I_ID_RESPONSE false 255) = 0 ∧
    ∃ t, process (sampleEnv [sampleByteFrame 0 AUTO C_INTERNAL I_ID_RESPONSE false 255] 0) 0
        (sampleState AUTO) = .halt t ∧
      t.trace = (sampleState AUTO).trace ∧ t.sends = (sampleState AUTO).sends ∧
      t.eeprom = (sampleState AUTO).eeprom ∧ t.nodeId = AUTO ∧
      ∀ (k : Bool → State → Res Unit),
        (process (sampleEnv [sampleByteFrame 0 AUTO C_INTERNAL I_ID_RESPONSE false 255] 0) 0
          (sampleState AUTO)).bind k = .halt t :=
  ⟨by decide,
    process_identity_exhausted
      (sampleEnv [sampleByteFrame 0 AUTO C_INTERNAL I_ID_RESPONSE false 255] 0) 0
      (sampleState AUTO) (sampleByteFrame 0 AUTO C_INTERNAL I_ID_RESPONSE false 255)
      rfl (by decide) (by decide) rfl (by decide) (by decide) (by decide) (by decide)
      (by decide) (by decide)⟩

/-- C9 (the code departs from the claim). A node without an address receives from the
gateway an `I_ID_RESPONSE` with byte payload 255 (`AUTO`, no address left) that
requests an acknowledgement: `process()` does not halt; it returns false, having
handed an identity request to the transport, adopted address 0 (the address of the
gateway) and written it to the EEPROM.  Routing the acknowledgement makes
`requestNodeId()` build an identity request in `msg`, and `msg.getByte()` is then
read from that request, not from the frame received. -/
theorem process_identity_exhausted_returns :
    mGetVersion (sampleByteFrame 0 AUTO C_INTERNAL I_ID_RESPONSE true 255)
      = PROTOCOL_VERSION ∧
    (sampleByteFrame 0 AUTO C_INTERNAL I_ID_RESPONSE true 255).destination
      = (sampleState AUTO).nodeId ∧
    MyMessage.getByteSpec
      (terminated (sampleByteFrame 0 AUTO C_INTERNAL I_ID_RESPONSE true 255)) = AUTO ∧
    ∃ t q, process (sampleEnv [sampleByteFrame 0 AUTO C_INTERNAL I_ID_RESPONSE true 255] 0) 2
        (sampleState AUTO) = .ret false t ∧
      t.nodeId = 0 ∧
      t.trace = [.sendtoWait q sizeofMyMessage GATEWAY_ADDRESS AUTO, .setThisAddress 0,
        .eepromWrite 0 0] :=
  ⟨by decide, by decide, by decide, _, _, rfl, rfl, rfl⟩

/-! ## What every run of the engine preserves -/

theorem Event.sound_mono {p q : Nat} (h : p ≤ q) (e : Event) (he : e.sound q) : e.sound p := by
  cases e <;> simp_all [Event.sound]
  omega

theorem Extends.refl (s : State) : Extends s s :=
  ⟨Nat.le_refl _, [], by simp, by simp⟩

theorem Extends.trans {s t u : State} (h1 : Extends s t) (h2 : Extends t u) : Extends s u := by
  obtain ⟨p1, r1, e1, g1⟩ := h1
  obtain ⟨p2, r2, e2, g2⟩ := h2
  refine ⟨Nat.le_trans p1 p2, r1 ++ r2, by rw [e2, e1, List.append_assoc], ?_⟩
  intro e he
  rcases List.mem_append.mp he with h | h
  · exact g1 e h
  · exact Event.sound_mono p1 e (g2 e h)

/-- A state that differs from `s` in neither the poll counter nor the record of calls. -/
theorem Extends.of_eq {s t : State} (hp : t.polls = s.polls) (ht : t.trace = s.trace) :
    Extends s t :=
  ⟨by omega, [], by simp [ht], by simp⟩

theorem Res.final_bind {α β : Type} (x : Res α) (f : α → State → Res β) (t : State)
    (h : (x.bind f).final = some t) :
    x = .halt t ∨ ∃ a s', x = .ret a s' ∧ (f a s').final = some t := by
  cases x with
  | ret a s' => exact Or.inr ⟨a, s', rfl, h⟩
  | halt s' =>
    simp only [Res.bind, Res.final, Option.some.injEq] at h
    exact Or.inl (by rw [h])
  | outOfFuel => simp [Res.bind, Res.final] at h

/-- What `sendRoute` does when its guard stops the message. -/
theorem sendRouteWith_guarded (env : Env) (rq : State → Res Unit) (r : Ref) (s : State)
    (hauto : s.nodeId = AUTO)
    (hm : ¬ (mGetCommand (s.get r) = C_INTERNAL ∧ (s.get r).type = I_ID_REQUEST)) :
    sendRouteWith env rq r s = (rq s).bind fun _ t => .ret false t := by
  have hg : (s.nodeId == AUTO &&
      !(mGetCommand (s.get r) == C_INTERNAL && (s.get r).type == I_ID_REQUEST)) = true := by
    simp only [Bool.and_eq_true, beq_iff_eq, Bool.not_eq_true', Bool.and_eq_false_iff,
      beq_eq_false_iff_ne]
    refine ⟨hauto, ?_⟩
    by_cases h1 : mGetCommand (s.get r) = C_INTERNAL
    · exact Or.inr (fun h2 => hm ⟨h1, h2⟩)
    · exact Or.inl h1
  unfold sendRouteWith
  simp only [hg, if_true]

/-- The state `sendRoute` leaves when it hands the message over comes after `s`. -/
theorem afterSend_extends (r : Ref) (s : State) (ft : Nat)
    (hgo : s.nodeId ≠ AUTO ∨
      (mGetCommand (s.get r) = C_INTERNAL ∧ (s.get r).type = I_ID_REQUEST)) :
    Extends s { afterSend r s with failedTransmissions := ft } := by
  refine ⟨?_, [sendEvent r s], ?_, ?_⟩
  · cases r <;> exact Nat.le_refl _
  · cases r <;> rfl
  · intro e he
    rw [List.mem_singleton] at he
    subst he
    intro ha
    rcases hgo with h | h
    · exact absurd ha h
    · exact h

theorem sendRouteWith_extends (env : Env) (rq : State → Res Unit)
    (hrq : ∀ s t, (rq s).final = some t → Extends s t) (r : Ref) (s t : State)
    (h : (sendRouteWith env rq r s).final = some t) : Extends s t := by
  by_cases hgo : s.nodeId ≠ AUTO ∨
      (mGetCommand (s.get r) = C_INTERNAL ∧ (s.get r).type = I_ID_REQUEST)
  · rw [sendRouteWith_direct env rq r s hgo] at h
    simp only [Res.final, Option.some.injEq] at h
    rw [← h]
    exact afterSend_extends r s _ hgo
  · have hauto : s.nodeId = AUTO := by
      by_contra hn; exact hgo (Or.inl hn)
    have hm : ¬ (mGetCommand (s.get r) = C_INTERNAL ∧ (s.get r).type = I_ID_REQUEST) :=
      fun hh => hgo (Or.inr hh)
    rw [sendRouteWith_guarded env rq r s hauto hm] at h
    rcases Res.final_bind _ _ _ h with h1 | ⟨a, s', h1, h2⟩
    · exact hrq s t (by rw [h1]; rfl)
    · simp only [Res.final, Option.some.injEq] at h2
      subst h2
      exact hrq s s' (by rw [h1]; rfl)

theorem ackStep_extends (env : Env) (rq : State → Res Unit)
    (hrq : ∀ s t, (rq s).final = some t → Extends s t) (s t : State)
    (h : (ackStep env rq s).final = some t) : Extends s t := by
  by_cases hr : mGetRequestAck s.msg = 0
  · rw [ackStep_none env rq s hr] at h
    simp only [Res.final, Option.some.injEq] at h
    rw [← h]; exact Extends.refl s
  · have e : ackStep env rq s =
        (sendRouteWith env rq .ack { s with ack := ackOf s }).bind fun _ u => .ret () u := by
      simp only [ackStep, hr, ne_eq, not_false_eq_true, if_true]; rfl
    rw [e] at h
    have key : ∀ u, (sendRouteWith env rq .ack { s with ack := ackOf s }).final = some u →
        Extends s u := by
      intro u hu
      have := sendRouteWith_extends env rq hrq .ack _ u hu
      exact this
    rcases Res.final_bind _ _ _ h with h1 | ⟨a, s', h1, h2⟩
    · exact key t (by rw [h1]; rfl)
    · simp only [Res.final, Option.some.injEq] at h2
      subst h2
      exact key s' (by rw [h1]; rfl)

theorem internalDispatch_extends (env : Env) (type : Nat) (s t : State)
    (h : (internalDispatch env type s).final = some t) : Extends s t := by
  obtain ⟨t', rest, h1, h2, h3, _, h5, _⟩ := internalDispatch_final env type s
  rw [h1, Option.some.injEq] at h
  subst h
  refine ⟨by omega, rest, h2, fun e he => ?_⟩
  have := h5 e he
  cases e <;> simp_all [Event.sound, Event.isSend, Event.isMsgCallback]

theorem deliver_extends (poll : Nat) (s s0 t : State) (h0 : Extends s0 s)
    (hp : s0.polls ≤ poll) (h : (deliver poll s).final = some t) : Extends s0 t := by
  obtain ⟨t', rest, h1, h2, h3, _, h5⟩ := deliver_final poll s
  rw [h1] at h
  simp only [Res.final, Option.some.injEq] at h
  subst h
  obtain ⟨p0, r0, e0, g0⟩ := h0
  refine ⟨by omega, r0 ++ rest, by rw [h2, e0, List.append_assoc], fun e he => ?_⟩
  rcases List.mem_append.mp he with hh | hh
  · exact g0 e hh
  · obtain ⟨_, m, hm⟩ := h5 e hh
    subst hm
    exact hp

theorem processWith_accept (env : Env) (rq : State → Res Unit) (s : State) (m : MyMessage)
    (hrecv : env.recvfromAck s.polls s.msg = some m)
    (hver : mGetVersion m = PROTOCOL_VERSION)
    (hdest : m.destination = (taken env m s).nodeId) :
    processWith env rq s =
      (ackStep env rq (taken env m s)).bind fun _ t =>
        if mGetCommand m = C_INTERNAL then
          if m.sender = GATEWAY_ADDRESS then internalDispatch env m.type t
          else deliver s.polls t
        else deliver s.polls t := by
  rw [processWith_taken env rq s m hrecv, if_neg (not_not.mpr hver), if_pos hdest]

/-- The frames `process()` drops: no frame, a frame of another version, a frame for
another node. -/
theorem processWith_reject (env : Env) (rq : State → Res Unit) (s : State) :
    (env.recvfromAck s.polls s.msg = none →
      processWith env rq s = .ret false { s with polls := s.polls + 1 }) ∧
    (∀ m, env.recvfromAck s.polls s.msg = some m →
      (mGetVersion m ≠ PROTOCOL_VERSION ∨ m.destination ≠ (taken env m s).nodeId) →
      processWith env rq s = .ret false (taken env m s)) := by
  constructor
  · intro h
    simp [processWith, h]
  · intro m h hr
    rw [processWith_taken env rq s m h]
    by_cases hv : mGetVersion m = PROTOCOL_VERSION
    · have hd : ¬ m.destination = (taken env m s).nodeId := by
        rcases hr with h1 | h1
        · exact absurd hv h1
        · exact h1
      rw [if_neg (not_not.mpr hv), if_neg hd]
    · rw [if_pos hv]

theorem taken_extends (env : Env) (m : MyMessage) (s : State) : Extends s (taken env m s) := by
  obtain ⟨_, k2, k3, _⟩ := taken_fields env m s
  exact ⟨by omega, [], by simp [k3], by simp⟩

theorem processWith_extends (env : Env) (rq : State → Res Unit)
    (hrq : ∀ s t, (rq s).final = some t → Extends s t) (s t : State)
    (h : (processWith env rq s).final = some t) : Extends s t := by
  obtain ⟨rej1, rej2⟩ := processWith_reject env rq s
  cases hrecv : env.recvfromAck s.polls s.msg with
  | none =>
    rw [rej1 hrecv] at h
    simp only [Res.final, Option.some.injEq] at h
    rw [← h]
    exact ⟨Nat.le_succ _, [], by simp, by simp⟩
  | some m =>
    have hrec : Extends s (taken env m s) := taken_extends env m s
    by_cases hacc : mGetVersion m = PROTOCOL_VERSION ∧ m.destination = (taken env m s).nodeId
    · rw [processWith_accept env rq s m hrecv hacc.1 hacc.2] at h
      rcases Res.final_bind _ _ _ h with h1 | ⟨a, s', h1, h2⟩
      · exact hrec.trans (ackStep_extends env rq hrq (taken env m s) t (by rw [h1]; rfl))
      · have hs' := ackStep_extends env rq hrq (taken env m s) s' (by rw [h1]; rfl)
        split_ifs at h2
        · exact (hrec.trans hs').trans (internalDispatch_extends env _ s' t h2)
        · exact deliver_extends s.polls s' s t (hrec.trans hs') (Nat.le_refl _) h2
        · exact deliver_extends s.polls s' s t (hrec.trans hs') (Nat.le_refl _) h2
    · have hr : mGetVersion m ≠ PROTOCOL_VERSION ∨ m.destination ≠ (taken env m s).nodeId := by
        by_cases hv : mGetVersion m = PROTOCOL_VERSION
        · exact Or.inr (fun hd => hacc ⟨hv, hd⟩)
        · exact Or.inl hv
      rw [rej2 m hrecv hr] at h
      simp only [Res.final, Option.some.injEq] at h
      rw [← h]; exact hrec

theorem waitLoop_extends (env : Env) (proc : State → Res Bool)
    (hproc : ∀ s t, (proc s).final = some t → Extends s t) (enter : Nat) :
    ∀ (n : Nat) (s t : State), (waitLoop env proc enter n s).final = some t → Extends s t := by
  intro n
  induction n with
  | zero => intro s t h; simp [waitLoop, Res.final] at h
  | succ k ih =>
    intro s t h
    unfold waitLoop at h
    have hclk : Extends s { s with clock := s.clock + 1 } := Extends.of_eq rfl rfl
    dsimp only at h
    split_ifs at h
    · rcases Res.final_bind _ _ _ h with h1 | ⟨a, s', h1, h2⟩
      · exact hclk.trans (hproc _ t (by rw [h1]; rfl))
      · exact (hclk.trans (hproc _ s' (by rw [h1]; rfl))).trans (ih s' t h2)
    · simp only [Res.final, Option.some.injEq] at h
      rw [← h]; exact hclk

theorem waitForReplyWith_extends (env : Env) (proc : State → Res Bool)
    (hproc : ∀ s t, (proc s).final = some t → Extends s t) (fuel : Nat) (s t : State)
    (h : (waitForReplyWith env proc fuel s).final = some t) : Extends s t := by
  have hclk : Extends s { s with clock := s.clock + 1 } := Extends.of_eq rfl rfl
  exact hclk.trans (waitLoop_extends env proc hproc _ fuel _ t h)

theorem requestNodeId_extends (env : Env) :
    ∀ (fuel : Nat) (s t : State), (requestNodeId env fuel s).final = some t → Extends s t := by
  intro fuel
  induction fuel with
  | zero => intro s t h; simp [requestNodeId, Res.final] at h
  | succ k ih =>
    intro s t h
    unfold requestNodeId at h
    dsimp only at h
    have hb : Extends s { s with msg := (build s.msg s.nodeId GATEWAY_ADDRESS env.NODE_SENSOR_ID
        C_INTERNAL I_ID_REQUEST false).setEmptyString } := Extends.of_eq rfl rfl
    rcases Res.final_bind _ _ _ h with h1 | ⟨a, s', h1, h2⟩
    · exact hb.trans (sendRouteWith_extends env _ ih .msg _ t (by rw [h1]; rfl))
    · have h3 := sendRouteWith_extends env _ ih .msg _ s' (by rw [h1]; rfl)
      exact (hb.trans h3).trans
        (waitForReplyWith_extends env _ (processWith_extends env _ ih) k s' t h2)

/-! ## Sending without an address -/

theorem idRequestOf_fields (env : Env) (s : State) :
    mGetCommand (idRequestOf env s) = C_INTERNAL ∧ (idRequestOf env s).type = I_ID_REQUEST ∧
    (idRequestOf env s).sender = s.nodeId ∧
    (idRequestOf env s).destination = GATEWAY_ADDRESS := by
  refine ⟨?_, rfl, rfl, rfl⟩
  have a := fun x => HeaderField.get_set .command .payloadType x P_STRING (by decide)
  have b := fun x => HeaderField.get_set .command .length x 0 (by decide)
  have c := fun x => HeaderField.get_set .command .ack x 0 (by decide)
  have d := fun x => HeaderField.get_set .command .requestAck x 0 (by decide)
  have e := fun x => HeaderField.get_set .command .command x C_INTERNAL (by decide)
  simp only [HeaderField.get, HeaderField.set, if_true, reduceCtorEq, if_false] at a b c d e
  simp only [idRequestOf, MyMessage.setEmptyString, build, boolToNat, a, b]
  simp only [Bool.false_eq_true, if_false]
  rw [c, d, e]

/-- On a silent radio the loop of `waitForReply` ends as soon as a clock reading is
outside the window. -/
theorem waitLoop_silent (env : Env) (rq : State → Res Unit) (enter : Nat)
    (hsilent : ∀ k b, env.recvfromAck k b = none) :
    ∀ (n fuel : Nat) (s : State), (∀ i, i < n → inWindow env enter (s.clock + i)) →
      ¬ inWindow env enter (s.clock + n) → n < fuel →
      ∃ t, waitLoop env (processWith env rq) enter fuel s = .ret () t ∧ t.trace = s.trace := by
  intro n
  induction n with
  | zero =>
    intro fuel s _ hout hf
    cases fuel with
    | zero => omega
    | succ k =>
      have hout' : ¬ (env.millis s.clock % 2 ^ 32 + 2 ^ 32 - enter) % 2 ^ 32 < 2000 := hout
      exact ⟨{ s with clock := s.clock + 1 }, by simp only [waitLoop, hout', if_false], rfl⟩
  | succ m ih =>
    intro fuel s hin hout hf
    cases fuel with
    | zero => omega
    | succ k =>
      have hin0 : (env.millis s.clock % 2 ^ 32 + 2 ^ 32 - enter) % 2 ^ 32 < 2000 := hin 0 (by omega)
      have hp := (processWith_reject env rq { s with clock := s.clock + 1 }).1 (hsilent _ _)
      obtain ⟨t, ht, htr⟩ := ih k
        { s with clock := s.clock + 1, polls := s.polls + 1 }
        (fun i hi => by
          have := hin (i + 1) (by omega)
          rwa [show s.clock + (i + 1) = s.clock + 1 + i by omega] at this)
        (by rwa [show s.clock + (m + 1) = s.clock + 1 + m by omega] at hout)
        (by omega)
      refine ⟨t, ?_, htr⟩
      simp only [waitLoop, hin0, if_true, hp, Res.bind]
      exact ht

/-- On a silent radio `sendRoute` without an address returns false once the clock
leaves the window of `waitForReply`, given enough fuel. -/
theorem sendRoute_without_address_returns (env : Env) (r : Ref) (s : State) (n fuel : Nat)
    (hauto : s.nodeId = AUTO)
    (hm : ¬ (mGetCommand (s.get r) = C_INTERNAL ∧ (s.get r).type = I_ID_REQUEST))
    (hsilent : ∀ k b, env.recvfromAck k b = none)
    (hin : ∀ i, i < n → inWindow env (env.millis s.clock % 2 ^ 32) (s.clock + 1 + i))
    (hout : ¬ inWindow env (env.millis s.clock % 2 ^ 32) (s.clock + 1 + n))
    (hfuel : n + 1 < fuel) :
    ∃ t, sendRoute env fuel r s = .ret false t := by
  cases fuel with
  | zero => omega
  | succ k =>
    obtain ⟨f1, f2, _, _⟩ := idRequestOf_fields env s
    have hgo : ({ s with msg := idRequestOf env s } : State).nodeId ≠ AUTO ∨
        (mGetCommand (({ s with msg := idRequestOf env s } : State).get .msg) = C_INTERNAL ∧
          (({ s with msg := idRequestOf env s } : State).get .msg).type = I_ID_REQUEST) :=
      Or.inr ⟨f1, f2⟩
    have e := sendRouteWith_direct env (fun t => requestNodeId env k t) .msg
      { s with msg := idRequestOf env s } hgo
    have hq : ∃ t, requestNodeId env (k + 1) s = .ret () t := by
      unfold requestNodeId
      dsimp only
      change ∃ t, ((sendRouteWith env (fun t => requestNodeId env k t) .msg
        { s with msg := idRequestOf env s }).bind _) = _
      rw [e]
      simp only [Res.bind, waitForReplyWith]
      obtain ⟨t, ht, _⟩ := waitLoop_silent env (fun t => requestNodeId env k t)
        (env.millis s.clock % 2 ^ 32) hsilent n k
        { ({ afterSend .msg { s with msg := idRequestOf env s } with
              failedTransmissions :=
                if sendStatus env .msg { s with msg := idRequestOf env s } =
                  env.RH_ROUTER_ERROR_NONE then 0
                else (s.failedTransmissions + 1) % 2 ^ env.counterBits } : State) with
          clock := s.clock + 1 }
        hin hout (by omega)
      exact ⟨t, ht⟩
    obtain ⟨t, ht⟩ := hq
    refine ⟨t, ?_⟩
    rw [sendRoute, sendRouteWith_guarded env _ r s hauto hm, ht]
    rfl

/-! ## Every run of the engine ends -/

theorem Ends.ret {α : Type} (env : Env) (p : Nat) (s t : State) (a : α)
    (hp : s.polls ≤ t.polls) (hc : s.clock ≤ t.clock) (hb : t.clock ≤ s.clock + p) :
    Ends env p s (Res.ret a t) :=
  ⟨t, rfl, hp, hc, hb, fun _ => ⟨a, rfl⟩⟩

/-- A call that ends, followed by a continuation that ends from every later state. -/
theorem Ends.bind {α β : Type} (env : Env) (p q : Nat) (s : State) (x : Res α)
    (f : α → State → Res β) (hx : Ends env p s x)
    (hf : ∀ a u, x = .ret a u → Ends env q u (f a u)) : Ends env (p + q) s (x.bind f) := by
  obtain ⟨t, h1, h2, h3, h5, h4⟩ := hx
  cases x with
  | ret a u =>
    simp only [Res.final, Option.some.injEq] at h1
    subst h1
    obtain ⟨t', g1, g2, g3, g5, g4⟩ := hf a u rfl
    exact ⟨t', g1, Nat.le_trans h2 g2, Nat.le_trans h3 g3, by omega, g4⟩
  | halt u =>
    refine ⟨t, h1, h2, h3, by omega, fun hq => ?_⟩
    obtain ⟨a, ha⟩ := h4 hq
    cases ha
  | outOfFuel => simp [Res.final] at h1

/-- C3 (amended). For every inbound frame of the supported version addressed to the
local address whose command is internal and whose sender is the gateway, whatever its
type: whenever `process()` returns, it returns false, and this invocation of
`process()` makes no call of the message callback (no call for the frame).  When the
frame requests no acknowledgement or the node has an address, `process()` ends
(it returns or halts) and no call of the message callback is made at all.  The local
address is the member `nc.nodeId` as `process()` reads it, after the terminator
store. -/
theorem process_internal_from_gateway (env : Env) (fuel : Nat) (s : State) (m : MyMessage)
    (hrecv : env.recvfromAck s.polls s.msg = some m)
    (hver : mGetVersion m = PROTOCOL_VERSION)
    (hdest : m.destination = (taken env m s).nodeId)
    (hcmd : mGetCommand m = C_INTERNAL) (hsender : m.sender = GATEWAY_ADDRESS) :
    (mGetLength m ≤ MAX_PAYLOAD → (taken env m s).nodeId = s.nodeId) ∧
    (∀ b t, process env fuel s = .ret b t → b = false) ∧
    (∀ t, (process env fuel s).final = some t →
      ∃ rest, t.trace = s.trace ++ rest ∧
        (∀ m', Event.msgCallback s.polls m' ∉ rest) ∧
        ((mGetRequestAck m = 0 ∨ (taken env m s).nodeId ≠ AUTO) →
          ∀ e ∈ rest, e.isMsgCallback = false)) ∧
    ((mGetRequestAck m = 0 ∨ (taken env m s).nodeId ≠ AUTO) →
      ∃ t, (process env fuel s).final = some t) := by
  obtain ⟨k1, k2, k3, _⟩ := taken_fields env m s
  have e : process env fuel s =
      (ackStep env (requestNodeId env fuel) (taken env m s)).bind fun _ t =>
        internalDispatch env m.type t := by
    rw [process, processWith_accept env _ s m hrecv hver hdest]
    simp only [hcmd, hsender, if_true]
  have hsound : ∀ (rest : List Event), (∀ ev ∈ rest, ev.sound (taken env m s).polls) →
      ∀ m', Event.msgCallback s.polls m' ∉ rest := by
    intro rest h m' hmem
    have := h _ hmem
    simp only [Event.sound, k2] at this
    omega
  have hpl : (mGetRequestAck m = 0 ∨ (taken env m s).nodeId ≠ AUTO) →
      (mGetRequestAck (taken env m s).msg = 0 ∨ (taken env m s).nodeId ≠ AUTO) := by
    intro h
    rw [k1, (terminated_getters m).2.2.2.1]
    exact h
  refine ⟨fun hlen => by rw [taken_of_le env m s hlen]; rfl, ?_, ?_, ?_⟩
  · intro b t h
    rw [e] at h
    cases ha : ackStep env (requestNodeId env fuel) (taken env m s) with
    | ret a s' =>
      rw [ha] at h
      obtain ⟨_, _, _, _, _, _, _, hb⟩ := internalDispatch_final env m.type s'
      exact hb b t h
    | halt s' => rw [ha] at h; simp [Res.bind] at h
    | outOfFuel => rw [ha] at h; simp [Res.bind] at h
  · intro t h
    rw [e] at h
    rcases Res.final_bind _ _ _ h with h1 | ⟨a, s', h1, h2⟩
    · obtain ⟨_, rest, hr1, hr2⟩ :=
        ackStep_extends env _ (requestNodeId_extends env fuel) (taken env m s) t
          (by rw [h1]; rfl)
      refine ⟨rest, by rw [hr1, k3], hsound rest hr2, fun hplain => ?_⟩
      obtain ⟨u, _, hu, _⟩ :=
        ackStep_plain env (requestNodeId env fuel) (taken env m s) (hpl hplain)
      rw [hu] at h1
      cases h1
    · obtain ⟨_, rest1, hr1, hr2⟩ :=
        ackStep_extends env _ (requestNodeId_extends env fuel) (taken env m s) s'
          (by rw [h1]; rfl)
      obtain ⟨t', rest2, q1, q2, _, _, q5, _⟩ := internalDispatch_final env m.type s'
      rw [q1, Option.some.injEq] at h2
      subst h2
      have hr1' : s'.trace = s.trace ++ rest1 := by rw [hr1, k3]
      refine ⟨rest1 ++ rest2, by rw [q2, hr1', List.append_assoc], ?_, fun hplain => ?_⟩
      · intro m' hmem
        rcases List.mem_append.mp hmem with hh | hh
        · exact hsound rest1 hr2 m' hh
        · have := (q5 _ hh).2
          simp [Event.isMsgCallback] at this
      · obtain ⟨u, pre, hu, _, _, _, _, _, _, _, hpre, hsend, _⟩ :=
          ackStep_plain env (requestNodeId env fuel) (taken env m s) (hpl hplain)
        rw [hu] at h1
        cases h1
        have : rest1 = pre := by
          have h3 : s.trace ++ rest1 = s.trace ++ pre := by rw [← hr1', hpre, k3]
          exact List.append_cancel_left h3
        subst this
        intro ev hev
        rcases List.mem_append.mp hev with hh | hh
        · have := hsend ev hh
          cases ev <;> simp_all [Event.isSend, Event.isMsgCallback]
        · exact (q5 ev hh).2
  · intro hplain
    obtain ⟨u, _, hu, _⟩ :=
      ackStep_plain env (requestNodeId env fuel) (taken env m s) (hpl hplain)
    obtain ⟨t', _, q1, _⟩ := internalDispatch_final env m.type u
    exact ⟨t', by rw [e, hu]; exact q1⟩

theorem process_internal_from_gateway_witness :
    (sampleByteFrame 0 7 C_INTERNAL I_TIME false 5).destination =
      (taken (sampleEnv [sampleByteFrame 0 7 C_INTERNAL I_TIME false 5] 0)
        (sampleByteFrame 0 7 C_INTERNAL I_TIME false 5) (sampleState 7)).nodeId ∧
    (∃ t, process (sampleEnv [sampleByteFrame 0 7 C_INTERNAL I_TIME false 5] 0) 0
      (sampleState 7) = .ret false t) ∧
    (∀ b t, process (sampleEnv [sampleByteFrame 0 7 C_INTERNAL I_TIME false 5] 0) 0
      (sampleState 7) = .ret b t → b = false) ∧
    (∀ t, (process (sampleEnv [sampleByteFrame 0 7 C_INTERNAL I_TIME false 5] 0) 0
        (sampleState 7)).final = some t →
      ∃ rest, t.trace = (sampleState 7).trace ++ rest ∧
        (∀ m', Event.msgCallback (sampleState 7).polls m' ∉ rest) ∧
        ((mGetRequestAck (sampleByteFrame 0 7 C_INTERNAL I_TIME false 5) = 0 ∨
          (taken (sampleEnv [sampleByteFrame 0 7 C_INTERNAL I_TIME false 5] 0)
            (sampleByteFrame 0 7 C_INTERNAL I_TIME false 5) (sampleState 7)).nodeId ≠ AUTO) →
          ∀ e ∈ rest, e.isMsgCallback = false)) :=
  ⟨by decide, ⟨_, rfl⟩,
    (process_internal_from_gateway (sampleEnv [sampleByteFrame 0 7 C_INTERNAL I_TIME false 5] 0)
      0 (sampleState 7) (sampleByteFrame 0 7 C_INTERNAL I_TIME false 5) rfl (by decide)
      (by decide) (by decide) (by decide)).2.1,
    (process_internal_from_gateway (sampleEnv [sampleByteFrame 0 7 C_INTERNAL I_TIME false 5] 0)
      0 (sampleState 7) (sampleByteFrame 0 7 C_INTERNAL I_TIME false 5) rfl (by decide)
      (by decide) (by decide) (by decide)).2.2.1⟩

/-- C3 as stated fails on a node without an address when the frame of the gateway
requests an acknowledgement: the node with address `AUTO` receives an `I_TIME` frame
from the gateway with request-ack set, and then, while `process()` waits for an
identity, a `C_SET` frame from node 9.  Before `process()` returns false the message
callback has been called (by the `process()` call made during the wait, for the
second frame). -/
theorem process_internal_from_gateway_callback :
    mGetVersion (sampleByteFrame 0 AUTO C_INTERNAL I_TIME true 5) = PROTOCOL_VERSION ∧
    (sampleByteFrame 0 AUTO C_INTERNAL I_TIME true 5).destination = (sampleState AUTO).nodeId ∧
    mGetCommand (sampleByteFrame 0 AUTO C_INTERNAL I_TIME true 5) = C_INTERNAL ∧
    (sampleByteFrame 0 AUTO C_INTERNAL I_TIME true 5).sender = GATEWAY_ADDRESS ∧
    ∃ t q, process
        (slowClockEnv [sampleByteFrame 0 AUTO C_INTERNAL I_TIME true 5,
          sampleByteFrame 9 AUTO C_SET 0 false 77] 0) 3 (sampleState AUTO) = .ret false t ∧
      t.trace = [.sendtoWait q sizeofMyMessage GATEWAY_ADDRESS AUTO,
        .msgCallback 1 (terminated (sampleByteFrame 9 AUTO C_SET 0 false 77)),
        .timeCallback 0] :=
  ⟨by decide, by decide, by decide, by decide, _, _, rfl, rfl⟩

/-! ## Power-down without an interrupt -/

theorem sleepTest_quiet (irq : Nat → Bool) (hirq : ∀ k, irq k = false) (threshold : Nat)
    (st : Sleeper) (hct : st.continueTimer = true) :
    sleepTest irq threshold st =
      (decide (threshold ≤ st.ms), { st with checks := st.checks + 1 }) := by
  simp [sleepTest, hirq, hct]

theorem sub_unsigned_long (ms amount : Nat) (h1 : amount ≤ ms) (h2 : ms < 2 ^ 32) :
    (ms + 2 ^ 32 - amount) % 2 ^ 32 = ms - amount := by
  have : ms + 2 ^ 32 - amount = (ms - amount) + 2 ^ 32 := by omega
  rw [this, Nat.add_mod_right, Nat.mod_eq_of_lt (by omega)]

theorem sleepIf_quiet (irq : Nat → Bool) (hirq : ∀ k, irq k = false)
    (threshold : Nat) (period : period_t) (amount : Nat) (st : Sleeper)
    (hct : st.continueTimer = true) (hms : st.ms < 2 ^ 32) (ha : amount ≤ threshold) :
    sleepIf irq threshold period amount st =
      { continueTimer := true, ms := (quietIf threshold period amount st.ms).1,
        checks := st.checks + 1,
        cycles := st.cycles ++ (quietIf threshold period amount st.ms).2 } := by
  unfold sleepIf
  rw [sleepTest_quiet irq hirq threshold st hct]
  by_cases h : threshold ≤ st.ms
  · have hs := sub_unsigned_long st.ms amount (by omega) hms
    simp only [h, decide_True, if_true, powerDown, quietIf, hs]
    rw [hct]
  · have hdec : decide (threshold ≤ st.ms) = false := decide_eq_false h
    simp only [hdec, h, if_false, quietIf, List.append_nil, Bool.false_eq_true]
    cases st
    simp_all

theorem quietIf_le (threshold : Nat) (period : period_t) (amount ms : Nat) :
    (quietIf threshold period amount ms).1 ≤ ms := by
  unfold quietIf; split_ifs <;> simp

theorem sleepWhile_quiet (irq : Nat → Bool) (hirq : ∀ k, irq k = false) :
    ∀ (fuel : Nat) (st : Sleeper), st.continueTimer = true → st.ms < 2 ^ 32 →
      st.ms / 8000 < fuel →
      sleepWhile irq fuel st =
        some { continueTimer := true, ms := st.ms % 8000,
               checks := st.checks + st.ms / 8000 + 1,
               cycles := st.cycles ++ List.replicate (st.ms / 8000) .SLEEP_8S } := by
  intro fuel
  induction fuel with
  | zero => intro st _ _ h; omega
  | succ k ih =>
    intro st hct hms hf
    rw [sleepWhile]
    rw [sleepTest_quiet irq hirq 8000 st hct]
    by_cases h : 8000 ≤ st.ms
    · have hsub := sub_unsigned_long st.ms 8000 h hms
      have hdiv : (st.ms - 8000) / 8000 + 1 = st.ms / 8000 := by omega
      have hmod : (st.ms - 8000) % 8000 = st.ms % 8000 := by omega
      have hlt : st.ms - 8000 < 2 ^ 32 := by omega
      have hf' : (st.ms - 8000) / 8000 < k := by omega
      have hdec : decide (8000 ≤ st.ms) = true := decide_eq_true h
      simp only [hdec, if_true]
      have hpd : powerDown .SLEEP_8S 8000 { st with checks := st.checks + 1 } =
          { continueTimer := true, ms := st.ms - 8000, checks := st.checks + 1,
            cycles := st.cycles ++ [period_t.SLEEP_8S] } := by
        simp only [powerDown, hsub, hct]
      have hc : st.checks + 1 + (st.ms - 8000) / 8000 + 1 = st.checks + st.ms / 8000 + 1 := by
        omega
      have hl : (st.cycles ++ [period_t.SLEEP_8S]) ++
          List.replicate ((st.ms - 8000) / 8000) period_t.SLEEP_8S =
          st.cycles ++ List.replicate (st.ms / 8000) period_t.SLEEP_8S := by
        rw [← hdiv, List.replicate_succ, List.append_assoc]; rfl
      rw [hpd, ih ⟨true, st.ms - 8000, st.checks + 1, st.cycles ++ [period_t.SLEEP_8S]⟩
        rfl hlt hf']
      simp only [hmod, hc, hl]
    · have hd : st.ms / 8000 = 0 := by omega
      have hm : st.ms % 8000 = st.ms := by omega
      have hdec : decide (8000 ≤ st.ms) = false := decide_eq_false h
      simp only [hdec, Bool.false_eq_true, if_false, hd, hm, List.replicate_zero,
        List.append_nil, Nat.add_zero]
      cases st
      simp_all

/-- One `if` line when `continueTimer` stays true, field by field. -/
theorem sleepIf_quiet_fields (irq : Nat → Bool) (hirq : ∀ k, irq k = false)
    (threshold : Nat) (period : period_t) (amount : Nat) (st : Sleeper)
    (hct : st.continueTimer = true) (hms : st.ms < 2 ^ 32) (ha : amount ≤ threshold) :
    (sleepIf irq threshold period amount st).continueTimer = true ∧
    (sleepIf irq threshold period amount st).ms < 2 ^ 32 ∧
    (sleepIf irq threshold period amount st).ms = (quietIf threshold period amount st.ms).1 ∧
    (sleepIf irq threshold period amount st).cycles =
      st.cycles ++ (quietIf threshold period amount st.ms).2 := by
  rw [sleepIf_quiet irq hirq threshold period amount st hct hms ha]
  exact ⟨rfl, Nat.lt_of_le_of_lt (quietIf_le _ _ _ _) hms, rfl, rfl⟩

/-- The nine `if` lines when `continueTimer` stays true. -/
theorem sleepIfs_quiet (irq : Nat → Bool) (hirq : ∀ k, irq k = false) (st : Sleeper)
    (hct : st.continueTimer = true) (hms : st.ms < 2 ^ 32) :
    (sleepIfs irq st).ms = (quietTail st.ms).1 ∧
    (sleepIfs irq st).cycles = st.cycles ++ (quietTail st.ms).2 := by
  obtain ⟨a1, a2, a3, a4⟩ :=
    sleepIf_quiet_fields irq hirq 4000 .SLEEP_4S 4000 st hct hms (Nat.le_refl _)
  obtain ⟨b1, b2, b3, b4⟩ :=
    sleepIf_quiet_fields irq hirq 2000 .SLEEP_2S 2000 _ a1 a2 (Nat.le_refl _)
  obtain ⟨c1, c2, c3, c4⟩ :=
    sleepIf_quiet_fields irq hirq 1000 .SLEEP_1S 1000 _ b1 b2 (Nat.le_refl _)
  obtain ⟨d1, d2, d3, d4⟩ :=
    sleepIf_quiet_fields irq hirq 500 .SLEEP_500MS 500 _ c1 c2 (Nat.le_refl _)
  obtain ⟨e1, e2, e3, e4⟩ :=
    sleepIf_quiet_fields irq hirq 250 .SLEEP_250MS 250 _ d1 d2 (Nat.le_refl _)
  obtain ⟨f1, f2, f3, f4⟩ :=
    sleepIf_quiet_fields irq hirq 125 .SLEEP_120MS 120 _ e1 e2 (by norm_num)
  obtain ⟨g1, g2, g3, g4⟩ :=
    sleepIf_quiet_fields irq hirq 64 .SLEEP_60MS 60 _ f1 f2 (by norm_num)
  obtain ⟨h1, h2, h3, h4⟩ :=
    sleepIf_quiet_fields irq hirq 32 .SLEEP_30MS 30 _ g1 g2 (by norm_num)
  obtain ⟨i1, i2, i3, i4⟩ :=
    sleepIf_quiet_fields irq hirq 16 .SLEEP_15Ms 15 _ h1 h2 (by norm_num)
  constructor
  · simp only [sleepIfs, quietTail, i3, h3, g3, f3, e3, d3, c3, b3, a3]
  · simp only [sleepIfs, quietTail, i4, h4, g4, f4, e4, d4, c4, b4, a4,
      i3, h3, g3, f3, e3, d3, c3, b3, a3, List.append_assoc]

set_option maxRecDepth 100000 in
/-- The nine `if` lines on a remaining time that is a multiple of 250 below 8000. -/
theorem quietTail_multiple_of_250 : ∀ j, j < 32 →
    (quietTail (250 * j)).1 = 0 ∧ totalMillis (quietTail (250 * j)).2 = 250 * j ∧
    (quietTail (250 * j)).2.Sublist
      [.SLEEP_4S, .SLEEP_2S, .SLEEP_1S, .SLEEP_500MS, .SLEEP_250MS] := by
  decide

theorem totalMillis_append (a b : List period_t) :
    totalMillis (a ++ b) = totalMillis a + totalMillis b := by
  simp [totalMillis]

theorem totalMillis_replicate (n : Nat) (p : period_t) :
    totalMillis (List.replicate n p) = n * p.millis := by
  simp [totalMillis]

/-- C10. With no interrupt, for every duration `ms` that is a multiple of 250,
`sleep(ms)` ends and issues `ms / 8000` cycles of 8000 ms followed by at most one
cycle each of 4000, 2000, 1000, 500 and 250 ms, in that order; the amounts of the
cycles sum to `ms` and the remaining time is 0.  For `ms = 9000` the cycles are an
8 s cycle and a 1 s cycle. -/
theorem sleep_multiple_of_250 (irq : Nat → Bool) (fuel ms checks : Nat)
    (hirq : ∀ k, irq k = false) (hms : ms < 2 ^ 32) (h250 : 250 ∣ ms)
    (hfuel : ms / 8000 < fuel) :
    ∃ st tail, sleep irq fuel ms checks [] = some st ∧
      st.cycles = List.replicate (ms / 8000) .SLEEP_8S ++ tail ∧
      tail.Sublist [.SLEEP_4S, .SLEEP_2S, .SLEEP_1S, .SLEEP_500MS, .SLEEP_250MS] ∧
      totalMillis st.cycles = ms ∧ st.ms = 0 ∧
      (ms = 9000 → st.cycles = [.SLEEP_8S, .SLEEP_1S]) := by
  have hw := sleepWhile_quiet irq hirq fuel ⟨true, ms, checks, []⟩ rfl hms hfuel
  obtain ⟨q, hq⟩ := h250
  have hj : ms % 8000 = 250 * (q % 32) := by omega
  have hj32 : q % 32 < 32 := Nat.mod_lt _ (by norm_num)
  obtain ⟨t1, t2, t3⟩ := quietTail_multiple_of_250 (q % 32) hj32
  rw [← hj] at t1 t2 t3
  have hlt : ms % 8000 < 2 ^ 32 := Nat.lt_of_le_of_lt (Nat.mod_le _ _) hms
  obtain ⟨k1, k2⟩ := sleepIfs_quiet irq hirq
    ⟨true, ms % 8000, checks + ms / 8000 + 1, [] ++ List.replicate (ms / 8000) .SLEEP_8S⟩
    rfl hlt
  have hk2 : (sleepIfs irq ⟨true, ms % 8000, checks + ms / 8000 + 1,
      [] ++ List.replicate (ms / 8000) .SLEEP_8S⟩).cycles =
      List.replicate (ms / 8000) .SLEEP_8S ++ (quietTail (ms % 8000)).2 := by
    rw [k2, List.nil_append]
  refine ⟨_, (quietTail (ms % 8000)).2, ?_, hk2, t3, ?_, k1.trans t1, ?_⟩
  · show (sleepWhile irq fuel ⟨true, ms, checks, []⟩).map (sleepIfs irq) = _
    rw [hw]; rfl
  · rw [hk2, totalMillis_append, totalMillis_replicate, t2]
    show ms / 8000 * 8000 + ms % 8000 = ms
    omega
  · intro h9
    rw [hk2]
    subst h9
    decide

theorem sleep_multiple_of_250_witness :
    250 ∣ 9000 ∧ 9000 / 8000 < 2 ∧
    ∃ st tail, sleep (fun _ => false) 2 9000 0 [] = some st ∧
      st.cycles = List.replicate (9000 / 8000) .SLEEP_8S ++ tail ∧
      tail.Sublist [.SLEEP_4S, .SLEEP_2S, .SLEEP_1S, .SLEEP_500MS, .SLEEP_250MS] ∧
      totalMillis st.cycles = 9000 ∧ st.ms = 0 ∧
      (9000 = 9000 → st.cycles = [.SLEEP_8S, .SLEEP_1S]) :=
  ⟨by decide, by decide,
    sleep_multiple_of_250 (fun _ => false) 2 9000 0 (fun _ => rfl) (by norm_num) (by decide)
      (by decide)⟩

/-- One `if` line with `continueTimer` true: cycle and remainder add up to the time
before, and the remainder is bounded. -/
theorem quietIf_bound (threshold : Nat) (period : period_t) (amount x B B' : Nat)
    (hp : period.millis = amount) (hq : amount ≤ threshold) (hx : x ≤ B)
    (h1 : threshold - 1 ≤ B') (h2 : B - amount ≤ B') :
    ∃ y l, quietIf threshold period amount x = (y, l) ∧ y ≤ B' ∧ totalMillis l + y = x := by
  unfold quietIf
  split_ifs with h
  · refine ⟨_, _, rfl, by omega, ?_⟩
    simp only [totalMillis, List.map_cons, List.map_nil, List.sum_cons, List.sum_nil, hp]
    omega
  · refine ⟨_, _, rfl, by omega, ?_⟩
    simp only [totalMillis, List.map_nil, List.sum_nil]
    omega

/-- The nine `if` lines on any remaining time below 8000: at most 24 ms stay
uncovered, and cycles and remainder add up to the time. -/
theorem quietTail_remainder (r : Nat) (h : r < 8000) :
    (quietTail r).1 ≤ 24 ∧ totalMillis (quietTail r).2 + (quietTail r).1 = r := by
  have hr : r ≤ 7999 := by omega
  simp only [quietTail]
  obtain ⟨y1, l1, e1, b1, s1⟩ := quietIf_bound 4000 .SLEEP_4S 4000 r 7999 3999 rfl
    (by norm_num) hr (by norm_num) (by norm_num)
  rw [e1]; dsimp only
  obtain ⟨y2, l2, e2, b2, s2⟩ := quietIf_bound 2000 .SLEEP_2S 2000 y1 3999 1999 rfl
    (by norm_num) b1 (by norm_num) (by norm_num)
  rw [e2]; dsimp only
  obtain ⟨y3, l3, e3, b3, s3⟩ := quietIf_bound 1000 .SLEEP_1S 1000 y2 1999 999 rfl
    (by norm_num) b2 (by norm_num) (by norm_num)
  rw [e3]; dsimp only
  obtain ⟨y4, l4, e4, b4, s4⟩ := quietIf_bound 500 .SLEEP_500MS 500 y3 999 499 rfl
    (by norm_num) b3 (by norm_num) (by norm_num)
  rw [e4]; dsimp only
  obtain ⟨y5, l5, e5, b5, s5⟩ := quietIf_bound 250 .SLEEP_250MS 250 y4 499 249 rfl
    (by norm_num) b4 (by norm_num) (by norm_num)
  rw [e5]; dsimp only
  obtain ⟨y6, l6, e6, b6, s6⟩ := quietIf_bound 125 .SLEEP_120MS 120 y5 249 129 rfl
    (by norm_num) b5 (by norm_num) (by norm_num)
  rw [e6]; dsimp only
  obtain ⟨y7, l7, e7, b7, s7⟩ := quietIf_bound 64 .SLEEP_60MS 60 y6 129 69 rfl
    (by norm_num) b6 (by norm_num) (by norm_num)
  rw [e7]; dsimp only
  obtain ⟨y8, l8, e8, b8, s8⟩ := quietIf_bound 32 .SLEEP_30MS 30 y7 69 39 rfl
    (by norm_num) b7 (by norm_num) (by norm_num)
  rw [e8]; dsimp only
  obtain ⟨y9, l9, e9, b9, s9⟩ := quietIf_bound 16 .SLEEP_15Ms 15 y8 39 24 rfl
    (by norm_num) b8 (by norm_num) (by norm_num)
  rw [e9]; dsimp only
  refine ⟨b9, ?_⟩
  simp only [totalMillis_append]
  omega

/-- C11 (amended). With no interrupt, for every duration `ms`, `sleep(ms)` ends and
the part of `ms` not covered by an issued low-power cycle is at most 24 ms (it can
reach the smallest threshold, 16 ms, because each of the cycles of 120, 60, 30 and
15 ms is issued at most once, at the thresholds 125, 64, 32 and 16). -/
theorem sleep_remainder (irq : Nat → Bool) (fuel ms checks : Nat)
    (hirq : ∀ k, irq k = false) (hms : ms < 2 ^ 32) (hfuel : ms / 8000 < fuel) :
    ∃ st, sleep irq fuel ms checks [] = some st ∧
      totalMillis st.cycles + st.ms = ms ∧ st.ms ≤ 24 := by
  have hw := sleepWhile_quiet irq hirq fuel ⟨true, ms, checks, []⟩ rfl hms hfuel
  have hr : ms % 8000 < 8000 := Nat.mod_lt _ (by norm_num)
  obtain ⟨t1, t2⟩ := quietTail_remainder (ms % 8000) hr
  have hlt : ms % 8000 < 2 ^ 32 := Nat.lt_of_le_of_lt (Nat.mod_le _ _) hms
  obtain ⟨k1, k2⟩ := sleepIfs_quiet irq hirq
    ⟨true, ms % 8000, checks + ms / 8000 + 1, [] ++ List.replicate (ms / 8000) .SLEEP_8S⟩
    rfl hlt
  have hk2 : (sleepIfs irq ⟨true, ms % 8000, checks + ms / 8000 + 1,
      [] ++ List.replicate (ms / 8000) .SLEEP_8S⟩).cycles =
      List.replicate (ms / 8000) .SLEEP_8S ++ (quietTail (ms % 8000)).2 := by
    rw [k2, List.nil_append]
  have hk1 : (sleepIfs irq ⟨true, ms % 8000, checks + ms / 8000 + 1,
      [] ++ List.replicate (ms / 8000) .SLEEP_8S⟩).ms = (quietTail (ms % 8000)).1 := k1
  refine ⟨sleepIfs irq ⟨true, ms % 8000, checks + ms / 8000 + 1,
      [] ++ List.replicate (ms / 8000) .SLEEP_8S⟩, ?_, ?_, ?_⟩
  · show (sleepWhile irq fuel ⟨true, ms, checks, []⟩).map (sleepIfs irq) = _
    rw [hw]; rfl
  · rw [hk2, hk1, totalMillis_append, totalMillis_replicate]
    show ms / 8000 * 8000 + totalMillis (quietTail (ms % 8000)).2 + (quietTail (ms % 8000)).1
      = ms
    omega
  · rw [hk1]; exact t1

theorem sleep_remainder_witness :
    249 / 8000 < 1 ∧
    ∃ st, sleep (fun _ => false) 1 249 0 [] = some st ∧
      totalMillis st.cycles + st.ms = 249 ∧ st.ms ≤ 24 :=
  ⟨by decide, sleep_remainder (fun _ => false) 1 249 0 (fun _ => rfl) (by norm_num) (by decide)⟩

/-- C11 as stated fails: with no interrupt `sleep(249)` issues the cycles of 120, 60,
30 and 15 ms and returns with 24 ms uncovered, which is not below 16. -/
theorem sleep_249_leaves_24 :
    ∃ st, sleep (fun _ => false) 1 249 0 [] = some st ∧
      st.cycles = [.SLEEP_120MS, .SLEEP_60MS, .SLEEP_30MS, .SLEEP_15Ms] ∧
      st.ms = 24 ∧ ¬ st.ms < 16 :=
  ⟨_, rfl, by decide, by decide, by decide⟩

/-! ## Power-down with the wake-up interrupt -/

theorem handlerRan_iff (irq : Nat → Bool) (a b : Nat) :
    handlerRan irq a b = true ↔ ∃ k, a ≤ k ∧ k < b ∧ irq k = true := by
  simp only [handlerRan, List.any_eq_true, List.mem_range'_1]
  constructor
  · rintro ⟨k, ⟨h1, h2⟩, h3⟩
    exact ⟨k, h1, by omega, h3⟩
  · rintro ⟨k, h1, h2, h3⟩
    exact ⟨k, ⟨h1, by omega⟩, h3⟩

theorem handlerRan_succ (irq : Nat → Bool) (a c : Nat) (h : a ≤ c) :
    handlerRan irq a (c + 1) = (handlerRan irq a c || irq c) := by
  rw [Bool.eq_iff_iff, Bool.or_eq_true, handlerRan_iff, handlerRan_iff]
  constructor
  · rintro ⟨k, h1, h2, h3⟩
    by_cases hk : k = c
    · right; rw [← hk]; exact h3
    · left; exact ⟨k, h1, by omega, h3⟩
  · rintro (⟨k, h1, h2, h3⟩ | h3)
    · exact ⟨k, h1, by omega, h3⟩
    · exact ⟨c, h, by omega, h3⟩

theorem handlerRan_quiet (irq : Nat → Bool) (hirq : ∀ k, irq k = false) (a b : Nat) :
    handlerRan irq a b = false := by
  rw [Bool.eq_false_iff]
  intro h
  obtain ⟨k, _, _, hk⟩ := (handlerRan_iff irq a b).mp h
  rw [hirq k] at hk
  cases hk

theorem armed_start (irq : Nat → Bool) (ms checks : Nat) (cycles : List period_t) :
    armed irq checks ⟨true, ms, checks, cycles⟩ := by
  refine ⟨Nat.le_refl _, ?_⟩
  show true = !handlerRan irq checks checks
  simp [handlerRan]

theorem sleepTest_snd (irq : Nat → Bool) (threshold : Nat) (st : Sleeper) :
    (sleepTest irq threshold st).2 =
      ⟨!irq st.checks && st.continueTimer, st.ms, st.checks + 1, st.cycles⟩ ∧
    (sleepTest irq threshold st).1 =
      ((!irq st.checks && st.continueTimer) && decide (threshold ≤ st.ms)) := by
  unfold sleepTest
  dsimp only
  cases irq st.checks <;> simp [wakeUp]

theorem sleepTest_armed (irq : Nat → Bool) (first threshold : Nat) (st : Sleeper)
    (h : armed irq first st) :
    armed irq first (sleepTest irq threshold st).2 ∧
    ((sleepTest irq threshold st).1 = true → threshold ≤ st.ms) ∧
    (sleepTest irq threshold st).2.ms = st.ms ∧
    (sleepTest irq threshold st).2.checks = st.checks + 1 := by
  obtain ⟨h1, h2⟩ := h
  obtain ⟨e2, e1⟩ := sleepTest_snd irq threshold st
  rw [e1, e2]
  refine ⟨⟨?_, ?_⟩, ?_, rfl, rfl⟩
  · show first ≤ st.checks + 1
    omega
  · show (!irq st.checks && st.continueTimer) = !handlerRan irq first (st.checks + 1)
    rw [handlerRan_succ irq first st.checks h1, h2]
    cases irq st.checks <;> simp
  · intro hgo
    rw [Bool.and_eq_true, decide_eq_true_eq] at hgo
    exact hgo.2

theorem powerDown_armed (irq : Nat → Bool) (first : Nat) (period : period_t) (amount : Nat)
    (st : Sleeper) (h : armed irq first st) : armed irq first (powerDown period amount st) :=
  ⟨h.1, h.2⟩

theorem sleepIf_armed (irq : Nat → Bool) (first threshold : Nat) (period : period_t)
    (amount : Nat) (st : Sleeper) (h : armed irq first st) :
    armed irq first (sleepIf irq threshold period amount st) := by
  have ha := (sleepTest_armed irq first threshold st h).1
  have e : sleepIf irq threshold period amount st =
      if (sleepTest irq threshold st).1 then
        powerDown period amount (sleepTest irq threshold st).2
      else (sleepTest irq threshold st).2 := rfl
  rw [e]
  split_ifs
  · exact powerDown_armed irq first period amount _ ha
  · exact ha

theorem sleepIfs_armed (irq : Nat → Bool) (first : Nat) (st : Sleeper)
    (h : armed irq first st) : armed irq first (sleepIfs irq st) := by
  unfold sleepIfs
  dsimp only
  exact sleepIf_armed irq first _ _ _ _
    (sleepIf_armed irq first _ _ _ _
      (sleepIf_armed irq first _ _ _ _
        (sleepIf_armed irq first _ _ _ _
          (sleepIf_armed irq first _ _ _ _
            (sleepIf_armed irq first _ _ _ _
              (sleepIf_armed irq first _ _ _ _
                (sleepIf_armed irq first _ _ _ _
                  (sleepIf_armed irq first _ _ _ _ h))))))))

/-- The `while` line ends, whatever the interrupts, within `ms / 8000 + 1` tests. -/
theorem sleepWhile_armed (irq : Nat → Bool) (first : Nat) :
    ∀ (fuel : Nat) (st : Sleeper), st.ms < 2 ^ 32 → st.ms / 8000 < fuel →
      armed irq first st →
      ∃ st', sleepWhile irq fuel st = some st' ∧ armed irq first st' := by
  intro fuel
  induction fuel with
  | zero => intro st _ h _; omega
  | succ k ih =>
    intro st hms hf ha
    obtain ⟨a1, a2, a3, _⟩ := sleepTest_armed irq first 8000 st ha
    have e : sleepWhile irq (k + 1) st =
        if (sleepTest irq 8000 st).1 then
          sleepWhile irq k (powerDown .SLEEP_8S 8000 (sleepTest irq 8000 st).2)
        else some (sleepTest irq 8000 st).2 := rfl
    rw [e]
    by_cases hgo : (sleepTest irq 8000 st).1 = true
    · rw [if_pos hgo]
      have h8 : 8000 ≤ st.ms := a2 hgo
      have hp : (powerDown .SLEEP_8S 8000 (sleepTest irq 8000 st).2).ms = st.ms - 8000 := by
        show ((sleepTest irq 8000 st).2.ms + 2 ^ 32 - 8000) % 2 ^ 32 = st.ms - 8000
        rw [a3]
        exact sub_unsigned_long st.ms 8000 h8 hms
      exact ih (powerDown .SLEEP_8S 8000 (sleepTest irq 8000 st).2)
        (by rw [hp]; omega) (by rw [hp]; omega) (powerDown_armed irq first _ _ _ a1)
    · rw [if_neg hgo]
      exact ⟨_, rfl, a1⟩

theorem readContinueTimer_armed (irq : Nat → Bool) (first : Nat) (st : Sleeper)
    (h : armed irq first st) :
    (!(readContinueTimer irq st).1) = handlerRan irq first (readContinueTimer irq st).2.checks := by
  have ha := (sleepTest_armed irq first 0 st h).1
  have e : (readContinueTimer irq st).1 = (readContinueTimer irq st).2.continueTimer := rfl
  have e2 : (readContinueTimer irq st).2 = (sleepTest irq 0 st).2 := rfl
  rw [e, e2, ha.2, Bool.not_not]

theorem readContinueTimer_checks (irq : Nat → Bool) (st : Sleeper) :
    (readContinueTimer irq st).2.checks = st.checks + 1 := by
  unfold readContinueTimer
  dsimp only
  split_ifs <;> rfl

/-- C16 (amended). For 0 < ms, `sleep(interrupt, mode, ms)` returns, and it returns
true if and only if the interrupt handler ran after `sleep(ms)` has set the continue
flag and before the flag is read for the result, whether or not it had run before
(`early`): a handler run between `attachInterrupt` and that assignment is lost.  In
particular the call returns false when no interrupt occurs from that assignment on.
For ms = 0 it issues a `SLEEP_FOREVER` power-down, which an interrupt ends, and
returns true with the flag cleared by the handler. -/
theorem sleepInterrupt_result (irq : Nat → Bool) (early : Bool) (fuel ms : Nat) (st : Sleeper)
    (hms : ms < 2 ^ 32) (hfuel : ms / 8000 < fuel) :
    (0 < ms → ∃ st', sleepInterrupt irq early fuel ms st =
        some (handlerRan irq st.checks st'.checks, st') ∧
      st.checks < st'.checks ∧
      ((∀ k, irq k = false) → handlerRan irq st.checks st'.checks = false)) ∧
    (ms = 0 → sleepInterrupt irq early fuel ms st =
      some (true, { st with continueTimer := false,
                            cycles := st.cycles ++ [.SLEEP_FOREVER] })) := by
  constructor
  · intro hpos
    obtain ⟨w, hw, haw⟩ := sleepWhile_armed irq st.checks fuel ⟨true, ms, st.checks, st.cycles⟩
      hms hfuel (armed_start irq ms st.checks st.cycles)
    have hai := sleepIfs_armed irq st.checks w haw
    have hr := readContinueTimer_armed irq st.checks (sleepIfs irq w) hai
    have hc : ∀ (u : Sleeper), (if early then wakeUp u else u).checks = u.checks ∧
        (if early then wakeUp u else u).cycles = u.cycles := by
      intro u; cases early <;> exact ⟨rfl, rfl⟩
    have e : sleepInterrupt irq early fuel ms st =
        some (!(readContinueTimer irq (sleepIfs irq w)).1,
          (readContinueTimer irq (sleepIfs irq w)).2) := by
      unfold sleepInterrupt
      dsimp only
      rw [if_pos hpos, (hc _).1, (hc _).2]
      show Option.map _ (Option.map (sleepIfs irq)
        (sleepWhile irq fuel ⟨true, ms, st.checks, st.cycles⟩)) = _
      rw [hw]
      rfl
    refine ⟨(readContinueTimer irq (sleepIfs irq w)).2, ?_, ?_, fun hq => handlerRan_quiet irq hq _ _⟩
    · rw [e, hr]
    · rw [readContinueTimer_checks]
      have := hai.1
      omega
  · intro h0
    subst h0
    rfl

theorem sleepInterrupt_result_witness :
    1000 < 2 ^ 32 ∧ 1000 / 8000 < 1 ∧
    (0 < 1000 → ∃ st', sleepInterrupt (fun k => decide (k = 4)) false 1 1000 ⟨true, 0, 0, []⟩ =
        some (handlerRan (fun k => decide (k = 4)) (Sleeper.mk true 0 0 []).checks st'.checks,
          st') ∧
      (Sleeper.mk true 0 0 []).checks < st'.checks ∧
      ((∀ k, (fun k => decide (k = 4)) k = false) →
        handlerRan (fun k => decide (k = 4)) (Sleeper.mk true 0 0 []).checks st'.checks
          = false)) ∧
    sleepInterrupt (fun k => decide (k = 4)) false 1 1000 ⟨true, 0, 0, []⟩ =
      some (true, ⟨false, 0, 11, [.SLEEP_1S]⟩) :=
  ⟨by norm_num, by decide,
    (sleepInterrupt_result (fun k => decide (k = 4)) false 1 1000 ⟨true, 0, 0, []⟩
      (by norm_num) (by decide)).1, by decide⟩

/-- C16 as stated fails when the interrupt comes early: the handler runs after
`attachInterrupt` and before `sleep(ms)` sets the continue flag again, and no other
interrupt occurs.  The call sleeps the whole second and returns false, although the
handler has run during the call and cleared the flag. -/
theorem sleepInterrupt_early_lost :
    (wakeUp ⟨true, 0, 0, []⟩).continueTimer = false ∧
    sleepInterrupt (fun _ => false) true 1 1000 ⟨true, 0, 0, []⟩ =
      some (false, ⟨true, 0, 11, [.SLEEP_1S]⟩) :=
  ⟨rfl, by decide⟩

/-! ## The frame handed to the transport -/

/-- C12 (the code departs from the claim). Every frame `sendWrite` hands to the
transport is handed over with length `sizeof(message)`: the 7 header bytes and all
26 bytes of the payload buffer, the string-terminator byte included.  That is 33
bytes, more than `MAX_MESSAGE_LENGTH`. -/
theorem sendWrite_length (env : Env) (r : Ref) (s : State) :
    ∃ frame dest, (sendWrite env r s).2.trace =
        s.trace ++ [Event.sendtoWait frame (HEADER_SIZE + (MAX_PAYLOAD + 1)) dest s.nodeId] ∧
      HEADER_SIZE + (MAX_PAYLOAD + 1) = 33 ∧
      MAX_MESSAGE_LENGTH < HEADER_SIZE + (MAX_PAYLOAD + 1) := by
  rw [sendWrite_eq]
  exact ⟨_, _, rfl, by decide, by decide⟩

/-- C20. The frame `sendWrite` hands to the transport carries version field
`PROTOCOL_VERSION`, whatever the version bits of the message were; it is addressed to
`message.destination`; the signed flag, the length field, the other header fields
and the payload are those of the message. -/
theorem sendWrite_stamps_version (env : Env) (r : Ref) (s : State) :
    ∃ frame, (sendWrite env r s).2.trace =
        s.trace ++ [Event.sendtoWait frame sizeofMyMessage (s.get r).destination s.nodeId] ∧
      (sendWrite env r s).2.get r = frame ∧
      mGetVersion frame = PROTOCOL_VERSION ∧
      mGetSigned frame = mGetSigned (s.get r) ∧ mGetLength frame = mGetLength (s.get r) ∧
      frame.command_ack_payload = (s.get r).command_ack_payload ∧
      frame.last = (s.get r).last ∧ frame.sender = (s.get r).sender ∧
      frame.destination = (s.get r).destination ∧ frame.type = (s.get r).type ∧
      frame.sensor = (s.get r).sensor ∧ frame.data = (s.get r).data := by
  have a := HeaderField.get_set .version .version (s.get r) PROTOCOL_VERSION (by decide)
  have b := HeaderField.get_set .signed .version (s.get r) PROTOCOL_VERSION (by decide)
  have c := HeaderField.get_set .length .version (s.get r) PROTOCOL_VERSION (by decide)
  simp only [HeaderField.get, HeaderField.set, if_true, reduceCtorEq, if_false] at a b c
  rw [sendWrite_eq]
  refine ⟨mSetVersion (s.get r) PROTOCOL_VERSION, rfl, ?_, a, b, c, rfl, rfl, rfl, rfl, rfl,
    rfl, rfl⟩
  cases r <;> rfl

/-! ## The wrapper `send` -/

/-- C19. `send(message, enableAck)` is `sendRoute` on the message with sender set to
the local address, command set to `C_SET` and request-ack set to `enableAck`; the
destination, type, sensor, payload, payload-type tag, is-ack flag, the
`version_length` byte (signed and length bits) and `last` are as the caller
supplied them, and nothing else of the state is changed before routing. -/
theorem send_routes_stamped (env : Env) (fuel : Nat) (r : Ref) (enableAck : Bool) (s : State) :
    ∃ m, send env fuel r enableAck s = sendRoute env fuel r (s.put r m) ∧
      m.sender = s.nodeId ∧ mGetCommand m = C_SET ∧
      mGetRequestAck m = boolToNat enableAck ∧
      m.destination = (s.get r).destination ∧ m.type = (s.get r).type ∧
      m.sensor = (s.get r).sensor ∧ m.data = (s.get r).data ∧
      mGetPayloadType m = mGetPayloadType (s.get r) ∧ mGetAck m = mGetAck (s.get r) ∧
      m.version_length = (s.get r).version_length ∧ m.last = (s.get r).last := by
  have hb : boolToNat enableAck < 2 := by cases enableAck <;> decide
  have a := fun x => HeaderField.get_set .command .requestAck x (boolToNat enableAck) hb
  have a' := fun x => HeaderField.get_set .command .command x C_SET (by decide)
  have b := fun x => HeaderField.get_set .requestAck .requestAck x (boolToNat enableAck) hb
  have c := fun x => HeaderField.get_set .payloadType .requestAck x (boolToNat enableAck) hb
  have c' := fun x => HeaderField.get_set .payloadType .command x C_SET (by decide)
  have d := fun x => HeaderField.get_set .ack .requestAck x (boolToNat enableAck) hb
  have d' := fun x => HeaderField.get_set .ack .command x C_SET (by decide)
  simp only [HeaderField.get, HeaderField.set, if_true, reduceCtorEq, if_false]
    at a a' b c c' d d'
  refine ⟨mSetRequestAck (mSetCommand { s.get r with sender := s.nodeId } C_SET)
      (boolToNat enableAck), ?_, rfl, ?_, b _, rfl, rfl, rfl, rfl, ?_, ?_, rfl, rfl⟩
  · cases r <;> rfl
  · rw [a, a']
  · rw [c, c']; rfl
  · rw [d, d']; rfl

/-! ## The node address once it is assigned -/

theorem keepsIdentity_refl (env : Env) (s : State) : keepsIdentity env s s :=
  ⟨rfl, rfl, [], by simp, by simp⟩

theorem keepsIdentity_trans (env : Env) {s t u : State} (h1 : keepsIdentity env s t)
    (h2 : keepsIdentity env t u) : keepsIdentity env s u := by
  obtain ⟨a1, b1, r1, e1, g1⟩ := h1
  obtain ⟨a2, b2, r2, e2, g2⟩ := h2
  refine ⟨a2.trans a1, b2.trans b1, r1 ++ r2, by rw [e2, e1, List.append_assoc], ?_⟩
  intro e he
  rcases List.mem_append.mp he with h | h
  · exact g1 e h
  · exact g2 e h

/-- Calls of `sendtoWait` only, with the address and the EEPROM untouched, keep the
identity. -/
theorem keepsIdentity_of_sends (env : Env) (s t : State) (pre : List Event)
    (hn : t.nodeId = s.nodeId) (he : t.eeprom = s.eeprom) (ht : t.trace = s.trace ++ pre)
    (hp : ∀ e ∈ pre, e.isSend = true) : keepsIdentity env s t := by
  refine ⟨hn, by rw [he], pre, ht, fun e hmem => ?_⟩
  have := hp e hmem
  constructor
  · intro v hv; rw [hv] at this; simp [Event.isSend] at this
  · intro a hv; rw [hv] at this; simp [Event.isSend] at this

theorem sendRouteWith_keepsIdentity (env : Env) (rq : State → Res Unit) (r : Ref) (s : State)
    (haddr : s.nodeId ≠ AUTO) :
    ∃ b t, sendRouteWith env rq r s = .ret b t ∧ keepsIdentity env s t := by
  refine ⟨_, _, sendRouteWith_direct env rq r s (Or.inl haddr), ?_⟩
  refine keepsIdentity_of_sends env s _ [sendEvent r s] ?_ ?_ ?_ ?_
  · cases r <;> rfl
  · cases r <;> rfl
  · cases r <;> rfl
  · simp [sendEvent, Event.isSend]

/-- The block for internal commands of the gateway on a node with an address. -/
theorem internalDispatch_keepsIdentity (env : Env) (type : Nat) (s : State)
    (haddr : s.nodeId ≠ AUTO)
    (hloc : env.EEPROM_CONTROLLER_CONFIG_ADDRESS ≠ env.EEPROM_NODE_ID_ADDRESS) :
    ∃ t, (internalDispatch env type s).final = some t ∧ keepsIdentity env s t := by
  unfold internalDispatch
  dsimp only
  split_ifs
  · exact ⟨_, rfl, rfl, rfl, [.wdtEnable], rfl, by simp⟩
  · exact ⟨_, rfl, keepsIdentity_refl env s⟩
  · refine ⟨_, rfl, rfl, ?_, [.eepromWrite env.EEPROM_CONTROLLER_CONFIG_ADDRESS _], rfl, ?_⟩
    · simp only [State.eepromWriteByte]
      rw [if_neg (Ne.symm hloc)]
    · intro e he
      rw [List.mem_singleton] at he
      subst he
      exact ⟨fun v hv => hloc (by injection hv), fun a hv => by cases hv⟩
  · exact ⟨_, rfl, keepsIdentity_refl env s⟩
  · exact ⟨_, rfl, rfl, rfl, [.timeCallback _], rfl, by simp⟩
  · exact ⟨_, rfl, keepsIdentity_refl env s⟩
  · exact ⟨_, rfl, keepsIdentity_refl env s⟩

theorem deliver_keepsIdentity (env : Env) (poll : Nat) (s : State) :
    ∃ t, (deliver poll s).final = some t ∧ keepsIdentity env s t := by
  unfold deliver
  split_ifs
  · exact ⟨_, rfl, rfl, rfl, [.msgCallback poll s.msg], rfl, by simp⟩
  · exact ⟨_, rfl, keepsIdentity_refl env s⟩

theorem processWith_keepsIdentity (env : Env) (rq : State → Res Unit) (s : State)
    (haddr : s.nodeId ≠ AUTO)
    (hloc : env.EEPROM_CONTROLLER_CONFIG_ADDRESS ≠ env.EEPROM_NODE_ID_ADDRESS)
    (hin : ∀ m, env.recvfromAck s.polls s.msg = some m → mGetLength m ≤ MAX_PAYLOAD) :
    ∃ t, (processWith env rq s).final = some t ∧ keepsIdentity env s t := by
  obtain ⟨rej1, rej2⟩ := processWith_reject env rq s
  cases hrecv : env.recvfromAck s.polls s.msg with
  | none =>
    rw [rej1 hrecv]
    exact ⟨_, rfl, rfl, rfl, [], by simp, by simp⟩
  | some m =>
    have ht := taken_of_le env m s (hin m hrecv)
    have rej3 := rej2 m hrecv
    rw [ht] at rej3
    have hrec : keepsIdentity env s (received m s) := ⟨rfl, rfl, [], by simp [received], by simp⟩
    by_cases hacc : mGetVersion m = PROTOCOL_VERSION ∧ m.destination = s.nodeId
    · rw [processWith_accept env rq s m hrecv hacc.1 (by rw [ht]; exact hacc.2), ht]
      obtain ⟨s2, pre, e1, _, k2, _, k4, _, _, _, k8, k9, _⟩ :=
        ackStep_plain env rq (received m s) (Or.inr haddr)
      have hk : keepsIdentity env (received m s) s2 :=
        keepsIdentity_of_sends env _ s2 pre k2 k4 k8 k9
      have haddr2 : s2.nodeId ≠ AUTO := by rw [k2]; exact haddr
      rw [e1]
      simp only [Res.bind]
      split_ifs
      · obtain ⟨t, h1, h2⟩ := internalDispatch_keepsIdentity env m.type s2 haddr2 hloc
        exact ⟨t, h1, keepsIdentity_trans env (keepsIdentity_trans env hrec hk) h2⟩
      · obtain ⟨t, h1, h2⟩ := deliver_keepsIdentity env s.polls s2
        exact ⟨t, h1, keepsIdentity_trans env (keepsIdentity_trans env hrec hk) h2⟩
      · obtain ⟨t, h1, h2⟩ := deliver_keepsIdentity env s.polls s2
        exact ⟨t, h1, keepsIdentity_trans env (keepsIdentity_trans env hrec hk) h2⟩
    · have hr : mGetVersion m ≠ PROTOCOL_VERSION ∨ m.destination ≠ s.nodeId := by
        by_cases hv : mGetVersion m = PROTOCOL_VERSION
        · exact Or.inr (fun hd => hacc ⟨hv, hd⟩)
        · exact Or.inl hv
      rw [rej3 hr]
      exact ⟨_, rfl, hrec⟩

/-- The node address once it is assigned, when the terminator is stored inside `msg`.
On a node whose address is not `AUTO` (the identity and the controller configuration
being stored at different EEPROM addresses), every call of `sendRoute()` and `send()`,
and every call of `process()` on a frame whose length field is an index of `data`,
ends with the node address unchanged, the stored identity byte unchanged, and without
a write at `EEPROM_NODE_ID_ADDRESS` or a `setThisAddress` call. -/
theorem address_kept_once_assigned (env : Env) (fuel : Nat) (s : State)
    (haddr : s.nodeId ≠ AUTO)
    (hloc : env.EEPROM_CONTROLLER_CONFIG_ADDRESS ≠ env.EEPROM_NODE_ID_ADDRESS)
    (hin : ∀ m, env.recvfromAck s.polls s.msg = some m → mGetLength m ≤ MAX_PAYLOAD) :
    (∃ t, (process env fuel s).final = some t ∧ keepsIdentity env s t) ∧
    (∀ r, ∃ b t, sendRoute env fuel r s = .ret b t ∧ keepsIdentity env s t) ∧
    (∀ r enableAck, ∃ b t, send env fuel r enableAck s = .ret b t ∧
      keepsIdentity env s t) := by
  refine ⟨processWith_keepsIdentity env _ s haddr hloc hin,
    fun r => sendRouteWith_keepsIdentity env _ r s haddr, fun r enableAck => ?_⟩
  have hput : ∀ (u : State) (m : MyMessage), keepsIdentity env u (u.put r m) := by
    intro u m
    cases r <;> exact ⟨rfl, rfl, [], by simp [State.put], by simp⟩
  have hn : ∀ (u : State) (m : MyMessage), (u.put r m).nodeId = u.nodeId := by
    intro u m; cases r <;> rfl
  unfold send
  dsimp only
  obtain ⟨b, t, h1, h2⟩ := sendRouteWith_keepsIdentity env (requestNodeId env fuel) r
    (((s.put r { s.get r with sender := s.nodeId }).put r
      (mSetCommand ((s.put r { s.get r with sender := s.nodeId }).get r) C_SET)).put r
      (mSetRequestAck (((s.put r { s.get r with sender := s.nodeId }).put r
        (mSetCommand ((s.put r { s.get r with sender := s.nodeId }).get r) C_SET)).get r)
        (boolToNat enableAck)))
    (by rw [hn, hn, hn]; exact haddr)
  refine ⟨b, t, ?_, ?_⟩
  · rw [← h1]
    cases r <;> rfl
  · exact keepsIdentity_trans env
      (keepsIdentity_trans env (keepsIdentity_trans env (hput _ _) (hput _ _)) (hput _ _)) h2

theorem address_kept_once_assigned_witness :
    (sampleState 7).nodeId ≠ AUTO ∧
    (sampleEnv [sampleByteFrame 0 7 C_INTERNAL I_ID_RESPONSE false 9] 0
      ).EEPROM_CONTROLLER_CONFIG_ADDRESS ≠
    (sampleEnv [sampleByteFrame 0 7 C_INTERNAL I_ID_RESPONSE false 9] 0
      ).EEPROM_NODE_ID_ADDRESS ∧
    ∃ t, (process (sampleEnv [sampleByteFrame 0 7 C_INTERNAL I_ID_RESPONSE false 9] 0) 0
        (sampleState 7)).final = some t ∧
      keepsIdentity (sampleEnv [sampleByteFrame 0 7 C_INTERNAL I_ID_RESPONSE false 9] 0)
        (sampleState 7) t :=
  ⟨by decide, by decide,
    (address_kept_once_assigned
      (sampleEnv [sampleByteFrame 0 7 C_INTERNAL I_ID_RESPONSE false 9] 0) 0 (sampleState 7)
      (by decide) (by decide)
      (fun m h => by
        have e : m = sampleByteFrame 0 7 C_INTERNAL I_ID_RESPONSE false 9 :=
          (Option.some.inj h).symm
        rw [e]
        decide)).1⟩

/-- C13 (the code departs from the claim). `process()` accepts a frame of the
supported version addressed to the node whose length field is 31: it returns true and
hands the frame to the message callback.  The terminator index `mGetLength(msg)` is
31, past the last index 25 of the 26 bytes of `data`; the statement
`msg.data[mGetLength(msg)] = '\0'` is not guarded by any test of the length. -/
theorem process_terminator_index_unchecked :
    mGetVersion sampleLongFrame = PROTOCOL_VERSION ∧
    sampleLongFrame.destination = (sampleState 7).nodeId ∧
    sampleLongFrame.data.length = MAX_PAYLOAD + 1 ∧
    mGetLength sampleLongFrame = 31 ∧ ¬ mGetLength sampleLongFrame ≤ MAX_PAYLOAD ∧
    ∃ t, process (sampleEnv [sampleLongFrame] 0) 0 (sampleState 7) = .ret true t ∧
      t.trace = [.msgCallback 0 sampleLongFrame] :=
  ⟨by decide, by decide, by decide, by decide, by decide, _, rfl, by decide⟩

/-! ## Frames for the application -/

/-- The acknowledgement block when the guard of `sendRoute` lets the acknowledgement
through: it returns with `msg` as it was, after one `sendtoWait` call when an
acknowledgement is requested and none otherwise. -/
theorem ackStep_open (env : Env) (rq : State → Res Unit) (s : State)
    (h : mGetRequestAck s.msg = 0 ∨ s.nodeId ≠ AUTO ∨
      (mGetCommand s.msg = C_INTERNAL ∧ s.msg.type = I_ID_REQUEST)) :
    ∃ t pre, ackStep env rq s = .ret () t ∧ t.msg = s.msg ∧ t.nodeId = s.nodeId ∧
      t.hasMsgCallback = s.hasMsgCallback ∧ t.trace = s.trace ++ pre ∧
      (mGetRequestAck s.msg = 0 → pre = []) ∧
      (mGetRequestAck s.msg ≠ 0 →
        pre = [.sendtoWait (mSetVersion (ackOf s) PROTOCOL_VERSION) sizeofMyMessage
          s.msg.sender s.nodeId]) := by
  by_cases hr : mGetRequestAck s.msg = 0
  · exact ⟨s, [], ackStep_none env rq s hr, rfl, rfl, rfl, by simp, fun _ => rfl,
      fun h0 => absurd hr h0⟩
  · have hgo : s.nodeId ≠ AUTO ∨
        (mGetCommand (ackOf s) = C_INTERNAL ∧ (ackOf s).type = I_ID_REQUEST) := by
      rcases h with h | h | ⟨h1, h2⟩
      · exact absurd h hr
      · exact Or.inl h
      · exact Or.inr ⟨(ackOf_fields s).2.2.1.trans h1, h2⟩
    exact ⟨_, _, ackStep_direct env rq s hr hgo, rfl, rfl, rfl, rfl, fun h0 => absurd h0 hr,
      fun _ => rfl⟩

/-- Delivery when `msg` is not rebuilt on the way.  `process()` receives a frame of the
supported version addressed to the local address, whose length field is an index of
`data`, that is not an internal command from the gateway, and the frame requests no
acknowledgement, or the node has an address, or the frame is an internal identity
request.  Then `process()` returns true; it first routes the acknowledgement, if one
is requested (one `sendtoWait` call, to the sender of the frame, is-ack set), and
then, when a message callback is registered, invokes it exactly once, with the frame
that was received (string terminator written); it makes no other call. -/
theorem process_delivers (env : Env) (fuel : Nat) (s : State) (m : MyMessage)
    (hrecv : env.recvfromAck s.polls s.msg = some m) (hlen : mGetLength m ≤ MAX_PAYLOAD)
    (hver : mGetVersion m = PROTOCOL_VERSION) (hdest : m.destination = s.nodeId)
    (hnot : ¬ (mGetCommand m = C_INTERNAL ∧ m.sender = GATEWAY_ADDRESS))
    (hplain : mGetRequestAck m = 0 ∨ s.nodeId ≠ AUTO ∨
      (mGetCommand m = C_INTERNAL ∧ m.type = I_ID_REQUEST)) :
    ∃ t pre, process env fuel s = .ret true t ∧
      t.trace = s.trace ++ pre ++
        (if s.hasMsgCallback then [.msgCallback s.polls (terminated m)] else []) ∧
      (mGetRequestAck m = 0 → pre = []) ∧
      (mGetRequestAck m ≠ 0 → ∃ frame,
        pre = [.sendtoWait frame sizeofMyMessage m.sender s.nodeId] ∧ mGetAck frame = 1) := by
  have hq : mGetRequestAck (received m s).msg = mGetRequestAck m := (terminated_getters m).2.2.2.1
  have hplain2 : mGetRequestAck (received m s).msg = 0 ∨ (received m s).nodeId ≠ AUTO ∨
      (mGetCommand (received m s).msg = C_INTERNAL ∧ (received m s).msg.type = I_ID_REQUEST) := by
    rcases hplain with h | h | ⟨h1, h2⟩
    · exact Or.inl (hq.trans h)
    · exact Or.inr (Or.inl h)
    · exact Or.inr (Or.inr ⟨(terminated_getters m).2.2.1.trans h1,
        (terminated_header m).2.2.2.2.2.1.trans h2⟩)
  obtain ⟨s2, pre, e1, k1, _, k3, k4, k5, k6⟩ :=
    ackStep_open env (requestNodeId env fuel) (received m s) hplain2
  rw [hq] at k5 k6
  have hmsg : s2.msg = terminated m := k1
  have hcb : s2.hasMsgCallback = s.hasMsgCallback := k3
  have htr : s2.trace = s.trace ++ pre := k4
  have hd : deliver s.polls s2 = .ret true
      (if s.hasMsgCallback then s2.log (.msgCallback s.polls (terminated m)) else s2) := by
    unfold deliver
    rw [hcb, hmsg]
    split_ifs <;> rfl
  have e : process env fuel s = .ret true
      (if s.hasMsgCallback then s2.log (.msgCallback s.polls (terminated m)) else s2) := by
    rw [process_accept_plain env fuel s m hrecv hlen hver hdest, e1]
    simp only [Res.bind]
    by_cases hc : mGetCommand m = C_INTERNAL
    · have hs : ¬ m.sender = GATEWAY_ADDRESS := fun h => hnot ⟨hc, h⟩
      rw [if_pos hc, if_neg hs, hd]
    · rw [if_neg hc, hd]
  have hsnd : (received m s).msg.sender = m.sender := (terminated_header m).2.2.2.1
  refine ⟨_, pre, e, ?_, k5,
    fun h => ⟨mSetVersion (ackOf (received m s)) PROTOCOL_VERSION, ?_, ?_⟩⟩
  · split_ifs
    · simp only [State.log, htr]
    · rw [htr, List.append_nil]
  · have h6 := k6 h
    rw [hsnd] at h6
    exact h6
  · exact (ackOf_fields (received m s)).1

theorem process_delivers_witness :
    ¬ (mGetCommand (sampleByteFrame 9 7 C_REQ 0 true 77) = C_INTERNAL ∧
      (sampleByteFrame 9 7 C_REQ 0 true 77).sender = GATEWAY_ADDRESS) ∧
    (mGetRequestAck (sampleByteFrame 9 7 C_REQ 0 true 77) = 0 ∨ (sampleState 7).nodeId ≠ AUTO ∨
      (mGetCommand (sampleByteFrame 9 7 C_REQ 0 true 77) = C_INTERNAL ∧
        (sampleByteFrame 9 7 C_REQ 0 true 77).type = I_ID_REQUEST)) ∧
    ∃ t pre, process (sampleEnv [sampleByteFrame 9 7 C_REQ 0 true 77] 0) 0 (sampleState 7)
        = .ret true t ∧
      t.trace = (sampleState 7).trace ++ pre ++
        (if (sampleState 7).hasMsgCallback
          then [.msgCallback (sampleState 7).polls
            (terminated (sampleByteFrame 9 7 C_REQ 0 true 77))]
          else []) ∧
      (mGetRequestAck (sampleByteFrame 9 7 C_REQ 0 true 77) = 0 → pre = []) ∧
      (mGetRequestAck (sampleByteFrame 9 7 C_REQ 0 true 77) ≠ 0 → ∃ frame,
        pre = [.sendtoWait frame sizeofMyMessage (sampleByteFrame 9 7 C_REQ 0 true 77).sender
          (sampleState 7).nodeId] ∧ mGetAck frame = 1) :=
  ⟨by decide, Or.inr (Or.inl (by decide)),
    process_delivers (sampleEnv [sampleByteFrame 9 7 C_REQ 0 true 77] 0) 0 (sampleState 7)
      (sampleByteFrame 9 7 C_REQ 0 true 77) rfl (by decide) (by decide) (by decide) (by decide)
      (Or.inr (Or.inl (by decide)))⟩

/-- C15 (the code departs from the claim). A node without an address receives a frame
that requests an acknowledgement: the node with address `AUTO` receives a `C_REQ`
frame from node 9, of the supported version and addressed to it.  `process()` returns
true and the message callback is invoked once, but with the identity request that
`requestNodeId()` built in `msg` while the acknowledgement was being routed (internal
command, from 255 to the gateway), not with the frame received: `sendRoute()` is
handed the separate buffer `ack` so as to leave `msg` alone, and `requestNodeId()`
overwrites `msg` all the same. -/
theorem process_delivers_identity_request :
    mGetVersion (sampleByteFrame 9 AUTO C_REQ 0 true 77) = PROTOCOL_VERSION ∧
    (sampleByteFrame 9 AUTO C_REQ 0 true 77).destination = (sampleState AUTO).nodeId ∧
    ¬ (mGetCommand (sampleByteFrame 9 AUTO C_REQ 0 true 77) = C_INTERNAL ∧
      (sampleByteFrame 9 AUTO C_REQ 0 true 77).sender = GATEWAY_ADDRESS) ∧
    (sampleState AUTO).hasMsgCallback = true ∧
    ∃ t q, process (sampleEnv [sampleByteFrame 9 AUTO C_REQ 0 true 77] 0) 2 (sampleState AUTO)
        = .ret true t ∧
      t.trace = [Event.sendtoWait q sizeofMyMessage GATEWAY_ADDRESS AUTO,
        Event.msgCallback 0 q] ∧
      q ≠ terminated (sampleByteFrame 9 AUTO C_REQ 0 true 77) ∧
      mGetCommand q = C_INTERNAL ∧ q.type = I_ID_REQUEST ∧ q.sender = AUTO ∧
      q.destination = GATEWAY_ADDRESS :=
  ⟨by decide, by decide, by decide, rfl, _, _, rfl, rfl, by decide, by decide, by decide,
    by decide, by decide⟩

/-! ## The identity response -/

/-- The identity response when `msg` is not rebuilt on the way.  The node address is
`AUTO` and `process()` receives, addressed to it and from the gateway, an internal
`I_ID_RESPONSE` of the supported version, whose length field is an index of `data`,
that requests no acknowledgement and whose byte payload `a` is not `AUTO`.  Then
`process()` returns false; the node address is `a`, and the calls made are
`setThisAddress(a)` and then one EEPROM write, of `a` at `EEPROM_NODE_ID_ADDRESS`;
no other EEPROM byte changes. -/
theorem process_identity_assigned (env : Env) (fuel : Nat) (s : State) (m : MyMessage) (a : Nat)
    (hrecv : env.recvfromAck s.polls s.msg = some m) (hlen : mGetLength m ≤ MAX_PAYLOAD)
    (hver : mGetVersion m = PROTOCOL_VERSION)
    (hauto : s.nodeId = AUTO) (hdest : m.destination = s.nodeId)
    (hcmd : mGetCommand m = C_INTERNAL) (hsender : m.sender = GATEWAY_ADDRESS)
    (htype : m.type = I_ID_RESPONSE)
    (hbyte : env.getByte (terminated m) = a) (ha : a ≠ AUTO)
    (hnoack : mGetRequestAck m = 0) :
    ∃ t, process env fuel s = .ret false t ∧ t.nodeId = a ∧
      t.trace = s.trace ++
        [.setThisAddress a, .eepromWrite env.EEPROM_NODE_ID_ADDRESS a] ∧
      t.eeprom = (fun x => if x = env.EEPROM_NODE_ID_ADDRESS then a else s.eeprom x) ∧
      t.sends = s.sends := by
  have e1 : ackStep env (requestNodeId env fuel) (received m s) = .ret () (received m s) :=
    ackStep_none env _ _ (((terminated_getters m).2.2.2.1).trans hnoack)
  have hb : env.getByte (received m s).msg = a := hbyte
  have hn : (received m s).nodeId = AUTO := hauto
  have h1 : ¬ I_ID_RESPONSE = I_REBOOT := by decide
  have e2 : internalDispatch env I_ID_RESPONSE (received m s) =
      .ret false ((({ received m s with nodeId := a } : State).log
        (.setThisAddress a)).eepromWriteByte env.EEPROM_NODE_ID_ADDRESS a) := by
    simp only [internalDispatch, h1, if_false, if_true, hn, hb, ha]
    rfl
  refine ⟨(({ received m s with nodeId := a } : State).log
    (.setThisAddress a)).eepromWriteByte env.EEPROM_NODE_ID_ADDRESS a, ?_, rfl, ?_, rfl, rfl⟩
  · rw [process_accept_plain env fuel s m hrecv hlen hver hdest, e1]
    simp only [Res.bind, hcmd, hsender, htype, if_true, e2]
  · simp [State.eepromWriteByte, State.log, received]

theorem process_identity_assigned_witness :
    (sampleState AUTO).nodeId = AUTO ∧
    (sampleEnv [sampleByteFrame 0 AUTO C_INTERNAL I_ID_RESPONSE false 7] 0).getByte
      (terminated (sampleByteFrame 0 AUTO C_INTERNAL I_ID_RESPONSE false 7)) = 7 ∧
    7 ≠ AUTO ∧ mGetRequestAck (sampleByteFrame 0 AUTO C_INTERNAL I_ID_RESPONSE false 7) = 0 ∧
    ∃ t, process (sampleEnv [sampleByteFrame 0 AUTO C_INTERNAL I_ID_RESPONSE false 7] 0) 0
        (sampleState AUTO) = .ret false t ∧ t.nodeId = 7 ∧
      t.trace = (sampleState AUTO).trace ++
        [.setThisAddress 7,
          .eepromWrite
            (sampleEnv [sampleByteFrame 0 AUTO C_INTERNAL I_ID_RESPONSE false 7]
              0).EEPROM_NODE_ID_ADDRESS 7] ∧
      t.eeprom = (fun x =>
        if x = (sampleEnv [sampleByteFrame 0 AUTO C_INTERNAL I_ID_RESPONSE false 7]
          0).EEPROM_NODE_ID_ADDRESS then 7 else (sampleState AUTO).eeprom x) ∧
      t.sends = (sampleState AUTO).sends :=
  ⟨rfl, by decide, by decide, by decide,
    process_identity_assigned
      (sampleEnv [sampleByteFrame 0 AUTO C_INTERNAL I_ID_RESPONSE false 7] 0) 0
      (sampleState AUTO) (sampleByteFrame 0 AUTO C_INTERNAL I_ID_RESPONSE false 7) 7
      rfl (by decide) (by decide) rfl (by decide) (by decide) (by decide) (by decide)
      (by decide) (by decide) (by decide)⟩

/-- C17 (the code departs from the claim). The identity response requests an
acknowledgement: the node with address `AUTO` receives from the gateway an
`I_ID_RESPONSE` of the supported version, addressed to it, with byte payload 7.
Routing the acknowledgement sends an identity request first, built in `msg`; the
address is then decoded from that request, not from the response, and the node adopts
address 0 and writes 0 to the EEPROM, not 7. -/
theorem process_identity_assigned_other :
    mGetVersion (sampleByteFrame 0 AUTO C_INTERNAL I_ID_RESPONSE true 7) = PROTOCOL_VERSION ∧
    (sampleByteFrame 0 AUTO C_INTERNAL I_ID_RESPONSE true 7).destination
      = (sampleState AUTO).nodeId ∧
    MyMessage.getByteSpec
      (terminated (sampleByteFrame 0 AUTO C_INTERNAL I_ID_RESPONSE true 7)) = 7 ∧
    ∃ t q, process (sampleEnv [sampleByteFrame 0 AUTO C_INTERNAL I_ID_RESPONSE true 7] 0) 2
        (sampleState AUTO) = .ret false t ∧
      t.nodeId = 0 ∧ t.nodeId ≠ 7 ∧ t.eeprom 0 = 0 ∧
      t.trace = [.sendtoWait q sizeofMyMessage GATEWAY_ADDRESS AUTO, .setThisAddress 0,
        .eepromWrite 0 0] :=
  ⟨by decide, by decide, by decide, _, _, rfl, rfl, by decide, rfl, rfl⟩

/-! ## The unit preference across a restart -/

/-- C18 (the code departs from the claim). Node 7 holds metric and receives from the
gateway an `I_CONFIG` frame with payload 'I': `process()` holds imperial afterwards
and has written 0 at `EEPROM_CONTROLLER_CONFIG_ADDRESS`.  `begin()` reads the
controller configuration at `EEPROM_LOCAL_CONFIG_ADDRESS`, another address, where
the erased EEPROM still holds 0xff: after the restart the node holds metric again. -/
theorem begin_reads_other_location :
    (sampleEnv [sampleByteFrame 0 7 C_INTERNAL I_CONFIG false 73] 0
      ).EEPROM_CONTROLLER_CONFIG_ADDRESS ≠
    (sampleEnv [sampleByteFrame 0 7 C_INTERNAL I_CONFIG false 73] 0
      ).EEPROM_LOCAL_CONFIG_ADDRESS ∧
    ∃ t, process (sampleEnv [sampleByteFrame 0 7 C_INTERNAL I_CONFIG false 73] 0) 0
        (sampleState 7) = .ret false t ∧
      t.isMetric = 0 ∧
      t.trace = [.eepromWrite
        (sampleEnv [sampleByteFrame 0 7 C_INTERNAL I_CONFIG false 73] 0
          ).EEPROM_CONTROLLER_CONFIG_ADDRESS 0] ∧
      (beginLoad (sampleEnv [sampleByteFrame 0 7 C_INTERNAL I_CONFIG false 73] 0) t).isMetric
        = 1 :=
  ⟨by decide, _, rfl, rfl, rfl, by decide⟩

/-! ## Power-down, interrupted or not -/

theorem onSchedule_start (st : Sleeper) : onSchedule st.cycles st.ms [] st.ms st := by
  cases h : st.continueTimer
  · exact Or.inr ⟨h, [], List.prefix_refl _, by simp, by simp [totalMillis]⟩
  · exact Or.inl ⟨h, rfl, by simp, by simp [totalMillis]⟩

/-- Once `continueTimer` is false the schedule may be extended at will. -/
theorem onSchedule_stopped (cycles : List period_t) (ms : Nat) (q q' : List period_t)
    (x x' : Nat) (st : Sleeper) (h : onSchedule cycles ms q x st)
    (hct : st.continueTimer = false) (hq : q <+: q') : onSchedule cycles ms q' x' st := by
  rcases h with ⟨h1, _⟩ | ⟨_, pre, hpre, hc, ht⟩
  · rw [hct] at h1; cases h1
  · exact Or.inr ⟨hct, pre, hpre.trans hq, hc, ht⟩

/-- One `if` line of `internalSleep`, whatever the interrupts. -/
theorem sleepIf_onSchedule (irq : Nat → Bool) (cycles : List period_t) (ms : Nat)
    (q : List period_t) (x threshold : Nat) (period : period_t) (amount : Nat) (st : Sleeper)
    (hms : ms < 2 ^ 32) (ha : amount ≤ threshold) (hp : period.millis = amount)
    (h : onSchedule cycles ms q x st) :
    onSchedule cycles ms (q ++ (quietIf threshold period amount x).2)
      (quietIf threshold period amount x).1 (sleepIf irq threshold period amount st) := by
  obtain ⟨e2, e1⟩ := sleepTest_snd irq threshold st
  have e : sleepIf irq threshold period amount st =
      if (sleepTest irq threshold st).1 then
        powerDown period amount (sleepTest irq threshold st).2
      else (sleepTest irq threshold st).2 := rfl
  rw [e, e1, e2]
  rcases h with ⟨hct, hx, hc, ht⟩ | ⟨hct, pre, hpre, hc, ht⟩
  · rw [hct]
    cases hi : irq st.checks
    · simp only [Bool.not_false, Bool.true_and, Bool.and_self]
      by_cases hth : threshold ≤ st.ms
      · have hdec : decide (threshold ≤ st.ms) = true := decide_eq_true hth
        have hthx : threshold ≤ x := hx ▸ hth
        have hsub : (st.ms + 2 ^ 32 - amount) % 2 ^ 32 = x - amount := by
          rw [sub_unsigned_long st.ms amount (by omega) (by omega), hx]
        rw [hdec, if_pos rfl]
        refine Or.inl ⟨rfl, ?_, ?_, ?_⟩
        · simp only [powerDown, quietIf, if_pos hthx, hsub]
        · simp only [powerDown, quietIf, if_pos hthx, hc, List.append_assoc]
        · simp only [quietIf, if_pos hthx, totalMillis_append]
          simp only [totalMillis, List.map_cons, List.map_nil, List.sum_cons, List.sum_nil, hp]
          simp only [totalMillis] at ht
          omega
      · have hdec : decide (threshold ≤ st.ms) = false := decide_eq_false hth
        have hthx : ¬ threshold ≤ x := hx ▸ hth
        rw [hdec]
        simp only [Bool.false_eq_true, if_false]
        refine Or.inl ⟨rfl, ?_, ?_, ?_⟩
        · simp only [quietIf, if_neg hthx, hx]
        · simp only [quietIf, if_neg hthx, hc, List.append_nil]
        · simp only [quietIf, if_neg hthx, List.append_nil]
          exact ht
    · simp only [Bool.not_true, Bool.false_and, Bool.false_eq_true, if_false]
      refine Or.inr ⟨rfl, q, List.prefix_append _ _, hc, ?_⟩
      show totalMillis q + st.ms = ms
      rw [hx]; exact ht
  · rw [hct]
    simp only [Bool.and_false, Bool.false_and, Bool.false_eq_true, if_false]
    exact Or.inr ⟨rfl, pre, hpre.trans (List.prefix_append _ _), hc, ht⟩

/-- When a test `continueTimer && ms >= threshold` succeeds, `continueTimer` is true
and the time left is at least the threshold. -/
theorem sleepTest_go (irq : Nat → Bool) (cycles : List period_t) (ms : Nat)
    (q : List period_t) (x threshold : Nat) (st : Sleeper)
    (h : onSchedule cycles ms q x st) (hgo : (sleepTest irq threshold st).1 = true) :
    threshold ≤ x ∧ (sleepTest irq threshold st).2.continueTimer = true := by
  obtain ⟨e2, e1⟩ := sleepTest_snd irq threshold st
  rw [e1, Bool.and_eq_true, decide_eq_true_eq] at hgo
  rw [e2]
  refine ⟨?_, hgo.1⟩
  rcases h with ⟨_, hx, _⟩ | ⟨hct, _⟩
  · rw [← hx]; exact hgo.2
  · rw [hct] at hgo
    simp at hgo

/-- The `while` line of `internalSleep` ends, whatever the interrupts. -/
theorem sleepWhile_onSchedule (irq : Nat → Bool) (cycles : List period_t) (ms : Nat)
    (hms : ms < 2 ^ 32) :
    ∀ (fuel : Nat) (q : List period_t) (x : Nat) (st : Sleeper),
      onSchedule cycles ms q x st → x / 8000 < fuel →
      ∃ st', sleepWhile irq fuel st = some st' ∧
        onSchedule cycles ms (q ++ List.replicate (x / 8000) .SLEEP_8S) (x % 8000) st' := by
  intro fuel
  induction fuel with
  | zero => intro q x st _ h; omega
  | succ k ih =>
    intro q x st h hf
    have e : sleepWhile irq (k + 1) st =
        if (sleepTest irq 8000 st).1 then
          sleepWhile irq k (sleepIf irq 8000 .SLEEP_8S 8000 st)
        else some (sleepIf irq 8000 .SLEEP_8S 8000 st) := by
      have e' : sleepIf irq 8000 .SLEEP_8S 8000 st =
          if (sleepTest irq 8000 st).1 then
            powerDown .SLEEP_8S 8000 (sleepTest irq 8000 st).2
          else (sleepTest irq 8000 st).2 := rfl
      have e'' : sleepWhile irq (k + 1) st =
          if (sleepTest irq 8000 st).1 then
            sleepWhile irq k (powerDown .SLEEP_8S 8000 (sleepTest irq 8000 st).2)
          else some (sleepTest irq 8000 st).2 := rfl
      rw [e'', e']
      split_ifs <;> rfl
    have hs := sleepIf_onSchedule irq cycles ms q x 8000 .SLEEP_8S 8000 st hms (Nat.le_refl _)
      rfl h
    rw [e]
    by_cases hgo : (sleepTest irq 8000 st).1 = true
    · rw [if_pos hgo]
      obtain ⟨h8, _⟩ := sleepTest_go irq cycles ms q x 8000 st h hgo
      have hq : quietIf 8000 .SLEEP_8S 8000 x = (x - 8000, [.SLEEP_8S]) := by
        simp only [quietIf, if_pos h8]
      rw [hq] at hs
      obtain ⟨st', r1, r2⟩ := ih (q ++ [.SLEEP_8S]) (x - 8000)
        (sleepIf irq 8000 .SLEEP_8S 8000 st) hs (by omega)
      have hdiv : (x - 8000) / 8000 + 1 = x / 8000 := by omega
      have hmod : (x - 8000) % 8000 = x % 8000 := by omega
      have hl : (q ++ [period_t.SLEEP_8S]) ++
          List.replicate ((x - 8000) / 8000) period_t.SLEEP_8S =
          q ++ List.replicate (x / 8000) period_t.SLEEP_8S := by
        rw [← hdiv, List.replicate_succ, List.append_assoc]; rfl
      rw [hl, hmod] at r2
      exact ⟨st', r1, r2⟩
    · rw [if_neg hgo]
      refine ⟨_, rfl, ?_⟩
      by_cases hct : (sleepIf irq 8000 .SLEEP_8S 8000 st).continueTimer = false
      · refine onSchedule_stopped cycles ms _ _ _ _ _ hs hct ?_
        by_cases h8 : 8000 ≤ x
        · have hq : quietIf 8000 .SLEEP_8S 8000 x = (x - 8000, [.SLEEP_8S]) := by
            simp only [quietIf, if_pos h8]
          have hdiv : (x - 8000) / 8000 + 1 = x / 8000 := by omega
          rw [hq, ← hdiv, List.replicate_succ]
          exact (List.prefix_append_right_inj q).mpr (List.prefix_append [_] _)
        · have hq : quietIf 8000 .SLEEP_8S 8000 x = (x, []) := by
            simp only [quietIf, if_neg h8]
          rw [hq, List.append_nil]
          exact List.prefix_append _ _
      · have hct' : (sleepIf irq 8000 .SLEEP_8S 8000 st).continueTimer = true := by
          cases hc : (sleepIf irq 8000 .SLEEP_8S 8000 st).continueTimer
          · exact absurd hc hct
          · rfl
        obtain ⟨e2, e1⟩ := sleepTest_snd irq 8000 st
        have eS : sleepIf irq 8000 .SLEEP_8S 8000 st = (sleepTest irq 8000 st).2 := by
          have e' : sleepIf irq 8000 .SLEEP_8S 8000 st =
              if (sleepTest irq 8000 st).1 then
                powerDown .SLEEP_8S 8000 (sleepTest irq 8000 st).2
              else (sleepTest irq 8000 st).2 := rfl
          rw [e', if_neg hgo]
        rw [eS, e2] at hct'
        have hb : (!irq st.checks && st.continueTimer) = true := hct'
        rw [e1, hb, Bool.true_and, decide_eq_true_eq] at hgo
        have hlt : x < 8000 := by
          rcases h with ⟨_, hx, _⟩ | ⟨hd, _⟩
          · omega
          · rw [hd] at hb
            simp at hb
        have hq : quietIf 8000 .SLEEP_8S 8000 x = (x, []) := by
          simp only [quietIf, if_neg (Nat.not_le.mpr hlt)]
        have hd : x / 8000 = 0 := by omega
        have hm : x % 8000 = x := by omega
        rw [hq] at hs
        rw [hd, hm, List.replicate_zero]
        exact hs

/-- The nine `if` lines of `internalSleep`, whatever the interrupts. -/
theorem sleepIfs_onSchedule (irq : Nat → Bool) (cycles : List period_t) (ms : Nat)
    (q : List period_t) (x : Nat) (st : Sleeper) (hms : ms < 2 ^ 32)
    (h : onSchedule cycles ms q x st) :
    onSchedule cycles ms (q ++ (quietTail x).2) (quietTail x).1 (sleepIfs irq st) := by
  have a := sleepIf_onSchedule irq cycles ms _ _ 4000 .SLEEP_4S 4000 st hms (Nat.le_refl _) rfl h
  have b := sleepIf_onSchedule irq cycles ms _ _ 2000 .SLEEP_2S 2000 _ hms (Nat.le_refl _) rfl a
  have c := sleepIf_onSchedule irq cycles ms _ _ 1000 .SLEEP_1S 1000 _ hms (Nat.le_refl _) rfl b
  have d := sleepIf_onSchedule irq cycles ms _ _ 500 .SLEEP_500MS 500 _ hms (Nat.le_refl _) rfl c
  have e := sleepIf_onSchedule irq cycles ms _ _ 250 .SLEEP_250MS 250 _ hms (Nat.le_refl _) rfl d
  have f := sleepIf_onSchedule irq cycles ms _ _ 125 .SLEEP_120MS 120 _ hms (by norm_num) rfl e
  have g := sleepIf_onSchedule irq cycles ms _ _ 64 .SLEEP_60MS 60 _ hms (by norm_num) rfl f
  have i := sleepIf_onSchedule irq cycles ms _ _ 32 .SLEEP_30MS 30 _ hms (by norm_num) rfl g
  have j := sleepIf_onSchedule irq cycles ms _ _ 16 .SLEEP_15Ms 15 _ hms (by norm_num) rfl i
  simp only [List.append_assoc] at j
  simp only [quietTail, sleepIfs, List.append_assoc]
  exact j

/-- The method `internalSleep` ends, whatever the interrupts: with the cycles of the
uninterrupted run issued, or stopped after an initial part of them. -/
theorem internalSleep_onSchedule (irq : Nat → Bool) (fuel : Nat) (st : Sleeper)
    (hms : st.ms < 2 ^ 32) (hfuel : st.ms / 8000 < fuel) :
    ∃ st', internalSleep irq fuel st = some st' ∧
      onSchedule st.cycles st.ms (quietCycles st.ms) (quietTail (st.ms % 8000)).1 st' := by
  obtain ⟨w, hw, hs⟩ := sleepWhile_onSchedule irq st.cycles st.ms hms fuel [] st.ms st
    (onSchedule_start st) hfuel
  have hi := sleepIfs_onSchedule irq st.cycles st.ms _ _ w hms hs
  rw [List.nil_append] at hi
  refine ⟨sleepIfs irq w, ?_, hi⟩
  show (sleepWhile irq fuel st).map (sleepIfs irq) = _
  rw [hw]; rfl

/-- The method `internalSleep` when no interrupt occurs and `continueTimer` is true. -/
theorem internalSleep_quiet (irq : Nat → Bool) (fuel : Nat) (st : Sleeper)
    (hirq : ∀ k, irq k = false) (hct : st.continueTimer = true)
    (hms : st.ms < 2 ^ 32) (hfuel : st.ms / 8000 < fuel) :
    ∃ st', internalSleep irq fuel st = some st' ∧
      st'.cycles = st.cycles ++ quietCycles st.ms ∧
      st'.ms = (quietTail (st.ms % 8000)).1 := by
  have hw := sleepWhile_quiet irq hirq fuel st hct hms hfuel
  have hlt : st.ms % 8000 < 2 ^ 32 := Nat.lt_of_le_of_lt (Nat.mod_le _ _) hms
  obtain ⟨k1, k2⟩ := sleepIfs_quiet irq hirq
    ⟨true, st.ms % 8000, st.checks + st.ms / 8000 + 1,
      st.cycles ++ List.replicate (st.ms / 8000) .SLEEP_8S⟩ rfl hlt
  have hk1 : (sleepIfs irq ⟨true, st.ms % 8000, st.checks + st.ms / 8000 + 1,
      st.cycles ++ List.replicate (st.ms / 8000) .SLEEP_8S⟩).ms =
      (quietTail (st.ms % 8000)).1 := k1
  have hk2 : (sleepIfs irq ⟨true, st.ms % 8000, st.checks + st.ms / 8000 + 1,
      st.cycles ++ List.replicate (st.ms / 8000) .SLEEP_8S⟩).cycles =
      (st.cycles ++ List.replicate (st.ms / 8000) .SLEEP_8S) ++
        (quietTail (st.ms % 8000)).2 := k2
  have he : internalSleep irq fuel st =
      some (sleepIfs irq ⟨true, st.ms % 8000, st.checks + st.ms / 8000 + 1,
        st.cycles ++ List.replicate (st.ms / 8000) .SLEEP_8S⟩) := by
    show (sleepWhile irq fuel st).map (sleepIfs irq) = _
    rw [hw]; rfl
  have hk3 : (sleepIfs irq ⟨true, st.ms % 8000, st.checks + st.ms / 8000 + 1,
      st.cycles ++ List.replicate (st.ms / 8000) .SLEEP_8S⟩).cycles =
      st.cycles ++ quietCycles st.ms := by
    rw [hk2, List.append_assoc, quietCycles]
  exact Exists.intro _ (And.intro he (And.intro hk3 hk1))

/-- With `continueTimer` false a line of `internalSleep` issues nothing. -/
theorem sleepIf_stopped (irq : Nat → Bool) (threshold : Nat) (period : period_t) (amount : Nat)
    (st : Sleeper) (hct : st.continueTimer = false) :
    (sleepIf irq threshold period amount st).continueTimer = false ∧
    (sleepIf irq threshold period amount st).cycles = st.cycles := by
  obtain ⟨e2, e1⟩ := sleepTest_snd irq threshold st
  have e : sleepIf irq threshold period amount st =
      if (sleepTest irq threshold st).1 then
        powerDown period amount (sleepTest irq threshold st).2
      else (sleepTest irq threshold st).2 := rfl
  have h1 : (sleepTest irq threshold st).1 = false := by
    rw [e1, hct]; simp
  rw [e, h1, e2, hct]
  simp

/-- With `continueTimer` false `internalSleep` issues nothing. -/
theorem internalSleep_stopped (irq : Nat → Bool) (fuel : Nat) (st : Sleeper)
    (hct : st.continueTimer = false) (hfuel : 0 < fuel) :
    ∃ st', internalSleep irq fuel st = some st' ∧ st'.cycles = st.cycles := by
  obtain ⟨k, rfl⟩ : ∃ k, fuel = k + 1 := ⟨fuel - 1, by omega⟩
  obtain ⟨w1, w2⟩ := sleepIf_stopped irq 8000 .SLEEP_8S 8000 st hct
  have e'' : sleepWhile irq (k + 1) st =
      if (sleepTest irq 8000 st).1 then
        sleepWhile irq k (powerDown .SLEEP_8S 8000 (sleepTest irq 8000 st).2)
      else some (sleepTest irq 8000 st).2 := rfl
  obtain ⟨e2, e1⟩ := sleepTest_snd irq 8000 st
  have h1 : (sleepTest irq 8000 st).1 = false := by
    rw [e1, hct]; simp
  have hw : sleepWhile irq (k + 1) st = some (sleepTest irq 8000 st).2 := by
    rw [e'', h1]; rfl
  have hc0 : (sleepTest irq 8000 st).2.continueTimer = false := by
    rw [e2, hct]; simp
  have hy0 : (sleepTest irq 8000 st).2.cycles = st.cycles := by
    rw [e2]
  obtain ⟨a1, a2⟩ := sleepIf_stopped irq 4000 .SLEEP_4S 4000 _ hc0
  obtain ⟨b1, b2⟩ := sleepIf_stopped irq 2000 .SLEEP_2S 2000 _ a1
  obtain ⟨c1, c2⟩ := sleepIf_stopped irq 1000 .SLEEP_1S 1000 _ b1
  obtain ⟨d1, d2⟩ := sleepIf_stopped irq 500 .SLEEP_500MS 500 _ c1
  obtain ⟨f1, f2⟩ := sleepIf_stopped irq 250 .SLEEP_250MS 250 _ d1
  obtain ⟨g1, g2⟩ := sleepIf_stopped irq 125 .SLEEP_120MS 120 _ f1
  obtain ⟨i1, i2⟩ := sleepIf_stopped irq 64 .SLEEP_60MS 60 _ g1
  obtain ⟨j1, j2⟩ := sleepIf_stopped irq 32 .SLEEP_30MS 30 _ i1
  obtain ⟨l1, l2⟩ := sleepIf_stopped irq 16 .SLEEP_15Ms 15 _ j1
  have he : internalSleep irq (k + 1) st = some (sleepIfs irq (sleepTest irq 8000 st).2) := by
    show (sleepWhile irq (k + 1) st).map (sleepIfs irq) = _
    rw [hw]; rfl
  have hcy : (sleepIfs irq (sleepTest irq 8000 st).2).cycles = st.cycles := by
    simp only [sleepIfs]
    rw [l2, j2, i2, g2, f2, d2, c2, b2, a2, hy0]
  exact Exists.intro _ (And.intro he hcy)

/-- One line of `internalSleep` when `continueTimer` is true and the handler has not
run since the last test. -/
theorem sleepIf_live (irq : Nat → Bool) (threshold : Nat) (period : period_t) (amount : Nat)
    (st : Sleeper) (hct : st.continueTimer = true) (hi : irq st.checks = false)
    (hms : st.ms < 2 ^ 32) (ha : amount ≤ threshold) :
    sleepIf irq threshold period amount st =
      ⟨true, (quietIf threshold period amount st.ms).1, st.checks + 1,
        st.cycles ++ (quietIf threshold period amount st.ms).2⟩ := by
  obtain ⟨e2, e1⟩ := sleepTest_snd irq threshold st
  have e : sleepIf irq threshold period amount st =
      if (sleepTest irq threshold st).1 then
        powerDown period amount (sleepTest irq threshold st).2
      else (sleepTest irq threshold st).2 := rfl
  rw [e, e1, e2, hct, hi]
  simp only [Bool.not_false, Bool.true_and, Bool.and_self]
  by_cases hth : threshold ≤ st.ms
  · have hdec : decide (threshold ≤ st.ms) = true := decide_eq_true hth
    have hsub : (st.ms + 2 ^ 32 - amount) % 2 ^ 32 = st.ms - amount :=
      sub_unsigned_long st.ms amount (by omega) hms
    rw [hdec, if_pos rfl]
    simp only [powerDown, quietIf, if_pos hth, hsub]
  · have hdec : decide (threshold ≤ st.ms) = false := decide_eq_false hth
    rw [hdec]
    simp only [Bool.false_eq_true, if_false, quietIf, if_neg hth, List.append_nil]

/-- One line of `internalSleep` when the handler has run since the last test. -/
theorem sleepIf_hit (irq : Nat → Bool) (threshold : Nat) (period : period_t) (amount : Nat)
    (st : Sleeper) (hi : irq st.checks = true) :
    sleepIf irq threshold period amount st = ⟨false, st.ms, st.checks + 1, st.cycles⟩ := by
  obtain ⟨e2, e1⟩ := sleepTest_snd irq threshold st
  have e : sleepIf irq threshold period amount st =
      if (sleepTest irq threshold st).1 then
        powerDown period amount (sleepTest irq threshold st).2
      else (sleepTest irq threshold st).2 := rfl
  rw [e, e1, e2, hi]
  simp

theorem quietStep_foldl (lines : List (Nat × period_t × Nat)) :
    ∀ (x : Nat) (acc : List period_t),
      lines.foldl quietStep (x, acc) =
        ((lines.foldl quietStep (x, [])).1, acc ++ (lines.foldl quietStep (x, [])).2) := by
  induction lines with
  | nil => intro x acc; simp
  | cons l rest ih =>
    intro x acc
    simp only [List.foldl_cons, quietStep, List.nil_append]
    rw [ih _ (acc ++ _), ih _ (quietIf l.1 l.2.1 l.2.2 x).2, List.append_assoc]

theorem sleepLines_stopped (irq : Nat → Bool) (lines : List (Nat × period_t × Nat)) :
    ∀ st : Sleeper, st.continueTimer = false →
      (sleepLines irq lines st).cycles = st.cycles := by
  induction lines with
  | nil => intro st _; rfl
  | cons l rest ih =>
    intro st hct
    obtain ⟨h1, h2⟩ := sleepIf_stopped irq l.1 l.2.1 l.2.2 st hct
    show (sleepLines irq rest (sleepIf irq l.1 l.2.1 l.2.2 st)).cycles = _
    rw [ih _ h1, h2]

/-- Lines of `internalSleep` when the handler first runs before test `i`: the cycles
are those of the first `i` lines with `continueTimer` true. -/
theorem sleepLines_first (irq : Nat → Bool) (lines : List (Nat × period_t × Nat))
    (hl : ∀ l ∈ lines, l.2.2 ≤ l.1) :
    ∀ (i : Nat) (st : Sleeper), st.continueTimer = true → st.ms < 2 ^ 32 →
      (∀ k, k < i → irq (st.checks + k) = false) → irq (st.checks + i) = true →
      (sleepLines irq lines st).cycles =
        st.cycles ++ ((lines.take i).foldl quietStep (st.ms, [])).2 := by
  induction lines with
  | nil => intro i st _ _ _ _; simp [sleepLines]
  | cons l rest ih =>
    intro i st hct hms hq hit
    have hrest : ∀ l ∈ rest, l.2.2 ≤ l.1 := fun l h => hl l (List.mem_cons_of_mem _ h)
    show (sleepLines irq rest (sleepIf irq l.1 l.2.1 l.2.2 st)).cycles = _
    cases i with
    | zero =>
      rw [sleepIf_hit irq l.1 l.2.1 l.2.2 st hit, sleepLines_stopped irq rest _ rfl]
      simp
    | succ j =>
      rw [sleepIf_live irq l.1 l.2.1 l.2.2 st hct (hq 0 (Nat.succ_pos _)) hms
        (hl l (List.mem_cons_self _ _))]
      have hlt : (quietIf l.1 l.2.1 l.2.2 st.ms).1 < 2 ^ 32 :=
        Nat.lt_of_le_of_lt (quietIf_le _ _ _ _) hms
      rw [ih hrest j ⟨true, (quietIf l.1 l.2.1 l.2.2 st.ms).1, st.checks + 1,
        st.cycles ++ (quietIf l.1 l.2.1 l.2.2 st.ms).2⟩ rfl hlt
        (fun k hk => by
          have := hq (k + 1) (Nat.succ_lt_succ hk)
          rw [← this]; congr 1; show st.checks + 1 + k = _; omega)
        (by rw [← hit]; congr 1; show st.checks + 1 + j = _; omega)]
      simp only [List.take_succ_cons, List.foldl_cons, quietStep, List.nil_append]
      rw [quietStep_foldl (rest.take j) _ (quietIf l.1 l.2.1 l.2.2 st.ms).2, List.append_assoc]

theorem sleepIfs_lines (irq : Nat → Bool) (st : Sleeper) :
    sleepIfs irq st = sleepLines irq ifLines st := rfl

/-- The `while` line when the handler first runs before test `i`. -/
theorem sleepWhile_first (irq : Nat → Bool) :
    ∀ (fuel i : Nat) (st : Sleeper), st.continueTimer = true → st.ms < 2 ^ 32 →
      st.ms / 8000 < fuel →
      (∀ k, k < i → irq (st.checks + k) = false) → irq (st.checks + i) = true →
      ∃ w, sleepWhile irq fuel st = some w ∧
        (i ≤ st.ms / 8000 → w.continueTimer = false ∧
          w.cycles = st.cycles ++ List.replicate i .SLEEP_8S) ∧
        (st.ms / 8000 < i → w = ⟨true, st.ms % 8000, st.checks + st.ms / 8000 + 1,
          st.cycles ++ List.replicate (st.ms / 8000) .SLEEP_8S⟩) := by
  intro fuel
  induction fuel with
  | zero => intro i st _ _ h; omega
  | succ f ih =>
    intro i st hct hms hf hq hit
    have e : sleepWhile irq (f + 1) st =
        if (sleepTest irq 8000 st).1 then
          sleepWhile irq f (powerDown .SLEEP_8S 8000 (sleepTest irq 8000 st).2)
        else some (sleepTest irq 8000 st).2 := rfl
    have eif : sleepIf irq 8000 .SLEEP_8S 8000 st =
        if (sleepTest irq 8000 st).1 then
          powerDown .SLEEP_8S 8000 (sleepTest irq 8000 st).2
        else (sleepTest irq 8000 st).2 := rfl
    obtain ⟨e2, e1⟩ := sleepTest_snd irq 8000 st
    cases i with
    | zero =>
      have hit0 : irq st.checks = true := hit
      have h1 : (sleepTest irq 8000 st).1 = false := by rw [e1, hit0]; simp
      refine ⟨(sleepTest irq 8000 st).2, by rw [e, h1]; rfl, fun _ => ?_, fun h => by omega⟩
      rw [e2, hit0]
      simp
    | succ j =>
      have hi0 : irq st.checks = false := hq 0 (Nat.succ_pos _)
      by_cases h : 8000 ≤ st.ms
      · have h1 : (sleepTest irq 8000 st).1 = true := by
          rw [e1, hi0, hct]; simp [h]
        have hlive := sleepIf_live irq 8000 .SLEEP_8S 8000 st hct hi0 hms (Nat.le_refl _)
        rw [eif, h1, if_pos rfl] at hlive
        have hqi : quietIf 8000 .SLEEP_8S 8000 st.ms = (st.ms - 8000, [.SLEEP_8S]) := by
          simp only [quietIf, if_pos h]
        rw [hqi] at hlive
        obtain ⟨x, hx⟩ : ∃ x, x = st.ms - 8000 := ⟨_, rfl⟩
        rw [← hx] at hlive
        have hdiv : x / 8000 + 1 = st.ms / 8000 := by omega
        have hmod : x % 8000 = st.ms % 8000 := by omega
        have hxlt : x < 2 ^ 32 := by omega
        have hxf : x / 8000 < f := by omega
        obtain ⟨w, hw, w1, w2⟩ := ih j ⟨true, x, st.checks + 1,
          st.cycles ++ [.SLEEP_8S]⟩ rfl hxlt hxf
          (fun k hk => by
            have := hq (k + 1) (Nat.succ_lt_succ hk)
            rw [← this]; congr 1; show st.checks + 1 + k = _; omega)
          (by rw [← hit]; congr 1; show st.checks + 1 + j = _; omega)
        have w1' : j ≤ x / 8000 → w.continueTimer = false ∧
            w.cycles = (st.cycles ++ [period_t.SLEEP_8S]) ++ List.replicate j .SLEEP_8S := w1
        have w2' : x / 8000 < j → w = ⟨true, x % 8000, st.checks + 1 + x / 8000 + 1,
            (st.cycles ++ [period_t.SLEEP_8S]) ++ List.replicate (x / 8000) .SLEEP_8S⟩ := w2
        refine ⟨w, by rw [e, h1, if_pos rfl, hlive]; exact hw, fun hle => ?_, fun hlt => ?_⟩
        · obtain ⟨a1, a2⟩ := w1' (by omega)
          refine ⟨a1, ?_⟩
          rw [a2, List.append_assoc, List.replicate_succ]; rfl
        · have a := w2' (by omega)
          rw [a]
          have hc : st.checks + 1 + x / 8000 + 1 = st.checks + st.ms / 8000 + 1 := by
            omega
          rw [hmod, hc, ← hdiv, List.replicate_succ, List.append_assoc]; rfl
      · have h1 : (sleepTest irq 8000 st).1 = false := by
          rw [e1, hi0, hct]; simp [h]
        have hd : st.ms / 8000 = 0 := by omega
        have hm : st.ms % 8000 = st.ms := by omega
        refine ⟨(sleepTest irq 8000 st).2, by rw [e, h1]; rfl, fun hle => by omega, fun _ => ?_⟩
        rw [e2, hi0, hct, hd, hm]
        simp

theorem quietStep_while (k : Nat) :
    ∀ (x : Nat) (acc : List period_t), k ≤ x / 8000 →
      (List.replicate k ((8000 : Nat), period_t.SLEEP_8S, (8000 : Nat))).foldl quietStep (x, acc) =
        (x - 8000 * k, acc ++ List.replicate k .SLEEP_8S) := by
  induction k with
  | zero => intro x acc _; simp
  | succ j ih =>
    intro x acc hk
    have h : 8000 ≤ x := by omega
    obtain ⟨y, hy⟩ : ∃ y, y = x - 8000 := ⟨_, rfl⟩
    have hq : quietIf 8000 .SLEEP_8S 8000 x = (y, [.SLEEP_8S]) := by
      simp only [quietIf, if_pos h, hy]
    have hj : j ≤ y / 8000 := by omega
    have hs : y - 8000 * j = x - 8000 * (j + 1) := by omega
    rw [List.replicate_succ, List.foldl_cons]
    show List.foldl quietStep ((quietIf 8000 .SLEEP_8S 8000 x).1,
      acc ++ (quietIf 8000 .SLEEP_8S 8000 x).2) _ = _
    rw [hq, ih y _ hj, hs, List.append_assoc]
    rfl

theorem quietRun_while (ms i : Nat) (hi : i ≤ ms / 8000) :
    quietRun ms i = (ms - 8000 * i, List.replicate i .SLEEP_8S) := by
  have ht : (quietTests ms).take i =
      List.replicate i ((8000 : Nat), period_t.SLEEP_8S, (8000 : Nat)) := by
    unfold quietTests
    rw [List.take_append_of_le_length (by rw [List.length_replicate]; omega),
      List.take_replicate, Nat.min_eq_left (by omega)]
  unfold quietRun
  rw [ht, quietStep_while i ms [] hi, List.nil_append]

theorem quietRun_ifs (ms i : Nat) (hi : ms / 8000 < i) :
    quietRun ms i =
      (((ifLines.take (i - (ms / 8000 + 1))).foldl quietStep (ms % 8000, [])).1,
        List.replicate (ms / 8000) .SLEEP_8S ++
          ((ifLines.take (i - (ms / 8000 + 1))).foldl quietStep (ms % 8000, [])).2) := by
  have ht : (quietTests ms).take i =
      List.replicate (ms / 8000) ((8000 : Nat), period_t.SLEEP_8S, (8000 : Nat)) ++
        (((8000 : Nat), period_t.SLEEP_8S, (8000 : Nat)) ::
          ifLines.take (i - (ms / 8000 + 1))) := by
    unfold quietTests
    rw [List.take_append_eq_append_take, List.length_replicate,
      List.take_of_length_le (by rw [List.length_replicate]; omega),
      List.replicate_succ', List.append_assoc]
    rfl
  obtain ⟨y, hy⟩ : ∃ y, y = ms % 8000 := ⟨_, rfl⟩
  have hsub : ms - 8000 * (ms / 8000) = y := by omega
  have hlt : ¬ 8000 ≤ y := by omega
  have hq : quietIf 8000 .SLEEP_8S 8000 y = (y, []) := by
    simp only [quietIf, if_neg hlt]
  unfold quietRun
  rw [ht, List.foldl_append, quietStep_while _ ms [] (Nat.le_refl _), hsub, List.foldl_cons,
    ← hy]
  show List.foldl quietStep ((quietIf 8000 .SLEEP_8S 8000 y).1,
    ([] ++ List.replicate (ms / 8000) period_t.SLEEP_8S) ++
      (quietIf 8000 .SLEEP_8S 8000 y).2) _ = _
  rw [hq, List.nil_append, List.append_nil, quietStep_foldl]

theorem ifLines_quietTail (y : Nat) : ifLines.foldl quietStep (y, []) = quietTail y := by
  simp only [ifLines, List.foldl_cons, List.foldl_nil, quietStep, quietTail, List.nil_append]

/-- The tests of the uninterrupted run taken all together issue `quietCycles`. -/
theorem quietRun_all (ms i : Nat) (hi : ms / 8000 + 10 ≤ i) :
    (quietRun ms i).2 = quietCycles ms := by
  have ht : ifLines.take (i - (ms / 8000 + 1)) = ifLines :=
    List.take_of_length_le (by
      have : ifLines.length = 9 := rfl
      omega)
  rw [quietRun_ifs ms i (by omega), ht, ifLines_quietTail]
  rfl

/-- The method `internalSleep` when the handler first runs before test `i` of the
call: the cycles are those of the first `i` tests of the uninterrupted run. -/
theorem internalSleep_first (irq : Nat → Bool) (fuel i : Nat) (st : Sleeper)
    (hct : st.continueTimer = true) (hms : st.ms < 2 ^ 32) (hfuel : st.ms / 8000 < fuel)
    (hq : ∀ k, k < i → irq (st.checks + k) = false) (hit : irq (st.checks + i) = true) :
    ∃ st', internalSleep irq fuel st = some st' ∧
      st'.cycles = st.cycles ++ (quietRun st.ms i).2 := by
  obtain ⟨w, hw, w1, w2⟩ := sleepWhile_first irq fuel i st hct hms hfuel hq hit
  have he : internalSleep irq fuel st = some (sleepLines irq ifLines w) := by
    show (sleepWhile irq fuel st).map (sleepIfs irq) = _
    rw [hw]; rfl
  refine ⟨_, he, ?_⟩
  by_cases hi : i ≤ st.ms / 8000
  · obtain ⟨a1, a2⟩ := w1 hi
    rw [sleepLines_stopped irq ifLines w a1, a2, quietRun_while st.ms i hi]
  · have hi2 : st.ms / 8000 < i := by omega
    have hw2 := w2 hi2
    obtain ⟨j, hj⟩ : ∃ j, j = i - (st.ms / 8000 + 1) := ⟨_, rfl⟩
    obtain ⟨y, hy⟩ : ∃ y, y = st.ms % 8000 := ⟨_, rfl⟩
    obtain ⟨c, hc⟩ : ∃ c, c = st.checks + st.ms / 8000 + 1 := ⟨_, rfl⟩
    rw [← hy, ← hc] at hw2
    have hylt : y < 2 ^ 32 := by omega
    have hfirst := sleepLines_first irq ifLines (by decide) j
      ⟨true, y, c, st.cycles ++ List.replicate (st.ms / 8000) .SLEEP_8S⟩ rfl hylt
      (fun k hk => by
        have := hq (st.ms / 8000 + 1 + k) (by omega)
        rw [← this]; congr 1; show c + k = _; omega)
      (by rw [← hit]; congr 1; show c + j = _; omega)
    rw [hw2, hfirst, quietRun_ifs st.ms i hi2, ← hj, ← hy, List.append_assoc]

/-- C23. For every remaining time `ms` and whatever the tests at which the interrupt
handler has run (`irq`), `internalSleep` ends and the cycles it issues are an initial
part of the cycles it issues for the same `ms` when no interrupt occurs and
`continueTimer` is true; it issues all of them when `continueTimer` is still true at
the end, and none when `continueTimer` is false at the call.  When `continueTimer` is
true at the call and the handler first runs before test `i` of the call (counted from
0), the cycles issued are exactly those of the first `i` tests of the uninterrupted
run: no cycle is started at test `i` or after it.  The tests of the uninterrupted run
taken all together issue the cycles of the uninterrupted run. -/
theorem internalSleep_cycles_prefix (irq : Nat → Bool) (fuel : Nat) (st : Sleeper)
    (hms : st.ms < 2 ^ 32) (hfuel : st.ms / 8000 < fuel) :
    ∃ st' quiet pre, internalSleep irq fuel st = some st' ∧
      internalSleep (fun _ => false) fuel { st with continueTimer := true } = some quiet ∧
      quiet.cycles = st.cycles ++ quietCycles st.ms ∧
      st'.cycles = st.cycles ++ pre ∧ pre <+: quietCycles st.ms ∧
      (st'.continueTimer = true → pre = quietCycles st.ms) ∧
      (st.continueTimer = false → pre = []) ∧
      (∀ i, st.continueTimer = true → (∀ k, k < i → irq (st.checks + k) = false) →
        irq (st.checks + i) = true → pre = (quietRun st.ms i).2) ∧
      (∀ i, st.ms / 8000 + 10 ≤ i → (quietRun st.ms i).2 = quietCycles st.ms) := by
  obtain ⟨st', h1, h2⟩ := internalSleep_onSchedule irq fuel st hms hfuel
  obtain ⟨quiet, q1, q2, _⟩ := internalSleep_quiet (fun _ => false) fuel
    ⟨true, st.ms, st.checks, st.cycles⟩ (fun _ => rfl) rfl hms hfuel
  have hq2 : quiet.cycles = st.cycles ++ quietCycles st.ms := q2
  have hstop : ∀ pre, st'.cycles = st.cycles ++ pre → st.continueTimer = false → pre = [] := by
    intro pre hpre hct
    obtain ⟨u, u1, u2⟩ := internalSleep_stopped irq fuel st hct (by omega)
    rw [h1, Option.some.injEq] at u1
    subst u1
    rw [hpre] at u2
    exact List.append_right_eq_self.mp u2
  have hfirst : ∀ pre, st'.cycles = st.cycles ++ pre → ∀ i, st.continueTimer = true →
      (∀ k, k < i → irq (st.checks + k) = false) → irq (st.checks + i) = true →
      pre = (quietRun st.ms i).2 := by
    intro pre hpre i hct hq hit
    obtain ⟨u, u1, u2⟩ := internalSleep_first irq fuel i st hct hms hfuel hq hit
    rw [h1, Option.some.injEq] at u1
    subst u1
    rw [hpre] at u2
    exact List.append_cancel_left u2
  rcases h2 with ⟨_, _, hc, _⟩ | ⟨hct, pre, hpre, hc, _⟩
  · exact ⟨st', quiet, quietCycles st.ms, h1, q1, hq2, hc, List.prefix_refl _, fun _ => rfl,
      hstop _ hc, hfirst _ hc, quietRun_all st.ms⟩
  · refine ⟨st', quiet, pre, h1, q1, hq2, hc, hpre, fun h => ?_, hstop _ hc, hfirst _ hc,
      quietRun_all st.ms⟩
    rw [hct] at h
    cases h

theorem internalSleep_cycles_prefix_witness :
    (Sleeper.mk true 1500 0 []).ms < 2 ^ 32 ∧ (Sleeper.mk true 1500 0 []).ms / 8000 < 1 ∧
    internalSleep (fun k => decide (k = 4)) 1 ⟨true, 1500, 0, []⟩ =
      some ⟨false, 500, 10, [.SLEEP_1S]⟩ ∧
    quietCycles 1500 = [.SLEEP_1S, .SLEEP_500MS] ∧
    quietRun 1500 4 = (500, [.SLEEP_1S]) ∧ quietRun 1500 5 = (0, [.SLEEP_1S, .SLEEP_500MS]) ∧
    ∃ st' quiet pre, internalSleep (fun k => decide (k = 4)) 1 ⟨true, 1500, 0, []⟩ = some st' ∧
      internalSleep (fun _ => false) 1
        { (Sleeper.mk true 1500 0 []) with continueTimer := true } = some quiet ∧
      quiet.cycles = (Sleeper.mk true 1500 0 []).cycles ++
        quietCycles (Sleeper.mk true 1500 0 []).ms ∧
      st'.cycles = (Sleeper.mk true 1500 0 []).cycles ++ pre ∧
      pre <+: quietCycles (Sleeper.mk true 1500 0 []).ms ∧
      (st'.continueTimer = true → pre = quietCycles (Sleeper.mk true 1500 0 []).ms) ∧
      ((Sleeper.mk true 1500 0 []).continueTimer = false → pre = []) ∧
      (∀ i, (Sleeper.mk true 1500 0 []).continueTimer = true →
        (∀ k, k < i → (fun k => decide (k = 4)) ((Sleeper.mk true 1500 0 []).checks + k) = false) →
        (fun k => decide (k = 4)) ((Sleeper.mk true 1500 0 []).checks + i) = true →
        pre = (quietRun (Sleeper.mk true 1500 0 []).ms i).2) ∧
      (∀ i, (Sleeper.mk true 1500 0 []).ms / 8000 + 10 ≤ i →
        (quietRun (Sleeper.mk true 1500 0 []).ms i).2 =
          quietCycles (Sleeper.mk true 1500 0 []).ms) :=
  ⟨by norm_num, by decide, by decide, by decide, by decide, by decide,
    internalSleep_cycles_prefix (fun k => decide (k = 4)) 1 ⟨true, 1500, 0, []⟩
      (by norm_num) (by decide)⟩

/-- C24. For every remaining time `ms`, interrupted or not, `internalSleep` ends, and
the amounts of the cycles it has issued and the time left in the `unsigned long`
counter add up to `ms`: no subtraction wraps, and the total of the cycles never
exceeds `ms`.  With no interrupt (and `continueTimer` true at the call) the total
is at least `ms - 24`. -/
theorem internalSleep_total (irq : Nat → Bool) (fuel : Nat) (st : Sleeper)
    (hms : st.ms < 2 ^ 32) (hfuel : st.ms / 8000 < fuel) :
    ∃ st' issued, internalSleep irq fuel st = some st' ∧
      st'.cycles = st.cycles ++ issued ∧
      totalMillis issued + st'.ms = st.ms ∧ totalMillis issued ≤ st.ms ∧
      ((∀ k, irq k = false) → st.continueTimer = true → st.ms - 24 ≤ totalMillis issued) := by
  obtain ⟨st', h1, h2⟩ := internalSleep_onSchedule irq fuel st hms hfuel
  have hquiet : (∀ k, irq k = false) → st.continueTimer = true → st'.ms ≤ 24 := by
    intro hirq hct
    obtain ⟨u, u1, _, u3⟩ := internalSleep_quiet irq fuel st hirq hct hms hfuel
    rw [h1, Option.some.injEq] at u1
    subst u1
    rw [u3]
    exact (quietTail_remainder (st.ms % 8000) (Nat.mod_lt _ (by norm_num))).1
  rcases h2 with ⟨_, hx, hc, ht⟩ | ⟨_, pre, _, hc, ht⟩
  · have ht' : totalMillis (quietCycles st.ms) + st'.ms = st.ms := by rw [hx]; exact ht
    refine ⟨st', quietCycles st.ms, h1, hc, ht', by omega, fun hirq hct => ?_⟩
    have := hquiet hirq hct
    omega
  · refine ⟨st', pre, h1, hc, ht, by omega, fun hirq hct => ?_⟩
    have := hquiet hirq hct
    omega

theorem internalSleep_total_witness :
    (Sleeper.mk true 1500 0 []).ms < 2 ^ 32 ∧ (Sleeper.mk true 1500 0 []).ms / 8000 < 1 ∧
    ∃ st' issued, internalSleep (fun k => decide (k = 4)) 1 ⟨true, 1500, 0, []⟩ = some st' ∧
      st'.cycles = (Sleeper.mk true 1500 0 []).cycles ++ issued ∧
      totalMillis issued + st'.ms = (Sleeper.mk true 1500 0 []).ms ∧
      totalMillis issued ≤ (Sleeper.mk true 1500 0 []).ms ∧
      ((∀ k, (fun k => decide (k = 4)) k = false) →
        (Sleeper.mk true 1500 0 []).continueTimer = true →
        (Sleeper.mk true 1500 0 []).ms - 24 ≤ totalMillis issued) :=
  ⟨by norm_num, by decide,
    internalSleep_total (fun k => decide (k = 4)) 1 ⟨true, 1500, 0, []⟩
      (by norm_num) (by decide)⟩

/-! ## The layout of the packed header bytes -/

theorem header_layout_byte : ∀ y, y < 256 →
    y = BF_GET y 0 2 + 4 * BF_GET y 2 1 + 8 * BF_GET y 3 5 ∧
    y = BF_GET y 0 3 + 8 * BF_GET y 3 1 + 16 * BF_GET y 4 1 + 32 * BF_GET y 5 3 ∧
    BF_GET y 0 2 < 4 ∧ BF_GET y 2 1 < 2 ∧ BF_GET y 3 5 < 32 ∧
    BF_GET y 0 3 < 8 ∧ BF_GET y 3 1 < 2 ∧ BF_GET y 4 1 < 2 ∧ BF_GET y 5 3 < 8 := by
  decide!

/-- C21. For every message (the two packed header bytes being bytes):
`version_length` = version + 4 * signed + 8 * length and `command_ack_payload` =
command + 8 * requestAck + 16 * isAck + 32 * payloadType for the values the getter
macros return, which lie below 4, 2, 32 and 8, 2, 2, 8: version in bits 0-1, signed
in bit 2, length in bits 3-7; command in bits 0-2, request-ack in bit 3, is-ack in
bit 4, payload type in bits 5-7. -/
theorem header_layout (m : MyMessage) (hv : m.version_length < 256)
    (hc : m.command_ack_payload < 256) :
    m.version_length = mGetVersion m + 4 * mGetSigned m + 8 * mGetLength m ∧
    m.command_ack_payload =
      mGetCommand m + 8 * mGetRequestAck m + 16 * mGetAck m + 32 * mGetPayloadType m ∧
    mGetVersion m < 4 ∧ mGetSigned m < 2 ∧ mGetLength m < 32 ∧
    mGetCommand m < 8 ∧ mGetRequestAck m < 2 ∧ mGetAck m < 2 ∧ mGetPayloadType m < 8 := by
  obtain ⟨a1, _, a3, a4, a5, _⟩ := header_layout_byte m.version_length hv
  obtain ⟨_, b2, _, _, _, b6, b7, b8, b9⟩ := header_layout_byte m.command_ack_payload hc
  exact ⟨a1, b2, a3, a4, a5, b6, b7, b8, b9⟩

theorem header_layout_witness :
    sampleFrame.version_length < 256 ∧ sampleFrame.command_ack_payload < 256 ∧
    sampleFrame.version_length =
      mGetVersion sampleFrame + 4 * mGetSigned sampleFrame + 8 * mGetLength sampleFrame ∧
    sampleFrame.command_ack_payload =
      mGetCommand sampleFrame + 8 * mGetRequestAck sampleFrame + 16 * mGetAck sampleFrame +
        32 * mGetPayloadType sampleFrame ∧
    mGetVersion sampleFrame < 4 ∧ mGetSigned sampleFrame < 2 ∧ mGetLength sampleFrame < 32 ∧
    mGetCommand sampleFrame < 8 ∧ mGetRequestAck sampleFrame < 2 ∧ mGetAck sampleFrame < 2 ∧
    mGetPayloadType sampleFrame < 8 :=
  ⟨by decide, by decide, header_layout sampleFrame (by decide) (by decide)⟩

/-! ## The sketch's own storage -/

/-- C22. `saveState(pos, value)` makes no EEPROM write when `loadState(pos)` already
equals `value` and exactly one otherwise, of `value` at
`EEPROM_LOCAL_CONFIG_ADDRESS + pos`; afterwards `loadState(pos)` returns `value`,
`loadState(p)` is unchanged for every other position `p`, and every other EEPROM byte
is unchanged. -/
theorem saveState_writes_on_change (env : Env) (s : State) (pos value : Nat) :
    (saveState env s pos value).trace =
      (if loadState env s pos = value then s.trace
       else s.trace ++ [.eepromWrite (env.EEPROM_LOCAL_CONFIG_ADDRESS + pos) value]) ∧
    loadState env (saveState env s pos value) pos = value ∧
    (∀ p, p ≠ pos → loadState env (saveState env s pos value) p = loadState env s p) ∧
    (∀ a, a ≠ env.EEPROM_LOCAL_CONFIG_ADDRESS + pos →
      (saveState env s pos value).eeprom a = s.eeprom a) := by
  unfold saveState
  by_cases h : loadState env s pos = value
  · rw [if_neg (not_not.mpr h), if_pos h]
    exact ⟨rfl, h, fun _ _ => rfl, fun _ _ => rfl⟩
  · rw [if_pos h, if_neg h]
    refine ⟨rfl, ?_, fun p hp => ?_, fun a ha => ?_⟩
    · simp [loadState, State.eepromWriteByte]
    · have : env.EEPROM_LOCAL_CONFIG_ADDRESS + p ≠ env.EEPROM_LOCAL_CONFIG_ADDRESS + pos := by
        omega
      simp [loadState, State.eepromWriteByte, this]
    · simp [State.eepromWriteByte, ha]

end MySensors
